import Mathlib

/-
  Verification of the Simple LRU page-buffer cache
  (src/src/backend/access/transam/slru.c).

  The C module is embedded shallowly:
  - shared memory (SlruSharedData) becomes the structure SlruShared, with the
    per-slot arrays as lists; `num_slots` is the length of `page_status`;
  - C `int` values are modelled as Lean Int with 32-bit wraparound applied at
    every arithmetic step where the C code can overflow (`wrap32`); C `/` and
    `%` on int are Int.tdiv / Int.tmod (truncation toward zero);
  - the filesystem is an explicit value (SlruFs): a directory listing (the
    file names ReadDir would return) plus a map from (segment, page-in-segment)
    to the page image most recently written there; a segment file exists iff
    its name is in the listing, and reading an offset never written is a short
    read (the read syscall returning fewer than BLCKSZ bytes);
  - syscall failures are injected through ReadEnv / WriteEnv oracles, one
    outcome per syscall kind, so a theorem can quantify over I/O outcomes;
  - the code is modelled in its single-threaded projection: LWLocks never
    block, so SimpleLruWaitIO's conditional acquire always succeeds and its
    rollback branch runs; the pool-wide control lock is tracked explicitly in
    the state (`controlLock`) at every acquire/release of ControlLock so that
    lock-protocol claims are statable; per-buffer locks gate I/O between
    threads only and have no sequential effect;
  - ereport(ERROR) is the `ioError` outcome (it aborts the operation and
    carries the state at the moment of the report); functions whose C loops
    can only terminate through shared-memory changes take fuel and return
    `noFuel` when it runs out;
  - pools are modelled with lsn_groups_per_page = 0 (as for CLOG-style use
    without async commit), so SimpleLruZeroLSNs and the group_lsn /
    XLogFlush branch of SlruPhysicalWritePage are inactive;
  - BLCKSZ is a build-time constant defined outside this repository's
    sources, so it is kept as an explicit parameter `blcksz`.
-/

set_option autoImplicit false

namespace Slru

/-- SLRU_PAGES_PER_SEGMENT from slru.c (32 pages per segment file). -/
def SLRU_PAGES_PER_SEGMENT : Int := 32

/-- SLRU_FILENAME_LEN: segment file names are four hex digits. -/
def SLRU_FILENAME_LEN : Nat := 4

/-- The errno value ENOENT (file does not exist). -/
def ENOENT : Int := 2

/-- Interpret an unbounded integer as a 32-bit two's-complement int. -/
def wrap32 (x : Int) : Int :=
  (x + 2 ^ 31) % 2 ^ 32 - 2 ^ 31

/-- 32-bit int addition. -/
def int32add (a b : Int) : Int := wrap32 (a + b)

/-- 32-bit int subtraction (the signed delta computation of the LRU scan). -/
def int32sub (a b : Int) : Int := wrap32 (a - b)

/-- Page states of a buffer slot (SlruPageStatus in slru.h). -/
inductive SlruPageStatus where
  | EMPTY
  | VALID
  | READ_IN_PROGRESS
  | WRITE_IN_PROGRESS
deriving DecidableEq

/-- Saved info for SlruReportIOError (SlruErrorCause in slru.c). -/
inductive SlruErrorCause where
  | OPEN_FAILED
  | SEEK_FAILED
  | READ_FAILED
  | WRITE_FAILED
  | FSYNC_FAILED
  | CLOSE_FAILED
deriving DecidableEq

/-- LWLock acquisition modes (LW_SHARED / LW_EXCLUSIVE). -/
inductive LockMode where
  | shared
  | exclusive
deriving DecidableEq

/--
The shared-memory state of one pool (SlruSharedData).  The slot arrays are
lists; the slot count is the length of `page_status`.  `controlLock` tracks
whether the current thread holds the pool's control LWLock and in which mode.
-/
structure SlruShared where
  page_status : List SlruPageStatus
  page_dirty : List Bool
  page_number : List Int
  page_lru_count : List Int
  page_buffer : List (List Nat)
  cur_lru_count : Int
  latest_page_number : Int
  controlLock : Option LockMode
deriving DecidableEq

/-- The unshared control struct: the client's page-order predicate and the
fsync policy flag (SlruCtlData; Dir is implicit in the filesystem model). -/
structure SlruCtl where
  PagePrecedes : Int → Int → Bool
  do_fsync : Bool

/-- Number of slots in the pool (shared->num_slots). -/
def numSlots (s : SlruShared) : Nat := s.page_status.length

/-- Well-formedness: the pool has at least one slot and all per-slot arrays
have the same length (true of every pool SimpleLruInit builds). -/
def wf (s : SlruShared) : Prop :=
  0 < numSlots s ∧
  s.page_dirty.length = numSlots s ∧
  s.page_number.length = numSlots s ∧
  s.page_lru_count.length = numSlots s ∧
  s.page_buffer.length = numSlots s

instance (s : SlruShared) : Decidable (wf s) := by
  unfold wf; infer_instance

/-- shared->page_status[i]. -/
def statusAt (s : SlruShared) (i : Nat) : SlruPageStatus := s.page_status.getD i .EMPTY

/-- shared->page_dirty[i]. -/
def dirtyAt (s : SlruShared) (i : Nat) : Bool := s.page_dirty.getD i false

/-- shared->page_number[i]. -/
def pageAt (s : SlruShared) (i : Nat) : Int := s.page_number.getD i 0

/-- Read an entry of an lru-count list. -/
def lruAt (l : List Int) (i : Nat) : Int := l.getD i 0

/-- shared->page_buffer[i]. -/
def bufferAt (s : SlruShared) (i : Nat) : List Nat := s.page_buffer.getD i []

/-- Assign shared->page_status[i]. -/
def setStatus (s : SlruShared) (i : Nat) (v : SlruPageStatus) : SlruShared :=
  { s with page_status := s.page_status.set i v }

/-- Assign shared->page_dirty[i]. -/
def setDirty (s : SlruShared) (i : Nat) (v : Bool) : SlruShared :=
  { s with page_dirty := s.page_dirty.set i v }

/-- Assign shared->page_number[i]. -/
def setPageNumber (s : SlruShared) (i : Nat) (v : Int) : SlruShared :=
  { s with page_number := s.page_number.set i v }

/-- Overwrite a slot's page buffer. -/
def setBuffer (s : SlruShared) (i : Nat) (v : List Nat) : SlruShared :=
  { s with page_buffer := s.page_buffer.set i v }

/-- Record an acquire or release of the pool's control lock. -/
def setCtrl (s : SlruShared) (l : Option LockMode) : SlruShared :=
  { s with controlLock := l }

/--
The filesystem seen by one pool's directory: the names a directory scan
returns, and the page images written so far, keyed by (segment number,
page index within the segment).  A segment file exists iff its name is
listed; reading a (segment, page) never written behaves as a short read.
-/
structure SlruFs where
  dir : List String
  pages : List ((Int × Int) × List Nat)
deriving DecidableEq

/-- Format a segment number the way SlruSimpleFileName does: printf %04X
(unsigned hex, uppercase, zero-padded to at least four digits). -/
def SlruSimpleFileName (segno : Int) : String :=
  let u : Nat := (segno % (2 : Int) ^ 32).toNat
  let ds : List Char := (Nat.toDigits 16 u).map Char.toUpper
  String.mk (List.replicate (SLRU_FILENAME_LEN - ds.length) '0' ++ ds)

/-- Does the segment file exist (can open() without O_CREAT succeed)? -/
def segExists (fs : SlruFs) (segno : Int) : Bool :=
  fs.dir.contains (SlruSimpleFileName segno)

/-- The page image stored at (segno, rpageno), if that offset was written. -/
def fsReadPage (fs : SlruFs) (segno rpageno : Int) : Option (List Nat) :=
  (fs.pages.find? (fun e => e.1 == (segno, rpageno))).map (fun e => e.2)

/-- Write a page image at (segno, rpageno), creating the segment file if
absent (open with O_CREAT). -/
def fsWritePage (fs : SlruFs) (segno rpageno : Int) (bytes : List Nat) : SlruFs :=
  { dir := if fs.dir.contains (SlruSimpleFileName segno) then fs.dir
           else SlruSimpleFileName segno :: fs.dir,
    pages := ((segno, rpageno), bytes) :: fs.pages }

/-- Injected outcomes for the syscalls of one physical read: `openErr` is the
errno when open() fails for a reason other than the file being absent
(absence itself is determined by the filesystem and reports ENOENT). -/
structure ReadEnv where
  openErr : Option Int
  seekOk : Bool
  readOk : Bool
  closeOk : Bool
deriving DecidableEq

/-- Injected outcomes for the syscalls of one physical write. -/
structure WriteEnv where
  openOk : Bool
  seekOk : Bool
  writeOk : Bool
  fsyncOk : Bool
deriving DecidableEq

/-- All write-path syscalls succeed. -/
def wenvOk (wenv : WriteEnv) : Prop :=
  wenv.openOk = true ∧ wenv.seekOk = true ∧ wenv.writeOk = true ∧ wenv.fsyncOk = true

instance (wenv : WriteEnv) : Decidable (wenvOk wenv) := by
  unfold wenvOk; infer_instance

/--
Result of an orchestrating routine: `ok` is normal return, `ioError` is
SlruReportIOError's ereport(ERROR) aborting the operation (it carries the
error cause, the page number passed to the report, the slot the routine was
working on and the state at the moment of the report), `noFuel` means the
fuel bound was hit before the modelled loop terminated.
-/
inductive SlruOut (α : Type) where
  | ok (val : α) (s : SlruShared) (fs : SlruFs)
  | ioError (cause : SlruErrorCause) (pageno : Int) (slotno : Nat) (s : SlruShared) (fs : SlruFs)
  | noFuel
deriving DecidableEq

/--
SlruRecentlyUsed macro: if the slot's lru count differs from the current
count, advance the current count and store it in the slot.
-/
def SlruRecentlyUsed (s : SlruShared) (slotno : Nat) : SlruShared :=
  if s.cur_lru_count ≠ lruAt s.page_lru_count slotno then
    { s with cur_lru_count := int32add s.cur_lru_count 1,
             page_lru_count := s.page_lru_count.set slotno (int32add s.cur_lru_count 1) }
  else s

/--
SimpleLruWaitIO in the single-threaded projection: nobody else holds the
buffer lock, so the conditional shared acquire always succeeds and the
recovery branch rolls a stuck slot back (READ_IN_PROGRESS becomes EMPTY,
WRITE_IN_PROGRESS becomes VALID and dirty).  The control lock is released and
re-acquired exclusively around the wait.
-/
def SimpleLruWaitIo (s : SlruShared) (slotno : Nat) : SlruShared :=
  if statusAt s slotno = .READ_IN_PROGRESS then
    setStatus (setCtrl s (some .exclusive)) slotno .EMPTY
  else if statusAt s slotno = .WRITE_IN_PROGRESS then
    setDirty (setStatus (setCtrl s (some .exclusive)) slotno .VALID) slotno true
  else setCtrl s (some .exclusive)

/-- The first scan of SlruSelectLRUPage: the slot already holding the page
with a non-EMPTY status, if any. -/
def findSlot (s : SlruShared) (pageno : Int) : Option Nat :=
  (List.range (numSlots s)).find? (fun i => decide (pageAt s i = pageno ∧ statusAt s i ≠ .EMPTY))

/-- Result of the victim-selection scan of SlruSelectLRUPage: either an EMPTY
slot returned immediately, or the chosen best slot; both carry the
page_lru_count array with the in-place repairs performed so far. -/
inductive SelectScan where
  | emptySlot (slot : Nat) (lru : List Int)
  | victim (slot : Nat) (lru : List Int)
deriving DecidableEq

/--
The victim-selection loop of SlruSelectLRUPage, scanning the slot indices in
`L` (called with List.range num_slots).  `cur` is the pre-increment
cur_lru_count; `lru` is the page_lru_count array, repaired in place when a
slot's signed delta is negative; (`bd`, `bs`, `bp`) are best_delta, bestslot
and best_page_number, initialised to (-1, 0, 0).  A slot beats the current
best when its delta is larger, or equal with its page preceding the best
page; the slot holding latest_page_number is never chosen.
-/
def selectLoop (pre : Int → Int → Bool) (s : SlruShared) (cur : Int) :
    List Nat → List Int → Int → Nat → Int → SelectScan
  | [], lru, _, bs, _ => .victim bs lru
  | i :: rest, lru, bd, bs, bp =>
    if statusAt s i = .EMPTY then .emptySlot i lru
    else
      let d0 := int32sub cur (lruAt lru i)
      let lru1 := if d0 < 0 then lru.set i cur else lru
      let d := if d0 < 0 then 0 else d0
      let pg := pageAt s i
      if (d > bd ∨ (d = bd ∧ pre pg bp = true)) ∧ pg ≠ s.latest_page_number then
        selectLoop pre s cur rest lru1 d i pg
      else
        selectLoop pre s cur rest lru1 bd bs bp

/-- The repaired delta of slot `i` as the scan computes it: the signed
32-bit difference, with a negative result treated as 0. -/
def slotDelta (cur : Int) (lru : List Int) (i : Nat) : Int :=
  let d0 := int32sub cur (lruAt lru i)
  if d0 < 0 then 0 else d0

/--
SlruPhysicalReadPage: open the segment (absence reports ENOENT; when
InRecovery that zero-fills the buffer and succeeds), seek, read exactly
BLCKSZ bytes, close.  On failure the boolean is false and the third component
is the stashed {slru_errcause, slru_errno}.
-/
def SlruPhysicalReadPage (blcksz : Nat) (renv : ReadEnv) (inRecovery : Bool)
    (fs : SlruFs) (s : SlruShared) (pageno : Int) (slotno : Nat) :
    Bool × SlruShared × Option (SlruErrorCause × Int) :=
  let segno := pageno.tdiv SLRU_PAGES_PER_SEGMENT
  let rpageno := pageno.tmod SLRU_PAGES_PER_SEGMENT
  let openResult : Option Int :=
    match renv.openErr with
    | some e => some e
    | none => if segExists fs segno then none else some ENOENT
  match openResult with
  | some e =>
    if e ≠ ENOENT ∨ inRecovery = false then
      (false, s, some (.OPEN_FAILED, e))
    else
      (true, setBuffer s slotno (List.replicate blcksz 0), none)
  | none =>
    if renv.seekOk = false then (false, s, some (.SEEK_FAILED, 0))
    else
      match (if renv.readOk then fsReadPage fs segno rpageno else none) with
      | some bytes =>
        if bytes.length = blcksz then
          let s1 := setBuffer s slotno bytes
          if renv.closeOk = false then (false, s1, some (.CLOSE_FAILED, 0))
          else (true, s1, none)
        else (false, s, some (.READ_FAILED, 0))
      | none => (false, s, some (.READ_FAILED, 0))

/--
SlruPhysicalWritePage for a standalone write (fdata = NULL): open with
O_CREAT, seek, write the slot's buffer, then fsync (when do_fsync) and
close.  The group_lsn / XLogFlush branch is inactive (pools modelled with
lsn_groups_per_page = 0).  The disk gains the page image once the write
syscall succeeds, before the fsync outcome is known.
-/
def SlruPhysicalWritePage (do_fsync : Bool) (wenv : WriteEnv)
    (fs : SlruFs) (s : SlruShared) (pageno : Int) (slotno : Nat) :
    Bool × SlruFs × Option (SlruErrorCause × Int) :=
  let segno := pageno.tdiv SLRU_PAGES_PER_SEGMENT
  let rpageno := pageno.tmod SLRU_PAGES_PER_SEGMENT
  if wenv.openOk = false then (false, fs, some (.OPEN_FAILED, 0))
  else if wenv.seekOk = false then (false, fs, some (.SEEK_FAILED, 0))
  else if wenv.writeOk = false then (false, fs, some (.WRITE_FAILED, 0))
  else
    let fs1 := fsWritePage fs segno rpageno (bufferAt s slotno)
    if do_fsync = true ∧ wenv.fsyncOk = false then (false, fs1, some (.FSYNC_FAILED, 0))
    else (true, fs1, none)

/--
The body of SimpleLruWritePage after its entry wait-loop: return with no
work unless the slot is a dirty VALID copy of `pageno`; otherwise mark it
write-busy, clear the dirty bit, perform the physical write with the control
lock released, and on failure re-raise the dirty bit, restore
status = VALID and report the I/O error.
-/
def SimpleLruWritePage_core (ctl : SlruCtl) (wenv : WriteEnv)
    (s : SlruShared) (fs : SlruFs) (slotno : Nat) (pageno : Int) : SlruOut Unit :=
  if dirtyAt s slotno = false ∨ statusAt s slotno ≠ .VALID ∨ pageAt s slotno ≠ pageno then
    .ok () s fs
  else
    let s1 := setDirty (setStatus s slotno .WRITE_IN_PROGRESS) slotno false
    let s2 := setCtrl s1 none
    match SlruPhysicalWritePage ctl.do_fsync wenv fs s2 pageno slotno with
    | (ok, fs2, stash) =>
      let s3 := setCtrl s2 (some .exclusive)
      let s4 := if ok then s3 else setDirty s3 slotno true
      let s5 := setStatus s4 slotno .VALID
      if ok then .ok () s5 fs2
      else .ioError (stash.getD (.OPEN_FAILED, 0)).1 pageno slotno s5 fs2

/--
SimpleLruWritePage with fdata = NULL.  The entry while-loop waits while the
slot is write-busy (sequentially one SimpleLruWaitIO pass resolves it); the
rest of the function is SimpleLruWritePage_core.
-/
def SimpleLruWritePage (ctl : SlruCtl) (wenv : WriteEnv)
    (s0 : SlruShared) (fs : SlruFs) (slotno : Nat) : SlruOut Unit :=
  let pageno := pageAt s0 slotno
  SimpleLruWritePage_core ctl wenv
    (if statusAt s0 slotno = .WRITE_IN_PROGRESS ∧ pageAt s0 slotno = pageno
     then SimpleLruWaitIo s0 slotno else s0)
    fs slotno pageno

/--
SlruSelectLRUPage: return the slot already holding the page, else an EMPTY
slot, else the least-recently-used slot not holding latest_page_number;
when the chosen victim is dirty, write it out and restart, and when it is
I/O-busy, wait and restart.  The restart loop is fueled.
-/
def SlruSelectLRUPage (ctl : SlruCtl) (wenv : WriteEnv) :
    Nat → SlruShared → SlruFs → Int → SlruOut Nat
  | 0, _, _, _ => .noFuel
  | fuel + 1, s, fs, pageno =>
    match findSlot s pageno with
    | some slotno => .ok slotno s fs
    | none =>
      let cur_count := s.cur_lru_count
      let s1 := { s with cur_lru_count := int32add cur_count 1 }
      match selectLoop ctl.PagePrecedes s1 cur_count
          (List.range (numSlots s1)) s1.page_lru_count (-1) 0 0 with
      | .emptySlot slotno lru => .ok slotno { s1 with page_lru_count := lru } fs
      | .victim bestslot lru =>
        let s2 := { s1 with page_lru_count := lru }
        if statusAt s2 bestslot = .VALID ∧ dirtyAt s2 bestslot = false then
          .ok bestslot s2 fs
        else if statusAt s2 bestslot = .VALID then
          match SimpleLruWritePage ctl wenv s2 fs bestslot with
          | .ok _ s3 fs3 => SlruSelectLRUPage ctl wenv fuel s3 fs3 pageno
          | .ioError c p sl s3 fs3 => .ioError c p sl s3 fs3
          | .noFuel => .noFuel
        else
          SlruSelectLRUPage ctl wenv fuel (SimpleLruWaitIo s2 bestslot) fs pageno

/--
SimpleLruZeroPage: pick a slot for the page, mark it VALID and dirty, zero
its buffer, and pin the page as latest_page_number.  Control lock held at
entry and exit.
-/
def SimpleLruZeroPage (ctl : SlruCtl) (blcksz : Nat) (wenv : WriteEnv)
    (fuel : Nat) (s : SlruShared) (fs : SlruFs) (pageno : Int) : SlruOut Nat :=
  match SlruSelectLRUPage ctl wenv fuel s fs pageno with
  | .ok slotno s fs =>
    let s := setPageNumber s slotno pageno
    let s := setStatus s slotno .VALID
    let s := setDirty s slotno true
    let s := SlruRecentlyUsed s slotno
    let s := setBuffer s slotno (List.replicate blcksz 0)
    let s := { s with latest_page_number := pageno }
    .ok slotno s fs
  | .ioError c p sl s fs => .ioError c p sl s fs
  | .noFuel => .noFuel

/--
Result of SimpleLruReadPage_Internal: `ok` returns the slot with the control
lock still held (and *valid set to true when requested); `failed` is the
valid-pointer error path that releases the control lock, sets *valid to
false and returns -1; `ioError` is the ereport path taken when no valid
pointer was supplied.
-/
inductive ReadOut where
  | ok (slotno : Nat) (s : SlruShared) (fs : SlruFs)
  | failed (slotno : Nat) (s : SlruShared) (fs : SlruFs)
  | ioError (cause : SlruErrorCause) (pageno : Int) (slotno : Nat) (s : SlruShared) (fs : SlruFs)
  | noFuel
deriving DecidableEq

/--
SimpleLruReadPage_Internal: find the page in a buffer, reading it in if
necessary.  `hasValidPtr` models whether the caller passed a non-NULL
`valid` out-parameter: with it, a failed read releases the control lock,
reports *valid = false and returns -1 instead of raising.
-/
def SimpleLruReadPage_Internal (ctl : SlruCtl) (blcksz : Nat) (renv : ReadEnv)
    (wenv : WriteEnv) (inRecovery : Bool) :
    Nat → SlruShared → SlruFs → Int → Bool → Bool → ReadOut
  | 0, _, _, _, _, _ => .noFuel
  | fuel + 1, s, fs, pageno, write_ok, hasValidPtr =>
    match SlruSelectLRUPage ctl wenv (fuel + 1) s fs pageno with
    | .noFuel => .noFuel
    | .ioError c p sl s1 fs1 => .ioError c p sl s1 fs1
    | .ok slotno s1 fs1 =>
      if pageAt s1 slotno = pageno ∧ statusAt s1 slotno ≠ .EMPTY then
        if statusAt s1 slotno = .READ_IN_PROGRESS ∨
            (statusAt s1 slotno = .WRITE_IN_PROGRESS ∧ write_ok = false) then
          SimpleLruReadPage_Internal ctl blcksz renv wenv inRecovery fuel
            (SimpleLruWaitIo s1 slotno) fs1 pageno write_ok hasValidPtr
        else
          .ok slotno (SlruRecentlyUsed s1 slotno) fs1
      else
        let s2 := setDirty (setStatus (setPageNumber s1 slotno pageno) slotno .READ_IN_PROGRESS) slotno false
        let s3 := SlruRecentlyUsed s2 slotno
        let s4 := setCtrl s3 none
        match SlruPhysicalReadPage blcksz renv inRecovery fs1 s4 pageno slotno with
        | (ok, s5, stash) =>
          let s6 := setCtrl s5 (some .exclusive)
          let s7 := setStatus s6 slotno (if ok then .VALID else .EMPTY)
          if ok then .ok slotno (SlruRecentlyUsed s7 slotno) fs1
          else if hasValidPtr then .failed slotno (setCtrl s7 none) fs1
          else .ioError (stash.getD (.OPEN_FAILED, 0)).1 pageno slotno s7 fs1

/--
SimpleLruReadPage_ReadOnly: entered with the control lock not held; takes it
shared and scans for a usable copy of the page; on a miss, upgrades to
exclusive (release then re-acquire) and falls through to
SimpleLruReadPage_Internal with write_ok = true and the valid pointer
passed through.
-/
def SimpleLruReadPage_ReadOnly (ctl : SlruCtl) (blcksz : Nat) (renv : ReadEnv)
    (wenv : WriteEnv) (inRecovery : Bool) (fuel : Nat)
    (s0 : SlruShared) (fs : SlruFs) (pageno : Int) : ReadOut :=
  let s := setCtrl s0 (some .shared)
  match (List.range (numSlots s)).find? (fun i =>
      decide (pageAt s i = pageno ∧ statusAt s i ≠ .EMPTY ∧ statusAt s i ≠ .READ_IN_PROGRESS)) with
  | some slotno => .ok slotno (SlruRecentlyUsed s slotno) fs
  | none =>
    let s1 := setCtrl s (some .exclusive)
    SimpleLruReadPage_Internal ctl blcksz renv wenv inRecovery fuel s1 fs pageno true true

/--
SimpleLruPageExists: like a read, but a failed physical read resets the slot
to EMPTY and returns false rather than reporting the error; a buffered page
(not read-busy) reports true without I/O.
-/
def SimpleLruPageExists (ctl : SlruCtl) (blcksz : Nat) (renv : ReadEnv)
    (wenv : WriteEnv) (inRecovery : Bool) :
    Nat → SlruShared → SlruFs → Int → SlruOut Bool
  | 0, _, _, _ => .noFuel
  | fuel + 1, s, fs, pageno =>
    match SlruSelectLRUPage ctl wenv (fuel + 1) s fs pageno with
    | .noFuel => .noFuel
    | .ioError c p sl s1 fs1 => .ioError c p sl s1 fs1
    | .ok slotno s1 fs1 =>
      if pageAt s1 slotno = pageno ∧ statusAt s1 slotno ≠ .EMPTY then
        if statusAt s1 slotno = .READ_IN_PROGRESS then
          SimpleLruPageExists ctl blcksz renv wenv inRecovery fuel
            (SimpleLruWaitIo s1 slotno) fs1 pageno
        else
          .ok true s1 fs1
      else
        let s2 := setDirty (setStatus (setPageNumber s1 slotno pageno) slotno .READ_IN_PROGRESS) slotno false
        let s3 := SlruRecentlyUsed s2 slotno
        let s4 := setCtrl s3 none
        match SlruPhysicalReadPage blcksz renv inRecovery fs1 s4 pageno slotno with
        | (ok, s5, _) =>
          let s6 := setCtrl s5 (some .exclusive)
          let s7 := setStatus s6 slotno (if ok then .VALID else .EMPTY)
          .ok ok s7 fs1

/-- The effect on slot `i` of its page leaving the buffer pool: a clean
victim being repurposed by a reader (SimpleLruReadPage_Internal marks it
read-busy for the new page) or truncation setting it EMPTY. -/
def evictSlot (s : SlruShared) (i : Nat) : SlruShared := setStatus s i .EMPTY

/--
The fsync-and-close phase of SimpleLruFlush over the segment numbers left
open in the flush context: each file is flushed (when do_fsync); every
failing fsync overwrites `pageno` with that segment's first page number and
clears `ok`.  The result is (ok, pageno): when ok is false,
SlruReportIOError is called with that pageno.
-/
def SimpleLruFlush_fsyncPhase (do_fsync : Bool) (fsyncFails : Int → Bool)
    (segnos : List Int) : Bool × Int :=
  List.foldl
    (fun acc segno =>
      if do_fsync = true ∧ fsyncFails segno = true then
        (false, segno * SLRU_PAGES_PER_SEGMENT)
      else acc)
    (true, 0) segnos

/-- The page number SimpleLruFlush reports in its aggregated I/O error, if
any fsync failed. -/
def SimpleLruFlush_raised (do_fsync : Bool) (fsyncFails : Int → Bool)
    (segnos : List Int) : Option Int :=
  let r := SimpleLruFlush_fsyncPhase do_fsync fsyncFails segnos
  if r.1 = false then some r.2 else none

/-- Is the character one of the hex digits a segment file name may use? -/
def isHexChar (c : Char) : Bool :=
  ("0123456789ABCDEF".toList).contains c

/-- isSlruFileName: exactly SLRU_FILENAME_LEN characters, all hex digits. -/
def isSlruFileName (name : String) : Bool :=
  name.length = SLRU_FILENAME_LEN && name.toList.all isHexChar

/-- The numeric value of one (uppercase) hex digit. -/
def hexCharVal (c : Char) : Nat :=
  if c.toNat ≥ 65 then c.toNat - 55 else c.toNat - 48

/-- strtol(name, NULL, 16) for a validated segment file name. -/
def parseHex (name : String) : Int :=
  name.toList.foldl (fun acc c => acc * 16 + (hexCharVal c : Int)) 0

/-- Should SlruScanDirectory remove this directory entry given the (already
segment-rounded) cutoff? -/
def scanDeletes (pre : Int → Int → Bool) (cutoff : Int) (name : String) : Bool :=
  isSlruFileName name && pre (parseHex name * SLRU_PAGES_PER_SEGMENT) cutoff

/--
SlruScanDirectory: round the cutoff down to its segment boundary, then walk
the directory; every file whose name is four hex digits and whose segment's
first page precedes the cutoff is counted as found and, when doDeletions,
unlinked (dropped from the listing together with its page images).
-/
def SlruScanDirectory (ctl : SlruCtl) (fs : SlruFs) (cutoffPage : Int)
    (doDeletions : Bool) : Bool × SlruFs :=
  let cutoff := cutoffPage - cutoffPage.tmod SLRU_PAGES_PER_SEGMENT
  let found := fs.dir.any (scanDeletes ctl.PagePrecedes cutoff)
  if doDeletions then
    (found,
     { dir := fs.dir.filter (fun nm => !(scanDeletes ctl.PagePrecedes cutoff nm)),
       pages := fs.pages.filter (fun e =>
         !(scanDeletes ctl.PagePrecedes cutoff (SlruSimpleFileName e.1.1))) })
  else (found, fs)

/-- Result of one pass of the slot scan of SimpleLruTruncate: the pass
completed, or it stopped at slot `i` needing a write-evict or an I/O wait
(after which the whole scan restarts). -/
inductive TruncPass where
  | done (s : SlruShared)
  | writeSlot (s : SlruShared) (i : Nat)
  | waitSlot (s : SlruShared) (i : Nat)
deriving DecidableEq

/-- The shared-memory state a TruncPass outcome carries. -/
def TruncPass.stateOf : TruncPass → SlruShared
  | .done s => s
  | .writeSlot s _ => s
  | .waitSlot s _ => s

/--
One pass of SimpleLruTruncate's slot scan: skip EMPTY slots and slots whose
page does not precede the cutoff; set clean VALID slots EMPTY; stop at a
dirty VALID slot (write it and restart) or an I/O-busy slot (wait and
restart).
-/
def truncateSlotScan (pre : Int → Int → Bool) (cutoff : Int) :
    List Nat → SlruShared → TruncPass
  | [], s => .done s
  | i :: rest, s =>
    if statusAt s i = .EMPTY then truncateSlotScan pre cutoff rest s
    else if pre (pageAt s i) cutoff = false then truncateSlotScan pre cutoff rest s
    else if statusAt s i = .VALID ∧ dirtyAt s i = false then
      truncateSlotScan pre cutoff rest (setStatus s i .EMPTY)
    else if statusAt s i = .VALID then .writeSlot s i
    else .waitSlot s i

/--
The restart loop of SimpleLruTruncate (the `restart:` label onward): check
for wraparound (latest_page_number preceding the cutoff) and refuse with
only a log message if so; otherwise scan the slots, restarting after each
write-evict or wait; once the pass completes, release the control lock (when
this call acquired it) and remove the old segment files.
-/
def SimpleLruTruncate_rec (ctl : SlruCtl) (wenv : WriteEnv) :
    Nat → SlruShared → SlruFs → Int → Bool → SlruOut Unit
  | 0, _, _, _, _ => .noFuel
  | fuel + 1, s, fs, cutoff, lockHeld =>
    if ctl.PagePrecedes s.latest_page_number cutoff = true then
      .ok () (if lockHeld then s else setCtrl s none) fs
    else
      match truncateSlotScan ctl.PagePrecedes cutoff (List.range (numSlots s)) s with
      | .done s2 =>
        let s3 := if lockHeld then s2 else setCtrl s2 none
        let r := SlruScanDirectory ctl fs cutoff true
        .ok () s3 r.2
      | .writeSlot s2 i =>
        match SimpleLruWritePage ctl wenv s2 fs i with
        | .ok _ s3 fs3 => SimpleLruTruncate_rec ctl wenv fuel s3 fs3 cutoff lockHeld
        | .ioError c p sl s3 fs3 => .ioError c p sl s3 fs3
        | .noFuel => .noFuel
      | .waitSlot s2 i =>
        SimpleLruTruncate_rec ctl wenv fuel (SimpleLruWaitIo s2 i) fs cutoff lockHeld

/-- SimpleLruTruncate_internal: round the cutoff down to the start of its
segment, acquire the control lock unless the caller already holds it, and
run the truncation loop. -/
def SimpleLruTruncate_internal (ctl : SlruCtl) (wenv : WriteEnv) (fuel : Nat)
    (s : SlruShared) (fs : SlruFs) (cutoffPage : Int) (lockHeld : Bool) : SlruOut Unit :=
  let cutoff := cutoffPage - cutoffPage.tmod SLRU_PAGES_PER_SEGMENT
  let s1 := if lockHeld then s else setCtrl s (some .exclusive)
  SimpleLruTruncate_rec ctl wenv fuel s1 fs cutoff lockHeld

/-- SimpleLruTruncate: the public entry that takes the control lock itself. -/
def SimpleLruTruncate (ctl : SlruCtl) (wenv : WriteEnv) (fuel : Nat)
    (s : SlruShared) (fs : SlruFs) (cutoffPage : Int) : SlruOut Unit :=
  SimpleLruTruncate_internal ctl wenv fuel s fs cutoffPage false

/-- SimpleLruTruncateWithLock: the variant for callers already holding the
control lock. -/
def SimpleLruTruncateWithLock (ctl : SlruCtl) (wenv : WriteEnv) (fuel : Nat)
    (s : SlruShared) (fs : SlruFs) (cutoffPage : Int) : SlruOut Unit :=
  SimpleLruTruncate_internal ctl wenv fuel s fs cutoffPage true

/-- Slot `t` beats slot data (d2, p2) in the victim scan: strictly larger
repaired delta, or an equal delta with `t`'s page preceding `p2`. -/
def beatsB (pre : Int → Int → Bool) (d1 p1 d2 p2 : Int) : Prop :=
  d2 < d1 ∨ (d1 = d2 ∧ pre p1 p2 = true)

/-- The last element of the list satisfying `f`, if any (the segment whose
page number survives in SimpleLruFlush's aggregated error). -/
def lastSatisfying (f : Int → Bool) : List Int → Option Int
  | [] => none
  | x :: xs =>
    match lastSatisfying f xs with
    | some y => some y
    | none => if f x then some x else none

/-! ### List access helpers -/

theorem getD_set_self {α : Type} (l : List α) (i : Nat) (a d : α) (h : i < l.length) :
    (l.set i a).getD i d = a := by
  show ((l.set i a).get? i).getD d = a
  rw [List.get?_set_eq_of_lt a h]
  rfl

theorem getD_set_other {α : Type} (l : List α) (i j : Nat) (a d : α) (h : i ≠ j) :
    (l.set i a).getD j d = l.getD j d := by
  show ((l.set i a).get? j).getD d = (l.get? j).getD d
  rw [List.get?_set_ne a l h]

theorem getD_mem {α : Type} (l : List α) (i : Nat) (d : α) (h : i < l.length) :
    l.getD i d ∈ l := by
  show (l.get? i).getD d ∈ l
  rw [List.get?_eq_get h]
  exact List.get_mem l i h

/-! ### Accessor and frame simp lemmas -/

@[simp] theorem statusAt_setDirty (s : SlruShared) (j : Nat) (b : Bool) (i : Nat) :
    statusAt (setDirty s j b) i = statusAt s i := rfl

@[simp] theorem statusAt_setPageNumber (s : SlruShared) (j : Nat) (v : Int) (i : Nat) :
    statusAt (setPageNumber s j v) i = statusAt s i := rfl

@[simp] theorem statusAt_setBuffer (s : SlruShared) (j : Nat) (v : List Nat) (i : Nat) :
    statusAt (setBuffer s j v) i = statusAt s i := rfl

@[simp] theorem statusAt_setCtrl (s : SlruShared) (l : Option LockMode) (i : Nat) :
    statusAt (setCtrl s l) i = statusAt s i := rfl

@[simp] theorem dirtyAt_setStatus (s : SlruShared) (j : Nat) (v : SlruPageStatus) (i : Nat) :
    dirtyAt (setStatus s j v) i = dirtyAt s i := rfl

@[simp] theorem dirtyAt_setPageNumber (s : SlruShared) (j : Nat) (v : Int) (i : Nat) :
    dirtyAt (setPageNumber s j v) i = dirtyAt s i := rfl

@[simp] theorem dirtyAt_setBuffer (s : SlruShared) (j : Nat) (v : List Nat) (i : Nat) :
    dirtyAt (setBuffer s j v) i = dirtyAt s i := rfl

@[simp] theorem dirtyAt_setCtrl (s : SlruShared) (l : Option LockMode) (i : Nat) :
    dirtyAt (setCtrl s l) i = dirtyAt s i := rfl

@[simp] theorem pageAt_setStatus (s : SlruShared) (j : Nat) (v : SlruPageStatus) (i : Nat) :
    pageAt (setStatus s j v) i = pageAt s i := rfl

@[simp] theorem pageAt_setDirty (s : SlruShared) (j : Nat) (b : Bool) (i : Nat) :
    pageAt (setDirty s j b) i = pageAt s i := rfl

@[simp] theorem pageAt_setBuffer (s : SlruShared) (j : Nat) (v : List Nat) (i : Nat) :
    pageAt (setBuffer s j v) i = pageAt s i := rfl

@[simp] theorem pageAt_setCtrl (s : SlruShared) (l : Option LockMode) (i : Nat) :
    pageAt (setCtrl s l) i = pageAt s i := rfl

@[simp] theorem bufferAt_setStatus (s : SlruShared) (j : Nat) (v : SlruPageStatus) (i : Nat) :
    bufferAt (setStatus s j v) i = bufferAt s i := rfl

@[simp] theorem bufferAt_setDirty (s : SlruShared) (j : Nat) (b : Bool) (i : Nat) :
    bufferAt (setDirty s j b) i = bufferAt s i := rfl

@[simp] theorem bufferAt_setPageNumber (s : SlruShared) (j : Nat) (v : Int) (i : Nat) :
    bufferAt (setPageNumber s j v) i = bufferAt s i := rfl

@[simp] theorem bufferAt_setCtrl (s : SlruShared) (l : Option LockMode) (i : Nat) :
    bufferAt (setCtrl s l) i = bufferAt s i := rfl

@[simp] theorem numSlots_setStatus (s : SlruShared) (j : Nat) (v : SlruPageStatus) :
    numSlots (setStatus s j v) = numSlots s := by
  simp [numSlots, setStatus]

@[simp] theorem numSlots_setDirty (s : SlruShared) (j : Nat) (b : Bool) :
    numSlots (setDirty s j b) = numSlots s := rfl

@[simp] theorem numSlots_setPageNumber (s : SlruShared) (j : Nat) (v : Int) :
    numSlots (setPageNumber s j v) = numSlots s := rfl

@[simp] theorem numSlots_setBuffer (s : SlruShared) (j : Nat) (v : List Nat) :
    numSlots (setBuffer s j v) = numSlots s := rfl

@[simp] theorem numSlots_setCtrl (s : SlruShared) (l : Option LockMode) :
    numSlots (setCtrl s l) = numSlots s := rfl

theorem statusAt_setStatus_self (s : SlruShared) (i : Nat) (v : SlruPageStatus)
    (h : i < numSlots s) : statusAt (setStatus s i v) i = v :=
  getD_set_self _ _ _ _ h

theorem statusAt_setStatus_other (s : SlruShared) (j : Nat) (v : SlruPageStatus) (i : Nat)
    (h : j ≠ i) : statusAt (setStatus s j v) i = statusAt s i :=
  getD_set_other _ _ _ _ _ h

theorem dirtyAt_setDirty_self (s : SlruShared) (i : Nat) (b : Bool)
    (h : i < s.page_dirty.length) : dirtyAt (setDirty s i b) i = b :=
  getD_set_self _ _ _ _ h

theorem dirtyAt_setDirty_other (s : SlruShared) (j : Nat) (b : Bool) (i : Nat)
    (h : j ≠ i) : dirtyAt (setDirty s j b) i = dirtyAt s i :=
  getD_set_other _ _ _ _ _ h

theorem pageAt_setPageNumber_self (s : SlruShared) (i : Nat) (v : Int)
    (h : i < s.page_number.length) : pageAt (setPageNumber s i v) i = v :=
  getD_set_self _ _ _ _ h

theorem pageAt_setPageNumber_other (s : SlruShared) (j : Nat) (v : Int) (i : Nat)
    (h : j ≠ i) : pageAt (setPageNumber s j v) i = pageAt s i :=
  getD_set_other _ _ _ _ _ h

theorem bufferAt_setBuffer_self (s : SlruShared) (i : Nat) (v : List Nat)
    (h : i < s.page_buffer.length) : bufferAt (setBuffer s i v) i = v :=
  getD_set_self _ _ _ _ h

theorem bufferAt_setBuffer_other (s : SlruShared) (j : Nat) (v : List Nat) (i : Nat)
    (h : j ≠ i) : bufferAt (setBuffer s j v) i = bufferAt s i :=
  getD_set_other _ _ _ _ _ h

@[simp] theorem latest_setStatus (s : SlruShared) (j : Nat) (v : SlruPageStatus) :
    (setStatus s j v).latest_page_number = s.latest_page_number := rfl

@[simp] theorem latest_setDirty (s : SlruShared) (j : Nat) (b : Bool) :
    (setDirty s j b).latest_page_number = s.latest_page_number := rfl

@[simp] theorem latest_setPageNumber (s : SlruShared) (j : Nat) (v : Int) :
    (setPageNumber s j v).latest_page_number = s.latest_page_number := rfl

@[simp] theorem latest_setBuffer (s : SlruShared) (j : Nat) (v : List Nat) :
    (setBuffer s j v).latest_page_number = s.latest_page_number := rfl

@[simp] theorem latest_setCtrl (s : SlruShared) (l : Option LockMode) :
    (setCtrl s l).latest_page_number = s.latest_page_number := rfl

@[simp] theorem pages_setStatus (s : SlruShared) (j : Nat) (v : SlruPageStatus) :
    (setStatus s j v).page_number = s.page_number := rfl

@[simp] theorem pages_setDirty (s : SlruShared) (j : Nat) (b : Bool) :
    (setDirty s j b).page_number = s.page_number := rfl

@[simp] theorem pages_setBuffer (s : SlruShared) (j : Nat) (v : List Nat) :
    (setBuffer s j v).page_number = s.page_number := rfl

@[simp] theorem pages_setCtrl (s : SlruShared) (l : Option LockMode) :
    (setCtrl s l).page_number = s.page_number := rfl

/-! ### Frame lemmas for SimpleLruWaitIo, SlruRecentlyUsed, SimpleLruWritePage -/

theorem waitIo_page_number (s : SlruShared) (i : Nat) :
    (SimpleLruWaitIo s i).page_number = s.page_number := by
  unfold SimpleLruWaitIo
  split <;> (try split) <;> rfl

theorem waitIo_latest (s : SlruShared) (i : Nat) :
    (SimpleLruWaitIo s i).latest_page_number = s.latest_page_number := by
  unfold SimpleLruWaitIo
  split <;> (try split) <;> rfl

theorem waitIo_numSlots (s : SlruShared) (i : Nat) :
    numSlots (SimpleLruWaitIo s i) = numSlots s := by
  unfold SimpleLruWaitIo
  split <;> (try split) <;> simp

theorem waitIo_pageAt (s : SlruShared) (i j : Nat) :
    pageAt (SimpleLruWaitIo s i) j = pageAt s j := by
  simp [pageAt, waitIo_page_number]

/-- A slot index beyond the array reads as EMPTY. -/
theorem statusAt_default (s : SlruShared) (i : Nat) (h : numSlots s ≤ i) :
    statusAt s i = .EMPTY :=
  List.getD_eq_default _ _ h

/-- SimpleLruWaitIo changes no slot status except possibly slot `i`, where a
READ_IN_PROGRESS slot rolls back to EMPTY and a WRITE_IN_PROGRESS slot rolls
back to VALID (and dirty). -/
theorem waitIo_statusAt (s : SlruShared) (i j : Nat) :
    statusAt (SimpleLruWaitIo s i) j = statusAt s j ∨
      (j = i ∧ statusAt (SimpleLruWaitIo s i) j = .EMPTY ∧ statusAt s j = .READ_IN_PROGRESS) ∨
      (j = i ∧ statusAt (SimpleLruWaitIo s i) j = .VALID ∧ statusAt s j = .WRITE_IN_PROGRESS) := by
  unfold SimpleLruWaitIo
  by_cases hj : i = j
  · subst hj
    by_cases hi : i < numSlots s
    · by_cases h1 : statusAt s i = .READ_IN_PROGRESS
      · refine Or.inr (Or.inl ⟨rfl, ?_, h1⟩)
        rw [if_pos h1]
        exact statusAt_setStatus_self _ _ _ (by simpa using hi)
      · by_cases h2 : statusAt s i = .WRITE_IN_PROGRESS
        · refine Or.inr (Or.inr ⟨rfl, ?_, h2⟩)
          rw [if_neg h1, if_pos h2]
          simp only [statusAt_setDirty]
          exact statusAt_setStatus_self _ _ _ (by simpa using hi)
        · left
          rw [if_neg h1, if_neg h2]
          rfl
    · have hE : statusAt s i = .EMPTY := statusAt_default s i (by omega)
      left
      rw [if_neg (by rw [hE]; intro h; cases h), if_neg (by rw [hE]; intro h; cases h)]
      rfl
  · left
    split
    · exact statusAt_setStatus_other _ _ _ _ hj
    · split
      · simp only [statusAt_setDirty]
        exact statusAt_setStatus_other _ _ _ _ hj
      · rfl

theorem recentlyUsed_page_number (s : SlruShared) (i : Nat) :
    (SlruRecentlyUsed s i).page_number = s.page_number := by
  unfold SlruRecentlyUsed
  split <;> rfl

theorem recentlyUsed_statusAt (s : SlruShared) (i j : Nat) :
    statusAt (SlruRecentlyUsed s i) j = statusAt s j := by
  unfold SlruRecentlyUsed
  split <;> rfl

theorem recentlyUsed_dirtyAt (s : SlruShared) (i j : Nat) :
    dirtyAt (SlruRecentlyUsed s i) j = dirtyAt s j := by
  unfold SlruRecentlyUsed
  split <;> rfl

theorem recentlyUsed_bufferAt (s : SlruShared) (i j : Nat) :
    bufferAt (SlruRecentlyUsed s i) j = bufferAt s j := by
  unfold SlruRecentlyUsed
  split <;> rfl

theorem recentlyUsed_latest (s : SlruShared) (i : Nat) :
    (SlruRecentlyUsed s i).latest_page_number = s.latest_page_number := by
  unfold SlruRecentlyUsed
  split <;> rfl

theorem recentlyUsed_numSlots (s : SlruShared) (i : Nat) :
    numSlots (SlruRecentlyUsed s i) = numSlots s := by
  unfold SlruRecentlyUsed
  split <;> rfl

theorem recentlyUsed_ctrl (s : SlruShared) (i : Nat) :
    (SlruRecentlyUsed s i).controlLock = s.controlLock := by
  unfold SlruRecentlyUsed
  split <;> rfl

/-- A slot whose status is not EMPTY is a real slot index. -/
theorem lt_of_statusAt_ne (s : SlruShared) (i : Nat) (h : statusAt s i ≠ .EMPTY) :
    i < numSlots s := by
  by_contra hlt
  exact h (statusAt_default s i (by omega))

/-- A slot whose dirty bit reads true is within the dirty array. -/
theorem lt_of_dirtyAt_true (s : SlruShared) (i : Nat) (h : dirtyAt s i = true) :
    i < s.page_dirty.length := by
  by_contra hlt
  unfold dirtyAt at h
  rw [List.getD_eq_default _ _ (by omega)] at h
  cases h

/-- The rollback SimpleLruWaitIo performs on a write-busy slot. -/
theorem waitIo_statusAt_write (s : SlruShared) (i : Nat)
    (h : statusAt s i = .WRITE_IN_PROGRESS) :
    statusAt (SimpleLruWaitIo s i) i = .VALID := by
  have hi : i < numSlots s := lt_of_statusAt_ne s i (by rw [h]; intro hh; cases hh)
  unfold SimpleLruWaitIo
  rw [if_neg (by rw [h]; intro hh; cases hh), if_pos (by rw [h])]
  simp only [statusAt_setDirty]
  exact statusAt_setStatus_self _ _ _ (by simpa [numSlots, setCtrl] using hi)

/-- The rollback SimpleLruWaitIo performs on a read-busy slot. -/
theorem waitIo_statusAt_read (s : SlruShared) (i : Nat)
    (h : statusAt s i = .READ_IN_PROGRESS) :
    statusAt (SimpleLruWaitIo s i) i = .EMPTY := by
  have hi : i < numSlots s := lt_of_statusAt_ne s i (by rw [h]; intro hh; cases hh)
  unfold SimpleLruWaitIo
  rw [if_pos (by rw [h])]
  exact statusAt_setStatus_self _ _ _ (by simpa [numSlots, setCtrl] using hi)

theorem waitIo_lru (s : SlruShared) (i : Nat) :
    (SimpleLruWaitIo s i).page_lru_count = s.page_lru_count := by
  unfold SimpleLruWaitIo
  split <;> (try split) <;> rfl

theorem waitIo_cur (s : SlruShared) (i : Nat) :
    (SimpleLruWaitIo s i).cur_lru_count = s.cur_lru_count := by
  unfold SimpleLruWaitIo
  split <;> (try split) <;> rfl

theorem waitIo_buffers (s : SlruShared) (i : Nat) :
    (SimpleLruWaitIo s i).page_buffer = s.page_buffer := by
  unfold SimpleLruWaitIo
  split <;> (try split) <;> rfl

theorem waitIo_dirty_length (s : SlruShared) (i : Nat) :
    (SimpleLruWaitIo s i).page_dirty.length = s.page_dirty.length := by
  unfold SimpleLruWaitIo
  split <;> (try split) <;> simp [setDirty, setStatus, setCtrl]

theorem waitIo_dirtyAt_other (s : SlruShared) (i j : Nat) (h : i ≠ j) :
    dirtyAt (SimpleLruWaitIo s i) j = dirtyAt s j := by
  unfold SimpleLruWaitIo
  split
  · rfl
  · split
    · exact getD_set_other _ _ _ _ _ h
    · rfl

/-! ### Filesystem lemmas -/

/-- The page image the filesystem holds for page number `p` (the offset the
physical layer computes from `p`). -/
def fsReadByPage (fs : SlruFs) (p : Int) : Option (List Nat) :=
  fsReadPage fs (p.tdiv SLRU_PAGES_PER_SEGMENT) (p.tmod SLRU_PAGES_PER_SEGMENT)

/-- Distinct page numbers live at distinct (segment, in-segment) offsets. -/
theorem pageKey_inj (p q : Int)
    (h : p.tdiv SLRU_PAGES_PER_SEGMENT = q.tdiv SLRU_PAGES_PER_SEGMENT ∧
         p.tmod SLRU_PAGES_PER_SEGMENT = q.tmod SLRU_PAGES_PER_SEGMENT) : p = q := by
  have hp := Int.tmod_add_tdiv p SLRU_PAGES_PER_SEGMENT
  have hq := Int.tmod_add_tdiv q SLRU_PAGES_PER_SEGMENT
  rw [← hp, ← hq, h.1, h.2]

/-- Writing one page leaves every other page's stored image unchanged. -/
theorem fsWritePage_read_other (fs : SlruFs) (segno rp : Int) (b : List Nat) (q : Int)
    (hk : ¬(segno = q.tdiv SLRU_PAGES_PER_SEGMENT ∧ rp = q.tmod SLRU_PAGES_PER_SEGMENT)) :
    fsReadByPage (fsWritePage fs segno rp b) q = fsReadByPage fs q := by
  unfold fsReadByPage fsReadPage fsWritePage
  simp only [List.find?]
  have : (((segno, rp), b).1 == (q.tdiv SLRU_PAGES_PER_SEGMENT, q.tmod SLRU_PAGES_PER_SEGMENT)) = false := by
    rw [beq_eq_false_iff_ne]
    intro hcontra
    exact hk (by simpa [Prod.ext_iff] using hcontra)
  rw [this]

/-- Writing never deletes a segment file. -/
theorem segExists_fsWritePage (fs : SlruFs) (segno rp : Int) (b : List Nat) (g : Int)
    (h : segExists fs g = true) : segExists (fsWritePage fs segno rp b) g = true := by
  unfold segExists fsWritePage at *
  dsimp only
  split
  · exact h
  · simp only [List.contains_cons, Bool.or_eq_true]
    right
    exact h

/-- The page a write stores for its own page number. -/
theorem fsWritePage_read_self (fs : SlruFs) (p : Int) (b : List Nat) :
    fsReadByPage
      (fsWritePage fs (p.tdiv SLRU_PAGES_PER_SEGMENT) (p.tmod SLRU_PAGES_PER_SEGMENT) b) p =
      some b := by
  unfold fsReadByPage fsReadPage fsWritePage
  simp

/-- After writing page `p`, its segment file exists. -/
theorem segExists_fsWritePage_self (fs : SlruFs) (p : Int) (b : List Nat) :
    segExists
      (fsWritePage fs (p.tdiv SLRU_PAGES_PER_SEGMENT) (p.tmod SLRU_PAGES_PER_SEGMENT) b)
      (p.tdiv SLRU_PAGES_PER_SEGMENT) = true := by
  unfold segExists fsWritePage
  dsimp only
  split
  · assumption
  · simp

/-! ### SimpleLruWritePage specification lemmas -/

/-- When every write-path syscall succeeds, SimpleLruWritePage_core returns
normally. -/
theorem writePage_core_wenvOk (ctl : SlruCtl) (wenv : WriteEnv) (s : SlruShared) (fs : SlruFs)
    (i : Nat) (pageno : Int) (h : wenvOk wenv) :
    ∃ s' fs', SimpleLruWritePage_core ctl wenv s fs i pageno = .ok () s' fs' := by
  obtain ⟨h1, h2, h3, h4⟩ := h
  unfold SimpleLruWritePage_core
  split
  · exact ⟨_, _, rfl⟩
  · dsimp only
    simp only [SlruPhysicalWritePage, h1, h2, h3, h4, Bool.true_eq_false, if_false,
      and_false, if_true]
    exact ⟨_, _, rfl⟩

/-- When every write-path syscall succeeds, SimpleLruWritePage returns
normally (it never reports an I/O error). -/
theorem writePage_wenvOk (ctl : SlruCtl) (wenv : WriteEnv) (s : SlruShared) (fs : SlruFs)
    (i : Nat) (h : wenvOk wenv) :
    ∃ s' fs', SimpleLruWritePage ctl wenv s fs i = .ok () s' fs' := by
  unfold SimpleLruWritePage
  exact writePage_core_wenvOk ctl wenv _ fs i _ h

/--
Frame specification of a normal SimpleLruWritePage_core return: page
numbers, latest page, lru data, buffers and array sizes are untouched; no
status changes except at the written slot, which never moves between EMPTY
and non-EMPTY; the filesystem is unchanged or gained exactly one image of
the requested page taken from the slot's buffer.
-/
theorem writePage_core_ok_spec (ctl : SlruCtl) (wenv : WriteEnv) (s : SlruShared) (fs : SlruFs)
    (i : Nat) (pageno : Int) (s' : SlruShared) (fs' : SlruFs)
    (h : SimpleLruWritePage_core ctl wenv s fs i pageno = .ok () s' fs') :
    s'.page_number = s.page_number ∧
    s'.latest_page_number = s.latest_page_number ∧
    s'.page_status.length = s.page_status.length ∧
    s'.page_dirty.length = s.page_dirty.length ∧
    s'.page_lru_count = s.page_lru_count ∧
    s'.cur_lru_count = s.cur_lru_count ∧
    s'.page_buffer = s.page_buffer ∧
    (∀ j, j ≠ i → statusAt s' j = statusAt s j) ∧
    (∀ j, (statusAt s' j = .EMPTY ↔ statusAt s j = .EMPTY)) ∧
    (fs' = fs ∨ fs' = fsWritePage fs (pageno.tdiv SLRU_PAGES_PER_SEGMENT)
        (pageno.tmod SLRU_PAGES_PER_SEGMENT) (bufferAt s i)) := by
  unfold SimpleLruWritePage_core at h
  split at h
  · obtain ⟨hs, hfs⟩ : s' = s ∧ fs' = fs := by cases h; exact ⟨rfl, rfl⟩
    subst hs hfs
    exact ⟨rfl, rfl, rfl, rfl, rfl, rfl, rfl, fun j _ => rfl, fun j => Iff.rfl, Or.inl rfl⟩
  case isFalse hguard =>
    push_neg at hguard
    obtain ⟨hdirty, hvalid, _⟩ := hguard
    have hilt : i < numSlots s := lt_of_statusAt_ne s i (by rw [hvalid]; intro hh; cases hh)
    dsimp only at h
    rcases hw : SlruPhysicalWritePage ctl.do_fsync wenv fs
        (setCtrl (setDirty (setStatus s i .WRITE_IN_PROGRESS) i false) none) pageno i
        with ⟨ok, fs2, stash⟩
    rw [hw] at h
    dsimp only at h
    have hfs2 : fs2 = fs ∨ fs2 = fsWritePage fs (pageno.tdiv SLRU_PAGES_PER_SEGMENT)
        (pageno.tmod SLRU_PAGES_PER_SEGMENT) (bufferAt s i) := by
      unfold SlruPhysicalWritePage at hw
      split at hw
      · cases hw; exact Or.inl rfl
      · split at hw
        · cases hw; exact Or.inl rfl
        · split at hw
          · cases hw; exact Or.inl rfl
          · dsimp only at hw
            split at hw <;> (cases hw; right; rfl)
    split at h
    case isTrue hok =>
      subst hok
      obtain ⟨hs, hfs⟩ : s' = setStatus (setCtrl
          (setCtrl (setDirty (setStatus s i .WRITE_IN_PROGRESS) i false) none)
          (some .exclusive)) i .VALID ∧ fs' = fs2 := by
        cases h; exact ⟨rfl, rfl⟩
      subst hs hfs
      refine ⟨rfl, rfl, by simp [setStatus, setCtrl, setDirty], by simp [setStatus, setCtrl, setDirty],
        rfl, rfl, rfl, ?_, ?_, hfs2⟩
      · intro j hj
        rw [statusAt_setStatus_other _ _ _ _ (fun hh => hj hh.symm)]
        simp only [statusAt_setCtrl, statusAt_setDirty]
        rw [statusAt_setStatus_other _ _ _ _ (fun hh => hj hh.symm)]
      · intro j
        by_cases hj : j = i
        · subst hj
          rw [statusAt_setStatus_self _ _ _
            (by simpa [numSlots, setStatus, setCtrl, setDirty] using hilt)]
          rw [hvalid]
        · rw [statusAt_setStatus_other _ _ _ _ (fun hh => hj hh.symm)]
          simp only [statusAt_setCtrl, statusAt_setDirty]
          rw [statusAt_setStatus_other _ _ _ _ (fun hh => hj hh.symm)]
    case isFalse hok =>
      cases h

/--
Frame specification of a normal SimpleLruWritePage return, stated against
the state at entry.
-/
theorem writePage_ok_spec (ctl : SlruCtl) (wenv : WriteEnv) (s : SlruShared) (fs : SlruFs)
    (i : Nat) (s' : SlruShared) (fs' : SlruFs)
    (h : SimpleLruWritePage ctl wenv s fs i = .ok () s' fs') :
    s'.page_number = s.page_number ∧
    s'.latest_page_number = s.latest_page_number ∧
    s'.page_status.length = s.page_status.length ∧
    s'.page_dirty.length = s.page_dirty.length ∧
    s'.page_lru_count = s.page_lru_count ∧
    s'.cur_lru_count = s.cur_lru_count ∧
    s'.page_buffer = s.page_buffer ∧
    (∀ j, j ≠ i → statusAt s' j = statusAt s j) ∧
    (∀ j, (statusAt s' j = .EMPTY ↔ statusAt s j = .EMPTY)) ∧
    (fs' = fs ∨ fs' = fsWritePage fs ((pageAt s i).tdiv SLRU_PAGES_PER_SEGMENT)
        ((pageAt s i).tmod SLRU_PAGES_PER_SEGMENT) (bufferAt s i)) := by
  unfold SimpleLruWritePage at h
  dsimp only at h
  split at h
  case isFalse =>
    exact writePage_core_ok_spec ctl wenv s fs i _ s' fs' h
  case isTrue hwait =>
    obtain ⟨hc, _⟩ := hwait
    have hspec := writePage_core_ok_spec ctl wenv (SimpleLruWaitIo s i) fs i _ s' fs' h
    obtain ⟨e1, e2, e3, e4, e5, e6, e7, hother, hempty, hfs⟩ := hspec
    have hsvi : statusAt (SimpleLruWaitIo s i) i = .VALID := waitIo_statusAt_write s i hc
    refine ⟨e1.trans (waitIo_page_number s i), e2.trans (waitIo_latest s i),
      e3.trans (waitIo_numSlots s i), e4.trans (waitIo_dirty_length s i),
      e5.trans (waitIo_lru s i), e6.trans (waitIo_cur s i),
      e7.trans (waitIo_buffers s i), ?_, ?_, ?_⟩
    · intro j hj
      rw [hother j hj]
      rcases waitIo_statusAt s i j with hcc | ⟨hji, _, _⟩ | ⟨hji, _, _⟩
      · exact hcc
      · exact absurd hji hj
      · exact absurd hji hj
    · intro j
      rw [hempty j]
      by_cases hj : j = i
      · subst hj
        rw [hsvi, hc]
        constructor <;> (intro hh; cases hh)
      · rcases waitIo_statusAt s i j with hcc | ⟨hji, _, _⟩ | ⟨hji, _, _⟩
        · rw [hcc]
        · exact absurd hji hj
        · exact absurd hji hj
    · rcases hfs with hfs | hfs
      · exact Or.inl hfs
      · right
        rw [hfs]
        have hb : bufferAt (SimpleLruWaitIo s i) i = bufferAt s i := by
          unfold bufferAt
          rw [waitIo_buffers s i]
        rw [hb]

/-- A failed write restores the slot before the error is reported: the
ioError outcome carries a state where the slot is VALID and dirty again. -/
theorem writePage_ioError_spec (ctl : SlruCtl) (wenv : WriteEnv) (s : SlruShared) (fs : SlruFs)
    (i : Nat) (c : SlruErrorCause) (p : Int) (sl : Nat) (s' : SlruShared) (fs' : SlruFs)
    (h : SimpleLruWritePage ctl wenv s fs i = .ioError c p sl s' fs') :
    sl = i ∧ statusAt s' i = .VALID ∧ dirtyAt s' i = true := by
  unfold SimpleLruWritePage at h
  dsimp only at h
  -- reduce to the core applied at the post-wait state
  revert h
  generalize (if statusAt s i = .WRITE_IN_PROGRESS ∧ pageAt s i = pageAt s i
      then SimpleLruWaitIo s i else s) = t
  intro h
  unfold SimpleLruWritePage_core at h
  split at h
  · cases h
  case isFalse hguard =>
    push_neg at hguard
    obtain ⟨hdirty, hvalid, _⟩ := hguard
    have hilt : i < numSlots t := lt_of_statusAt_ne t i (by rw [hvalid]; intro hh; cases hh)
    have hdlt : i < t.page_dirty.length := lt_of_dirtyAt_true t i (by simpa using hdirty)
    dsimp only at h
    rcases hw : SlruPhysicalWritePage ctl.do_fsync wenv fs
        (setCtrl (setDirty (setStatus t i .WRITE_IN_PROGRESS) i false) none) (pageAt s i) i
        with ⟨ok, fs2, stash⟩
    rw [hw] at h
    dsimp only at h
    split at h
    · cases h
    case isFalse hok =>
      obtain ⟨hsl, hs⟩ : sl = i ∧ s' = setStatus (setDirty (setCtrl
          (setCtrl (setDirty (setStatus t i .WRITE_IN_PROGRESS) i false) none)
          (some .exclusive)) i true) i .VALID := by
        cases h; exact ⟨rfl, rfl⟩
      subst hs
      refine ⟨hsl, ?_, ?_⟩
      · exact statusAt_setStatus_self _ _ _
          (by simpa [numSlots, setStatus, setCtrl, setDirty] using hilt)
      · simp only [dirtyAt_setStatus]
        exact dirtyAt_setDirty_self _ _ _
          (by simpa [setStatus, setCtrl, setDirty] using hdlt)

/-! ### selectLoop lemmas -/

/-- The slot returned through the immediate-EMPTY exit is a scanned slot and
is indeed EMPTY. -/
theorem selectLoop_emptySlot_spec (pre : Int → Int → Bool) (s : SlruShared) (cur : Int) :
    ∀ (L : List Nat) (lru : List Int) (bd : Int) (bs : Nat) (bp : Int) (i : Nat) (lru' : List Int),
      selectLoop pre s cur L lru bd bs bp = .emptySlot i lru' →
      i ∈ L ∧ statusAt s i = .EMPTY := by
  intro L
  induction L with
  | nil =>
    intro lru bd bs bp i lru' h
    cases h
  | cons a rest ih =>
    intro lru bd bs bp i lru' h
    unfold selectLoop at h
    split at h
    case isTrue hE =>
      cases h
      exact ⟨List.mem_cons_self a rest, hE⟩
    case isFalse hE =>
      dsimp only at h
      split at h <;> split at h <;>
        (obtain ⟨hm, he⟩ := ih _ _ _ _ _ _ h
         exact ⟨List.mem_cons_of_mem a hm, he⟩)

/-- A victim returned by the scan is either the incoming best slot or one of
the scanned slots. -/
theorem selectLoop_victim_mem (pre : Int → Int → Bool) (s : SlruShared) (cur : Int) :
    ∀ (L : List Nat) (lru : List Int) (bd : Int) (bs : Nat) (bp : Int) (r : Nat) (lru' : List Int),
      selectLoop pre s cur L lru bd bs bp = .victim r lru' →
      r = bs ∨ r ∈ L := by
  intro L
  induction L with
  | nil =>
    intro lru bd bs bp r lru' h
    cases h
    exact Or.inl rfl
  | cons a rest ih =>
    intro lru bd bs bp r lru' h
    unfold selectLoop at h
    split at h
    · cases h
    · dsimp only at h
      split at h <;> split at h <;>
        (rcases ih _ _ _ _ _ _ h with hr | hr
         · first
           | exact Or.inr (by rw [hr]; exact List.mem_cons_self a rest)
           | exact Or.inl hr
         · exact Or.inr (List.mem_cons_of_mem a hr))

/-- When the scan completes with a victim, no scanned slot was EMPTY. -/
theorem selectLoop_victim_nonempty (pre : Int → Int → Bool) (s : SlruShared) (cur : Int) :
    ∀ (L : List Nat) (lru : List Int) (bd : Int) (bs : Nat) (bp : Int) (r : Nat) (lru' : List Int),
      selectLoop pre s cur L lru bd bs bp = .victim r lru' →
      ∀ j ∈ L, statusAt s j ≠ .EMPTY := by
  intro L
  induction L with
  | nil =>
    intro lru bd bs bp r lru' _ j hj
    cases hj
  | cons a rest ih =>
    intro lru bd bs bp r lru' h j hj
    unfold selectLoop at h
    split at h
    · cases h
    case isFalse hE =>
      dsimp only at h
      rcases List.mem_cons.mp hj with hja | hja
      · subst hja
        exact hE
      · split at h <;> split at h <;> exact ih _ _ _ _ _ _ h j hja

/-- The scan only repairs lru entries in place, so the array's length is
unchanged on either exit. -/
theorem selectLoop_lru_length (pre : Int → Int → Bool) (s : SlruShared) (cur : Int) :
    ∀ (L : List Nat) (lru : List Int) (bd : Int) (bs : Nat) (bp : Int) (i : Nat) (lru' : List Int),
      (selectLoop pre s cur L lru bd bs bp = .emptySlot i lru' ∨
       selectLoop pre s cur L lru bd bs bp = .victim i lru') →
      lru'.length = lru.length := by
  intro L
  induction L with
  | nil =>
    intro lru bd bs bp i lru' h
    rcases h with h | h <;> cases h
    rfl
  | cons a rest ih =>
    intro lru bd bs bp i lru' h
    rcases h with h | h <;>
      (unfold selectLoop at h
       split at h)
    · cases h
      rfl
    · dsimp only at h
      split at h <;> split at h <;>
        (have hl := ih _ _ _ _ _ _ (Or.inl h)
         simpa using hl)
    · cases h
    · dsimp only at h
      split at h <;> split at h <;>
        (have hl := ih _ _ _ _ _ _ (Or.inr h)
         simpa using hl)

/--
The victim the scan picks never holds latest_page_number, provided some
scanned slot's page differs from it (or the incoming best already does).
The first disjunctive hypothesis is the accumulator invariant
(best_delta = -1 initially, and afterwards the best slot is never the
latest page's slot).
-/
theorem selectLoop_victim_ne_latest (pre : Int → Int → Bool) (s : SlruShared) (cur : Int) :
    ∀ (L : List Nat) (lru : List Int) (bd : Int) (bs : Nat) (bp : Int) (r : Nat) (lru' : List Int),
      (bd = -1 ∨ pageAt s bs ≠ s.latest_page_number) →
      ((∃ j ∈ L, pageAt s j ≠ s.latest_page_number) ∨
        (bd ≠ -1 ∧ pageAt s bs ≠ s.latest_page_number)) →
      selectLoop pre s cur L lru bd bs bp = .victim r lru' →
      pageAt s r ≠ s.latest_page_number := by
  intro L
  induction L with
  | nil =>
    intro lru bd bs bp r lru' _ he h
    cases h
    rcases he with ⟨j, hj, _⟩ | ⟨_, hne⟩
    · cases hj
    · exact hne
  | cons a rest ih =>
    intro lru bd bs bp r lru' hinv he h
    unfold selectLoop at h
    split at h
    · cases h
    case isFalse hE =>
      dsimp only at h
      split at h
      case isTrue hneg =>
        split at h
        case isTrue htest =>
          exact ih _ _ _ _ _ _ (Or.inr htest.2) (Or.inr ⟨by omega, htest.2⟩) h
        case isFalse htest =>
          rcases he with ⟨j, hj, hne⟩ | ⟨hbd, hbs⟩
          · rcases List.mem_cons.mp hj with hja | hja
            · subst hja
              -- the failed test forces a real accumulator: with bd = -1 the
              -- candidate's nonnegative delta would have won
              have hbd : bd ≠ -1 := by
                intro hbdeq
                subst hbdeq
                exact htest ⟨Or.inl (by omega), hne⟩
              rcases hinv with hinv | hinv
              · exact absurd hinv hbd
              · exact ih _ _ _ _ _ _ (Or.inr hinv) (Or.inr ⟨hbd, hinv⟩) h
            · exact ih _ _ _ _ _ _ hinv (Or.inl ⟨j, hja, hne⟩) h
          · exact ih _ _ _ _ _ _ (Or.inr hbs) (Or.inr ⟨hbd, hbs⟩) h
      case isFalse hneg =>
        split at h
        case isTrue htest =>
          exact ih _ _ _ _ _ _ (Or.inr htest.2) (Or.inr ⟨by omega, htest.2⟩) h
        case isFalse htest =>
          rcases he with ⟨j, hj, hne⟩ | ⟨hbd, hbs⟩
          · rcases List.mem_cons.mp hj with hja | hja
            · subst hja
              have hbd : bd ≠ -1 := by
                intro hbdeq
                subst hbdeq
                exact htest ⟨Or.inl (by omega), hne⟩
              rcases hinv with hinv | hinv
              · exact absurd hinv hbd
              · exact ih _ _ _ _ _ _ (Or.inr hinv) (Or.inr ⟨hbd, hinv⟩) h
            · exact ih _ _ _ _ _ _ hinv (Or.inl ⟨j, hja, hne⟩) h
          · exact ih _ _ _ _ _ _ (Or.inr hbs) (Or.inr ⟨hbd, hbs⟩) h

/-! ### findSlot lemmas -/

/-- A hit returned by the first scan holds the page with a non-EMPTY status. -/
theorem findSlot_some_spec (s : SlruShared) (pageno : Int) (j : Nat)
    (h : findSlot s pageno = some j) :
    j < numSlots s ∧ pageAt s j = pageno ∧ statusAt s j ≠ .EMPTY := by
  unfold findSlot at h
  have hmem := List.mem_of_find?_eq_some h
  have hp := List.find?_some h
  refine ⟨List.mem_range.mp hmem, ?_⟩
  exact of_decide_eq_true hp

/-- When no slot holds the page, the first scan misses. -/
theorem findSlot_none_of_nohit (s : SlruShared) (pageno : Int)
    (h : ∀ i, i < numSlots s → pageAt s i = pageno → statusAt s i = .EMPTY) :
    findSlot s pageno = none := by
  unfold findSlot
  rw [List.find?_eq_none]
  intro i hi
  have hi' := List.mem_range.mp hi
  simp only [decide_eq_true_eq]
  rintro ⟨hp, hne⟩
  exact hne (h i hi' hp)

/-! ### Plain record-update accessors -/

theorem statusAt_withCur (s : SlruShared) (x : Int) (i : Nat) :
    statusAt { s with cur_lru_count := x } i = statusAt s i := rfl

theorem pageAt_withCur (s : SlruShared) (x : Int) (i : Nat) :
    pageAt { s with cur_lru_count := x } i = pageAt s i := rfl

theorem statusAt_withLru (s : SlruShared) (l : List Int) (i : Nat) :
    statusAt { s with page_lru_count := l } i = statusAt s i := rfl

theorem pageAt_withLru (s : SlruShared) (l : List Int) (i : Nat) :
    pageAt { s with page_lru_count := l } i = pageAt s i := rfl

/-! ### The never-evict-latest invariant of the full victim selection -/

/--
Auxiliary induction for claim C1: through every restart of
SlruSelectLRUPage, provided no slot holds the requested page, every EMPTY
slot's page number differs from latest_page_number, and some slot's page
number differs from latest_page_number, the returned slot never holds
latest_page_number.
-/
theorem select_ne_latest_aux (ctl : SlruCtl) (wenv : WriteEnv) (pageno : Int) :
    ∀ (fuel : Nat) (s : SlruShared) (fs : SlruFs) (r : Nat) (s' : SlruShared) (fs' : SlruFs),
      (∀ i, i < numSlots s → pageAt s i = pageno → statusAt s i = .EMPTY) →
      (∀ i, i < numSlots s → statusAt s i = .EMPTY → pageAt s i ≠ s.latest_page_number) →
      (∃ j, j < numSlots s ∧ pageAt s j ≠ s.latest_page_number) →
      SlruSelectLRUPage ctl wenv fuel s fs pageno = .ok r s' fs' →
      pageAt s' r ≠ s'.latest_page_number := by
  intro fuel
  induction fuel with
  | zero =>
    intro s fs r s' fs' _ _ _ h
    cases h
  | succ fuel ih =>
    intro s fs r s' fs' hnohit hHE hcand h
    unfold SlruSelectLRUPage at h
    rw [findSlot_none_of_nohit s pageno hnohit] at h
    dsimp only at h
    rw [show numSlots { s with cur_lru_count := int32add s.cur_lru_count 1 } = numSlots s
      from rfl] at h
    rcases hsel : selectLoop ctl.PagePrecedes { s with cur_lru_count := int32add s.cur_lru_count 1 }
        s.cur_lru_count (List.range (numSlots s)) s.page_lru_count (-1) 0 0 with
        ⟨i, lru⟩ | ⟨bs, lru⟩
    · rw [hsel] at h
      dsimp only at h
      obtain ⟨hr, hs, hfs⟩ : r = i ∧
          s' = { s with cur_lru_count := int32add s.cur_lru_count 1, page_lru_count := lru } ∧
          fs' = fs := by
        cases h
        exact ⟨rfl, rfl, rfl⟩
      rw [hr, hs]
      obtain ⟨hm, hE⟩ := selectLoop_emptySlot_spec _ _ _ _ _ _ _ _ _ _ hsel
      have hilt : i < numSlots s := List.mem_range.mp hm
      exact hHE i hilt hE
    · have hvne : pageAt s bs ≠ s.latest_page_number := by
        obtain ⟨j, hj, hjne⟩ := hcand
        have := selectLoop_victim_ne_latest ctl.PagePrecedes
          { s with cur_lru_count := int32add s.cur_lru_count 1 } s.cur_lru_count
          (List.range (numSlots s)) s.page_lru_count (-1) 0 0 bs lru
          (Or.inl rfl) (Or.inl ⟨j, List.mem_range.mpr hj, hjne⟩) hsel
        exact this
      rw [hsel] at h
      dsimp only at h
      split at h
      · -- clean victim returned directly
        obtain ⟨hr, hs, hfs⟩ : r = bs ∧
            s' = { s with cur_lru_count := int32add s.cur_lru_count 1, page_lru_count := lru } ∧
            fs' = fs := by
          cases h
          exact ⟨rfl, rfl, rfl⟩
        rw [hr, hs]
        exact hvne
      · split at h
        · -- dirty victim: write it out, then restart
          rcases hw : SimpleLruWritePage ctl wenv
              { s with cur_lru_count := int32add s.cur_lru_count 1, page_lru_count := lru }
              fs bs with _ | ⟨c, p, sl, s3, fs3⟩ | _ <;> rw [hw] at h
          case ok u s3 fs3 =>
            obtain ⟨e1, e2, e3, _, _, _, _, _, hempty, _⟩ :=
              writePage_ok_spec _ _ _ _ _ _ _ hw
            have e1' : s3.page_number = s.page_number := e1
            have e2' : s3.latest_page_number = s.latest_page_number := e2
            have e3' : numSlots s3 = numSlots s := e3
            have hempty' : ∀ j, (statusAt s3 j = .EMPTY ↔ statusAt s j = .EMPTY) := hempty
            refine ih s3 fs3 r s' fs' ?_ ?_ ?_ h
            · intro i hi hp
              have hi' : i < numSlots s := by omega
              have hp' : pageAt s i = pageno := by
                unfold pageAt at hp ⊢
                rw [← e1']
                exact hp
              exact (hempty' i).mpr (hnohit i hi' hp')
            · intro i hi hE
              have hi' : i < numSlots s := by omega
              have hpp : pageAt s3 i = pageAt s i := by
                unfold pageAt
                rw [e1']
              rw [hpp, e2']
              exact hHE i hi' ((hempty' i).mp hE)
            · obtain ⟨j, hj, hjne⟩ := hcand
              refine ⟨j, by omega, ?_⟩
              have hpp : pageAt s3 j = pageAt s j := by
                unfold pageAt
                rw [e1']
              rw [hpp, e2']
              exact hjne
          · cases h
          · cases h
        · -- I/O-busy victim: wait (sequentially, roll the slot back), restart
          set s2 := { s with cur_lru_count := int32add s.cur_lru_count 1, page_lru_count := lru } with hs2
          refine ih (SimpleLruWaitIo s2 bs) fs r s' fs' ?_ ?_ ?_ h
          · intro i hi hp
            have hi2 : i < numSlots s2 := by
              rw [waitIo_numSlots] at hi
              exact hi
            have hi' : i < numSlots s := hi2
            have hp2 : pageAt s2 i = pageno := by
              rw [waitIo_pageAt] at hp
              exact hp
            have hp' : pageAt s i = pageno := hp2
            have hEi : statusAt s2 i = .EMPTY := hnohit i hi' hp'
            rcases waitIo_statusAt s2 bs i with hc | ⟨_, hc1, hc2⟩ | ⟨_, hc1, hc2⟩
            · rw [hc]
              exact hEi
            · exact hc1
            · rw [hc2] at hEi
              cases hEi
          · intro i hi hE
            have hi2 : i < numSlots s2 := by
              rw [waitIo_numSlots] at hi
              exact hi
            have hi' : i < numSlots s := hi2
            have hpg : pageAt (SimpleLruWaitIo s2 bs) i = pageAt s i := waitIo_pageAt s2 bs i
            have hlat : (SimpleLruWaitIo s2 bs).latest_page_number = s.latest_page_number :=
              waitIo_latest s2 bs
            rw [hpg, hlat]
            rcases waitIo_statusAt s2 bs i with hc | ⟨hib, _, _⟩ | ⟨_, hc1, _⟩
            · rw [hc] at hE
              have hE' : statusAt s i = .EMPTY := hE
              exact hHE i hi' hE'
            · subst hib
              exact hvne
            · rw [hc1] at hE
              cases hE
          · obtain ⟨j, hj, hjne⟩ := hcand
            refine ⟨j, ?_, ?_⟩
            · rw [waitIo_numSlots]
              exact hj
            · have hpg : pageAt (SimpleLruWaitIo s2 bs) j = pageAt s j := waitIo_pageAt s2 bs j
              have hlat : (SimpleLruWaitIo s2 bs).latest_page_number = s.latest_page_number :=
                waitIo_latest s2 bs
              rw [hpg, hlat]
              exact hjne

/--
Frame specification of a normal SlruSelectLRUPage return: the returned slot
index is in range; page numbers, latest page, buffers and array sizes are
untouched; EMPTY slots stay EMPTY; and if no non-EMPTY slot holds page `p`,
then the restarts' eviction writes touch neither `p`'s stored image nor its
segment's existence, and afterwards still no non-EMPTY slot holds `p`.
-/
theorem select_ok_spec (ctl : SlruCtl) (wenv : WriteEnv) (p : Int) :
    ∀ (fuel : Nat) (s : SlruShared) (fs : SlruFs) (pageno : Int) (r : Nat)
      (s' : SlruShared) (fs' : SlruFs),
      0 < numSlots s →
      SlruSelectLRUPage ctl wenv fuel s fs pageno = .ok r s' fs' →
      r < numSlots s ∧
      s'.page_number = s.page_number ∧
      s'.latest_page_number = s.latest_page_number ∧
      s'.page_status.length = s.page_status.length ∧
      s'.page_dirty.length = s.page_dirty.length ∧
      s'.page_lru_count.length = s.page_lru_count.length ∧
      s'.page_buffer = s.page_buffer ∧
      (∀ j, statusAt s j = .EMPTY → statusAt s' j = .EMPTY) ∧
      ((∀ j, statusAt s j ≠ .EMPTY → pageAt s j ≠ p) →
        (fsReadByPage fs' p = fsReadByPage fs p ∧
         (segExists fs (p.tdiv SLRU_PAGES_PER_SEGMENT) = true →
          segExists fs' (p.tdiv SLRU_PAGES_PER_SEGMENT) = true) ∧
         (∀ j, statusAt s' j ≠ .EMPTY → pageAt s' j ≠ p))) := by
  intro fuel
  induction fuel with
  | zero =>
    intro s fs pageno r s' fs' _ h
    cases h
  | succ fuel ih =>
    intro s fs pageno r s' fs' hpos h
    unfold SlruSelectLRUPage at h
    rcases hf : findSlot s pageno with _ | j
    · rw [hf] at h
      dsimp only at h
      rw [show numSlots { s with cur_lru_count := int32add s.cur_lru_count 1 } = numSlots s
        from rfl] at h
      rcases hsel : selectLoop ctl.PagePrecedes
          { s with cur_lru_count := int32add s.cur_lru_count 1 }
          s.cur_lru_count (List.range (numSlots s)) s.page_lru_count (-1) 0 0 with
          ⟨i, lru⟩ | ⟨bs, lru⟩
      · rw [hsel] at h
        dsimp only at h
        obtain ⟨hr, hs, hfs⟩ : r = i ∧
            s' = { s with cur_lru_count := int32add s.cur_lru_count 1, page_lru_count := lru } ∧
            fs' = fs := by
          cases h
          exact ⟨rfl, rfl, rfl⟩
        obtain ⟨hm, _⟩ := selectLoop_emptySlot_spec _ _ _ _ _ _ _ _ _ _ hsel
        have hlru : lru.length = s.page_lru_count.length :=
          selectLoop_lru_length _ _ _ _ _ _ _ _ _ _ (Or.inl hsel)
        subst hs hfs
        rw [hr]
        exact ⟨List.mem_range.mp hm, rfl, rfl, rfl, rfl, hlru, rfl,
          fun j hE => hE, fun hp => ⟨rfl, fun hh => hh, fun j => hp j⟩⟩
      · rw [hsel] at h
        dsimp only at h
        have hlru : lru.length = s.page_lru_count.length :=
          selectLoop_lru_length _ _ _ _ _ _ _ _ _ _ (Or.inr hsel)
        have hbs : bs < numSlots s := by
          rcases selectLoop_victim_mem _ _ _ _ _ _ _ _ _ _ hsel with hb | hb
          · rw [hb]
            exact hpos
          · exact List.mem_range.mp hb
        split at h
        · -- clean victim returned directly
          obtain ⟨hr, hs, hfs⟩ : r = bs ∧
              s' = { s with cur_lru_count := int32add s.cur_lru_count 1, page_lru_count := lru } ∧
              fs' = fs := by
            cases h
            exact ⟨rfl, rfl, rfl⟩
          subst hs hfs
          rw [hr]
          exact ⟨hbs, rfl, rfl, rfl, rfl, hlru, rfl,
            fun j hE => hE, fun hp => ⟨rfl, fun hh => hh, fun j => hp j⟩⟩
        case isFalse hclean =>
          split at h
          case isTrue hvalid =>
            -- dirty victim: write it out, then restart
            rcases hw : SimpleLruWritePage ctl wenv
                { s with cur_lru_count := int32add s.cur_lru_count 1, page_lru_count := lru }
                fs bs with _ | _ | _ <;> rw [hw] at h
            case ok u s3 fs3 =>
              obtain ⟨e1, e2, e3, e4, e5, e6, e7, _, hempty, hfs3⟩ :=
                writePage_ok_spec _ _ _ _ _ _ _ hw
              have e1' : s3.page_number = s.page_number := e1
              have e2' : s3.latest_page_number = s.latest_page_number := e2
              have e3' : s3.page_status.length = s.page_status.length := e3
              have e4' : s3.page_dirty.length = s.page_dirty.length := e4
              have e5' : s3.page_lru_count = lru := e5
              have e7' : s3.page_buffer = s.page_buffer := e7
              have hempty' : ∀ j, (statusAt s3 j = .EMPTY ↔ statusAt s j = .EMPTY) := hempty
              have hpos3 : 0 < numSlots s3 := by
                unfold numSlots at hpos ⊢
                omega
              obtain ⟨c1, c2, c3, c4, c5, c6, c7, c8, c9⟩ := ih s3 fs3 pageno r s' fs' hpos3 h
              refine ⟨by unfold numSlots at c1 ⊢; omega,
                c2.trans e1', c3.trans e2', c4.trans e3', c5.trans e4',
                by rw [c6, e5', hlru], c7.trans e7', ?_, ?_⟩
              · intro j hE
                exact c8 j ((hempty' j).mpr hE)
              · intro hp
                have hp3 : ∀ j, statusAt s3 j ≠ .EMPTY → pageAt s3 j ≠ p := by
                  intro j hne
                  have : statusAt s j ≠ .EMPTY := fun hE => hne ((hempty' j).mpr hE)
                  have hpj := hp j this
                  unfold pageAt
                  rw [e1']
                  exact hpj
                obtain ⟨d1, d2, d3⟩ := c9 hp3
                have hq : pageAt s bs ≠ p := by
                  refine hp bs ?_
                  intro hE
                  have hv2 : statusAt s bs = .VALID := hvalid
                  rw [hE] at hv2
                  cases hv2
                have hkey : ¬((pageAt s bs).tdiv SLRU_PAGES_PER_SEGMENT =
                      p.tdiv SLRU_PAGES_PER_SEGMENT ∧
                    (pageAt s bs).tmod SLRU_PAGES_PER_SEGMENT =
                      p.tmod SLRU_PAGES_PER_SEGMENT) := by
                  intro hk
                  exact hq (pageKey_inj _ _ hk)
                have hreadpres : fsReadByPage fs3 p = fsReadByPage fs p := by
                  rcases hfs3 with hfs3 | hfs3
                  · rw [hfs3]
                  · rw [hfs3]
                    exact fsWritePage_read_other fs _ _ _ p (by
                      intro hk
                      exact hkey ⟨hk.1, hk.2⟩)
                have hsegpres : segExists fs (p.tdiv SLRU_PAGES_PER_SEGMENT) = true →
                    segExists fs3 (p.tdiv SLRU_PAGES_PER_SEGMENT) = true := by
                  intro hseg
                  rcases hfs3 with hfs3 | hfs3
                  · rw [hfs3]
                    exact hseg
                  · rw [hfs3]
                    exact segExists_fsWritePage _ _ _ _ _ hseg
                exact ⟨d1.trans hreadpres, fun hseg => d2 (hsegpres hseg), d3⟩
            · cases h
            · cases h
          · -- I/O-busy victim: wait (sequentially, roll the slot back), restart
            set s2 := { s with cur_lru_count := int32add s.cur_lru_count 1, page_lru_count := lru } with hs2
            have hn3 : numSlots (SimpleLruWaitIo s2 bs) = numSlots s := waitIo_numSlots s2 bs
            have hpos3 : 0 < numSlots (SimpleLruWaitIo s2 bs) := by omega
            obtain ⟨c1, c2, c3, c4, c5, c6, c7, c8, c9⟩ :=
              ih (SimpleLruWaitIo s2 bs) fs pageno r s' fs' hpos3 h
            have w1 : (SimpleLruWaitIo s2 bs).page_number = s.page_number := waitIo_page_number s2 bs
            have w2 : (SimpleLruWaitIo s2 bs).latest_page_number = s.latest_page_number :=
              waitIo_latest s2 bs
            have w3 : (SimpleLruWaitIo s2 bs).page_status.length = s.page_status.length :=
              waitIo_numSlots s2 bs
            have w4 : (SimpleLruWaitIo s2 bs).page_dirty.length = s.page_dirty.length :=
              waitIo_dirty_length s2 bs
            have w5 : (SimpleLruWaitIo s2 bs).page_lru_count = lru := waitIo_lru s2 bs
            have w7 : (SimpleLruWaitIo s2 bs).page_buffer = s.page_buffer := waitIo_buffers s2 bs
            refine ⟨by unfold numSlots at c1 ⊢; omega,
              c2.trans w1, c3.trans w2, c4.trans w3, c5.trans w4,
              by rw [c6, w5, hlru], c7.trans w7, ?_, ?_⟩
            · intro j hE
              refine c8 j ?_
              rcases waitIo_statusAt s2 bs j with hc | ⟨_, hc1, _⟩ | ⟨_, _, hc2⟩
              · rw [hc]
                exact hE
              · exact hc1
              · have hE2 : statusAt s2 j = .EMPTY := hE
                rw [hc2] at hE2
                cases hE2
            · intro hp
              refine c9 ?_
              intro j hne
              have hpg : pageAt (SimpleLruWaitIo s2 bs) j = pageAt s j := waitIo_pageAt s2 bs j
              rw [hpg]
              rcases waitIo_statusAt s2 bs j with hc | ⟨_, _, hc2⟩ | ⟨_, _, hc2⟩ <;>
                refine hp j ?_
              · rw [hc] at hne
                exact hne
              · have : statusAt s j = .READ_IN_PROGRESS := hc2
                rw [this]
                intro hh
                cases hh
              · have : statusAt s j = .WRITE_IN_PROGRESS := hc2
                rw [this]
                intro hh
                cases hh
    · rw [hf] at h
      dsimp only at h
      obtain ⟨hr, hs, hfs⟩ : r = j ∧ s' = s ∧ fs' = fs := by
        cases h
        exact ⟨rfl, rfl, rfl⟩
      rw [hr, hs, hfs]
      obtain ⟨hj, _, _⟩ := findSlot_some_spec s pageno j hf
      exact ⟨hj, rfl, rfl, rfl, rfl, rfl, rfl, fun j hE => hE,
        fun hp => ⟨rfl, fun hh => hh, fun j => hp j⟩⟩

/-! ### Physical read lemmas -/

/-- A physical read only ever touches the slot's page buffer: every other
state component is returned unchanged. -/
theorem physRead_frame (blcksz : Nat) (renv : ReadEnv) (inRecovery : Bool)
    (fs : SlruFs) (s : SlruShared) (pageno : Int) (slotno : Nat)
    (ok : Bool) (s5 : SlruShared) (stash : Option (SlruErrorCause × Int))
    (h : SlruPhysicalReadPage blcksz renv inRecovery fs s pageno slotno = (ok, s5, stash)) :
    s5.page_status = s.page_status ∧
    s5.page_dirty = s.page_dirty ∧
    s5.page_number = s.page_number ∧
    s5.page_lru_count = s.page_lru_count ∧
    s5.cur_lru_count = s.cur_lru_count ∧
    s5.latest_page_number = s.latest_page_number ∧
    s5.controlLock = s.controlLock ∧
    s5.page_buffer.length = s.page_buffer.length := by
  unfold SlruPhysicalReadPage at h
  dsimp only at h
  split at h
  · split at h <;>
      (cases h
       simp [setBuffer])
  · split at h
    · cases h
      simp
    · split at h
      · split at h
        · split at h <;>
            (cases h
             simp [setBuffer])
        · cases h
          simp
      · cases h
        simp

/-- When every write-path syscall succeeds, the victim selection never
reports an I/O error (its only error source is the eviction write). -/
theorem select_wenvOk_ne_ioError (ctl : SlruCtl) (wenv : WriteEnv) (hok : wenvOk wenv) :
    ∀ (fuel : Nat) (s : SlruShared) (fs : SlruFs) (pageno : Int) (c : SlruErrorCause)
      (p : Int) (sl : Nat) (s2 : SlruShared) (fs2 : SlruFs),
      SlruSelectLRUPage ctl wenv fuel s fs pageno ≠ .ioError c p sl s2 fs2 := by
  intro fuel
  induction fuel with
  | zero =>
    intro s fs pageno c p sl s2 fs2 h
    cases h
  | succ fuel ih =>
    intro s fs pageno c p sl s2 fs2 h
    unfold SlruSelectLRUPage at h
    rcases hf : findSlot s pageno with _ | j
    · rw [hf] at h
      dsimp only at h
      rcases hsel : selectLoop ctl.PagePrecedes
          { s with cur_lru_count := int32add s.cur_lru_count 1 } s.cur_lru_count
          (List.range (numSlots { s with cur_lru_count := int32add s.cur_lru_count 1 }))
          s.page_lru_count (-1) 0 0 with ⟨i, lru⟩ | ⟨bs, lru⟩ <;> rw [hsel] at h <;>
        dsimp only at h
      · cases h
      · split at h
        · cases h
        · split at h
          · obtain ⟨s4, fs4, hwo⟩ := writePage_wenvOk ctl wenv _ fs bs hok
            rw [hwo] at h
            exact ih _ _ _ _ _ _ _ _ h
          · exact ih _ _ _ _ _ _ _ _ h
    · rw [hf] at h
      dsimp only at h
      cases h

/-! ### List-level frame lemmas for the setters -/

@[simp] theorem statusList_setCtrl (s : SlruShared) (l : Option LockMode) :
    (setCtrl s l).page_status = s.page_status := rfl

@[simp] theorem statusList_setDirty (s : SlruShared) (j : Nat) (b : Bool) :
    (setDirty s j b).page_status = s.page_status := rfl

@[simp] theorem statusList_setPageNumber (s : SlruShared) (j : Nat) (v : Int) :
    (setPageNumber s j v).page_status = s.page_status := rfl

@[simp] theorem statusList_setBuffer (s : SlruShared) (j : Nat) (v : List Nat) :
    (setBuffer s j v).page_status = s.page_status := rfl

theorem statusList_setStatus (s : SlruShared) (j : Nat) (v : SlruPageStatus) :
    (setStatus s j v).page_status = s.page_status.set j v := rfl

theorem recentlyUsed_status_list (s : SlruShared) (i : Nat) :
    (SlruRecentlyUsed s i).page_status = s.page_status := by
  unfold SlruRecentlyUsed
  split <;> rfl

@[simp] theorem pageList_setCtrl (s : SlruShared) (l : Option LockMode) :
    (setCtrl s l).page_number = s.page_number := rfl

theorem pageList_setPageNumber (s : SlruShared) (j : Nat) (v : Int) :
    (setPageNumber s j v).page_number = s.page_number.set j v := rfl

@[simp] theorem bufferList_setCtrl (s : SlruShared) (l : Option LockMode) :
    (setCtrl s l).page_buffer = s.page_buffer := rfl

@[simp] theorem bufferList_setStatus (s : SlruShared) (j : Nat) (v : SlruPageStatus) :
    (setStatus s j v).page_buffer = s.page_buffer := rfl

@[simp] theorem bufferList_setDirty (s : SlruShared) (j : Nat) (b : Bool) :
    (setDirty s j b).page_buffer = s.page_buffer := rfl

@[simp] theorem bufferList_setPageNumber (s : SlruShared) (j : Nat) (v : Int) :
    (setPageNumber s j v).page_buffer = s.page_buffer := rfl

theorem recentlyUsed_buffer_list (s : SlruShared) (i : Nat) :
    (SlruRecentlyUsed s i).page_buffer = s.page_buffer := by
  unfold SlruRecentlyUsed
  split <;> rfl

theorem recentlyUsed_page_list (s : SlruShared) (i : Nat) :
    (SlruRecentlyUsed s i).page_number = s.page_number := by
  unfold SlruRecentlyUsed
  split <;> rfl

/-! ### SimpleLruReadPage_Internal error restoration (claim C4's read half) -/

/--
On a failed physical read, SimpleLruReadPage_Internal restores the slot to
EMPTY before surfacing the failure, on both the ereport path and the
valid-pointer path (which also releases the control lock).  Eviction writes
are assumed to succeed so that the only I/O failure is the read itself.
-/
theorem readPage_fail_spec (ctl : SlruCtl) (blcksz : Nat) (renv : ReadEnv) (wenv : WriteEnv)
    (inRecovery : Bool) (hok : wenvOk wenv) :
    ∀ (fuel : Nat) (s : SlruShared) (fs : SlruFs) (pageno : Int) (write_ok hasValid : Bool),
      0 < numSlots s →
      (∀ (c : SlruErrorCause) (p : Int) (sl : Nat) (s' : SlruShared) (fs' : SlruFs),
        SimpleLruReadPage_Internal ctl blcksz renv wenv inRecovery fuel s fs pageno write_ok hasValid =
          .ioError c p sl s' fs' → statusAt s' sl = .EMPTY) ∧
      (∀ (sl : Nat) (s' : SlruShared) (fs' : SlruFs),
        SimpleLruReadPage_Internal ctl blcksz renv wenv inRecovery fuel s fs pageno write_ok hasValid =
          .failed sl s' fs' → statusAt s' sl = .EMPTY ∧ s'.controlLock = none) := by
  intro fuel
  induction fuel with
  | zero =>
    intro s fs pageno write_ok hasValid _
    constructor
    · intro c p sl s' fs' h
      cases h
    · intro sl s' fs' h
      cases h
  | succ fuel ih =>
    intro s fs pageno write_ok hasValid hpos
    have main : ∀ (res : ReadOut),
        SimpleLruReadPage_Internal ctl blcksz renv wenv inRecovery (fuel + 1) s fs pageno write_ok hasValid = res →
        (∀ (c : SlruErrorCause) (p : Int) (sl : Nat) (s' : SlruShared) (fs' : SlruFs),
          res = .ioError c p sl s' fs' → statusAt s' sl = .EMPTY) ∧
        (∀ (sl : Nat) (s' : SlruShared) (fs' : SlruFs),
          res = .failed sl s' fs' → statusAt s' sl = .EMPTY ∧ s'.controlLock = none) := by
      intro res h
      unfold SimpleLruReadPage_Internal at h
      rcases hsel : SlruSelectLRUPage ctl wenv (fuel + 1) s fs pageno with
          ⟨slotno, s1, fs1⟩ | ⟨c0, p0, sl0, sE, fsE⟩ | _ <;> rw [hsel] at h
      · dsimp only at h
        obtain ⟨b1, b2, b3, b4, b5, b6, b7, b8, _⟩ :=
          select_ok_spec ctl wenv 0 (fuel + 1) s fs pageno slotno s1 fs1 hpos hsel
        have hpos1 : 0 < numSlots s1 := by
          unfold numSlots at hpos ⊢
          omega
        split at h
        · split at h
          · -- wait for the in-progress I/O, then retry
            subst h
            have hposw : 0 < numSlots (SimpleLruWaitIo s1 slotno) := by
              have := waitIo_numSlots s1 slotno
              omega
            exact ih (SimpleLruWaitIo s1 slotno) fs1 pageno write_ok hasValid hposw
          · -- buffer hit returned
            subst h
            constructor
            · intro c p sl s' fs' hh
              cases hh
            · intro sl s' fs' hh
              cases hh
        · -- miss: mark read-busy and perform the physical read
          rcases hpr : SlruPhysicalReadPage blcksz renv inRecovery fs1
              (setCtrl (SlruRecentlyUsed (setDirty (setStatus (setPageNumber s1 slotno pageno)
                slotno .READ_IN_PROGRESS) slotno false) slotno) none) pageno slotno with
              ⟨okb, s5, stash⟩
          rw [hpr] at h
          dsimp only at h
          obtain ⟨f1, _, _, _, _, _, _, _⟩ := physRead_frame _ _ _ _ _ _ _ _ _ _ hpr
          have hlen6 : slotno <
              (setCtrl s5 (some LockMode.exclusive)).page_status.length := by
            have : s5.page_status.length = s1.page_status.length := by
              rw [f1]
              simp [recentlyUsed_status_list, statusList_setStatus]
            simp only [statusList_setCtrl]
            unfold numSlots at b1 hpos
            omega
          split at h
          · -- successful read
            subst h
            constructor
            · intro c p sl s' fs' hh
              cases hh
            · intro sl s' fs' hh
              cases hh
          · split at h
            · -- valid-pointer failure path
              subst h
              constructor
              · intro c p sl s' fs' hh
                cases hh
              · intro sl s' fs' hh
                cases hh
                constructor
                · simp only [statusAt_setCtrl]
                  rw [statusAt_setStatus_self _ _ _ hlen6]
                · rfl
            · -- ereport path
              subst h
              constructor
              · intro c p sl s' fs' hh
                cases hh
                rw [statusAt_setStatus_self _ _ _ hlen6]
              · intro sl s' fs' hh
                cases hh
      · dsimp only at h
        subst h
        constructor
        · intro c p sl s' fs' hh
          cases hh
          exact absurd hsel (select_wenvOk_ne_ioError ctl wenv hok (fuel + 1) s fs pageno _ _ _ _ _)
        · intro sl s' fs' hh
          cases hh
      · dsimp only at h
        subst h
        constructor
        · intro c p sl s' fs' hh
          cases hh
        · intro sl s' fs' hh
          cases hh
    constructor
    · intro c p sl s' fs' h
      exact (main _ h).1 c p sl s' fs' rfl
    · intro sl s' fs' h
      exact (main _ h).2 sl s' fs' rfl

/--
When no buffer holds page `p`, `p`'s segment file exists and the stored
image of `p` is all zero bytes, then any normal return of
SimpleLruReadPage_Internal for `p` carries a slot whose buffer is all
zeroes (this covers both the ordinary read and the recovery-mode
zero-fill).
-/
theorem readPage_zero_spec (ctl : SlruCtl) (blcksz : Nat) (renv : ReadEnv) (wenv : WriteEnv)
    (inRecovery : Bool) (p : Int) :
    ∀ (fuel : Nat) (s : SlruShared) (fs : SlruFs) (write_ok hasValid : Bool)
      (slot2 : Nat) (s3 : SlruShared) (fs3 : SlruFs),
      wf s →
      (∀ j, statusAt s j ≠ .EMPTY → pageAt s j ≠ p) →
      segExists fs (p.tdiv SLRU_PAGES_PER_SEGMENT) = true →
      fsReadByPage fs p = some (List.replicate blcksz 0) →
      SimpleLruReadPage_Internal ctl blcksz renv wenv inRecovery fuel s fs p write_ok hasValid =
        .ok slot2 s3 fs3 →
      bufferAt s3 slot2 = List.replicate blcksz 0 := by
  intro fuel s fs write_ok hasValid slot2 s3 fs3 hwf hp hseg hcont h
  obtain ⟨hpos, hld, hln, hll, hlb⟩ := hwf
  cases fuel with
  | zero => cases h
  | succ fuel =>
    unfold SimpleLruReadPage_Internal at h
    rcases hsel : SlruSelectLRUPage ctl wenv (fuel + 1) s fs p with
        ⟨slotno, s1, fs1⟩ | ⟨c0, p0, sl0, sE, fsE⟩ | _ <;> rw [hsel] at h
    · dsimp only at h
      obtain ⟨b1, b2, b3, b4, b5, b6, b7, b8, bcond⟩ :=
        select_ok_spec ctl wenv p (fuel + 1) s fs p slotno s1 fs1 hpos hsel
      obtain ⟨d1, d2, d3⟩ := bcond hp
      split at h
      case isTrue hcond =>
        exact absurd hcond.1 (d3 slotno hcond.2)
      case isFalse hcond =>
        rcases hpr : SlruPhysicalReadPage blcksz renv inRecovery fs1
            (setCtrl (SlruRecentlyUsed (setDirty (setStatus (setPageNumber s1 slotno p)
              slotno .READ_IN_PROGRESS) slotno false) slotno) none) p slotno with
            ⟨okb, s5, stash⟩
        rw [hpr] at h
        dsimp only at h
        have hb4 : slotno < (setCtrl (SlruRecentlyUsed (setDirty (setStatus (setPageNumber s1 slotno p)
            slotno .READ_IN_PROGRESS) slotno false) slotno) none).page_buffer.length := by
          simp only [bufferList_setCtrl]
          rw [recentlyUsed_buffer_list]
          simp only [bufferList_setDirty, bufferList_setStatus, bufferList_setPageNumber]
          rw [b7]
          unfold numSlots at b1 hlb
          omega
        split at h
        case isTrue hokb =>
          cases h
          rw [recentlyUsed_bufferAt]
          simp only [bufferAt_setStatus, bufferAt_setCtrl]
          -- okb is known true; trace the physical read to find the buffer
          unfold SlruPhysicalReadPage at hpr
          dsimp only at hpr
          split at hpr
          · split at hpr
            · cases hpr
              cases hokb
            · cases hpr
              exact bufferAt_setBuffer_self _ _ _ hb4
          · split at hpr
            · cases hpr
              cases hokb
            · split at hpr
              case h_1 bytes heq =>
                split at hpr
                case isTrue hblen =>
                  split at hpr
                  · cases hpr
                    cases hokb
                  · cases hpr
                    rw [bufferAt_setBuffer_self _ _ _ hb4]
                    -- the bytes read are the stored image of p, i.e. all zeroes
                    split at heq
                    · have hbytes : fsReadByPage fs3 p = some bytes := heq
                      rw [d1, hcont] at hbytes
                      exact (Option.some.inj hbytes).symm
                    · cases heq
                case isFalse hblen =>
                  cases hpr
                  cases hokb
              case h_2 heq =>
                cases hpr
                cases hokb
        case isFalse hokb =>
          split at h <;> cases h
    · dsimp only at h
      cases h
    · dsimp only at h
      cases h

/-! ### SimpleLruZeroPage specification (claim C5) -/

theorem statusAt_withLatest (s : SlruShared) (x : Int) (i : Nat) :
    statusAt { s with latest_page_number := x } i = statusAt s i := rfl

theorem pageAt_withLatest (s : SlruShared) (x : Int) (i : Nat) :
    pageAt { s with latest_page_number := x } i = pageAt s i := rfl

theorem dirtyAt_withLatest (s : SlruShared) (x : Int) (i : Nat) :
    dirtyAt { s with latest_page_number := x } i = dirtyAt s i := rfl

theorem bufferAt_withLatest (s : SlruShared) (x : Int) (i : Nat) :
    bufferAt { s with latest_page_number := x } i = bufferAt s i := rfl

theorem recentlyUsed_dirty_list (s : SlruShared) (i : Nat) :
    (SlruRecentlyUsed s i).page_dirty = s.page_dirty := by
  unfold SlruRecentlyUsed
  split <;> rfl

@[simp] theorem dirtyList_setStatus (s : SlruShared) (j : Nat) (v : SlruPageStatus) :
    (setStatus s j v).page_dirty = s.page_dirty := rfl

@[simp] theorem dirtyList_setPageNumber (s : SlruShared) (j : Nat) (v : Int) :
    (setPageNumber s j v).page_dirty = s.page_dirty := rfl

@[simp] theorem dirtyList_setBuffer (s : SlruShared) (j : Nat) (v : List Nat) :
    (setBuffer s j v).page_dirty = s.page_dirty := rfl

@[simp] theorem dirtyList_setCtrl (s : SlruShared) (l : Option LockMode) :
    (setCtrl s l).page_dirty = s.page_dirty := rfl

theorem dirtyList_setDirty (s : SlruShared) (j : Nat) (b : Bool) :
    (setDirty s j b).page_dirty = s.page_dirty.set j b := rfl

@[simp] theorem pageList_setStatus (s : SlruShared) (j : Nat) (v : SlruPageStatus) :
    (setStatus s j v).page_number = s.page_number := rfl

@[simp] theorem pageList_setDirty (s : SlruShared) (j : Nat) (b : Bool) :
    (setDirty s j b).page_number = s.page_number := rfl

@[simp] theorem pageList_setBuffer (s : SlruShared) (j : Nat) (v : List Nat) :
    (setBuffer s j v).page_number = s.page_number := rfl

theorem bufferList_setBuffer (s : SlruShared) (j : Nat) (v : List Nat) :
    (setBuffer s j v).page_buffer = s.page_buffer.set j v := rfl

theorem recentlyUsed_lru_length (s : SlruShared) (i : Nat) :
    (SlruRecentlyUsed s i).page_lru_count.length = s.page_lru_count.length := by
  unfold SlruRecentlyUsed
  split <;> simp

@[simp] theorem lruList_setStatus (s : SlruShared) (j : Nat) (v : SlruPageStatus) :
    (setStatus s j v).page_lru_count = s.page_lru_count := rfl

@[simp] theorem lruList_setDirty (s : SlruShared) (j : Nat) (b : Bool) :
    (setDirty s j b).page_lru_count = s.page_lru_count := rfl

@[simp] theorem lruList_setPageNumber (s : SlruShared) (j : Nat) (v : Int) :
    (setPageNumber s j v).page_lru_count = s.page_lru_count := rfl

@[simp] theorem lruList_setBuffer (s : SlruShared) (j : Nat) (v : List Nat) :
    (setBuffer s j v).page_lru_count = s.page_lru_count := rfl

@[simp] theorem lruList_setCtrl (s : SlruShared) (l : Option LockMode) :
    (setCtrl s l).page_lru_count = s.page_lru_count := rfl

@[simp] theorem statusList_withLatest (s : SlruShared) (x : Int) :
    ({ s with latest_page_number := x } : SlruShared).page_status = s.page_status := rfl

@[simp] theorem pageList_withLatest (s : SlruShared) (x : Int) :
    ({ s with latest_page_number := x } : SlruShared).page_number = s.page_number := rfl

@[simp] theorem dirtyList_withLatest (s : SlruShared) (x : Int) :
    ({ s with latest_page_number := x } : SlruShared).page_dirty = s.page_dirty := rfl

@[simp] theorem bufferList_withLatest (s : SlruShared) (x : Int) :
    ({ s with latest_page_number := x } : SlruShared).page_buffer = s.page_buffer := rfl

@[simp] theorem lruList_withLatest (s : SlruShared) (x : Int) :
    ({ s with latest_page_number := x } : SlruShared).page_lru_count = s.page_lru_count := rfl

/--
After SimpleLruZeroPage succeeds, the returned slot holds the requested
page, VALID and dirty, its buffer is all zero bytes, and the page is pinned
as latest_page_number.  Other slots keep their page numbers, EMPTY slots
other than the returned one stay EMPTY, and well-formedness is preserved.
-/
theorem zeroPage_spec (ctl : SlruCtl) (blcksz : Nat) (wenv : WriteEnv) (fuel : Nat)
    (s : SlruShared) (fs : SlruFs) (p : Int) (slot : Nat) (s1 : SlruShared) (fs1 : SlruFs)
    (hwf : wf s)
    (h : SimpleLruZeroPage ctl blcksz wenv fuel s fs p = .ok slot s1 fs1) :
    pageAt s1 slot = p ∧
    statusAt s1 slot = .VALID ∧
    dirtyAt s1 slot = true ∧
    bufferAt s1 slot = List.replicate blcksz 0 ∧
    s1.latest_page_number = p ∧
    slot < numSlots s ∧
    numSlots s1 = numSlots s ∧
    (∀ j, j ≠ slot → pageAt s1 j = pageAt s j) ∧
    (∀ j, j ≠ slot → statusAt s j = .EMPTY → statusAt s1 j = .EMPTY) ∧
    wf s1 := by
  obtain ⟨hpos, hld, hln, hll, hlb⟩ := hwf
  unfold SimpleLruZeroPage at h
  rcases hsel : SlruSelectLRUPage ctl wenv fuel s fs p with
      ⟨slotno, sA, fsA⟩ | ⟨c0, p0, sl0, sE, fsE⟩ | _
  rotate_left
  · rw [hsel] at h
    cases h
  · rw [hsel] at h
    cases h
  rw [hsel] at h
  dsimp only at h
  obtain ⟨b1, b2, b3, b4, b5, b6, b7, b8, _⟩ :=
    select_ok_spec ctl wenv p fuel s fs p slotno sA fsA hpos hsel
  cases h
  have hlnA : slot < sA.page_number.length := by
    rw [b2]
    unfold numSlots at b1 hln
    omega
  have hlsA : slot < (setPageNumber sA slot p).page_status.length := by
    simp only [statusList_setPageNumber]
    unfold numSlots at b1 hpos
    omega
  have hldA : slot < (setStatus (setPageNumber sA slot p) slot .VALID).page_dirty.length := by
    simp only [dirtyList_setStatus, dirtyList_setPageNumber]
    unfold numSlots at b1 hld
    omega
  have hlbA : slot <
      (SlruRecentlyUsed (setDirty (setStatus (setPageNumber sA slot p) slot .VALID)
        slot true) slot).page_buffer.length := by
    rw [recentlyUsed_buffer_list]
    simp only [bufferList_setDirty, bufferList_setStatus, bufferList_setPageNumber]
    rw [b7]
    unfold numSlots at b1 hlb
    omega
  have hnum : (setBuffer (SlruRecentlyUsed (setDirty (setStatus (setPageNumber sA slot p)
      slot .VALID) slot true) slot) slot
      (List.replicate blcksz 0)).page_status.length = numSlots s := by
    simp only [statusList_setBuffer]
    rw [recentlyUsed_status_list]
    simp only [statusList_setDirty, statusList_setStatus, List.length_set,
      statusList_setPageNumber]
    exact b4
  refine ⟨?_, ?_, ?_, ?_, rfl, b1, ?_, ?_, ?_, ?_⟩
  · rw [pageAt_withLatest]
    unfold pageAt
    simp only [pageList_setBuffer]
    rw [recentlyUsed_page_list]
    simp only [pageList_setDirty, pageList_setStatus, pageList_setPageNumber]
    exact getD_set_self _ _ _ _ hlnA
  · rw [statusAt_withLatest]
    simp only [statusAt_setBuffer]
    rw [recentlyUsed_statusAt]
    simp only [statusAt_setDirty]
    exact statusAt_setStatus_self _ _ _ hlsA
  · rw [dirtyAt_withLatest]
    simp only [dirtyAt_setBuffer]
    rw [recentlyUsed_dirtyAt]
    exact dirtyAt_setDirty_self _ _ _ hldA
  · rw [bufferAt_withLatest]
    exact bufferAt_setBuffer_self _ _ _ hlbA
  · unfold numSlots
    simp only [statusList_withLatest]
    exact hnum
  · intro j hj
    rw [pageAt_withLatest]
    unfold pageAt
    simp only [pageList_setBuffer]
    rw [recentlyUsed_page_list]
    simp only [pageList_setDirty, pageList_setStatus, pageList_setPageNumber]
    rw [getD_set_other _ _ _ _ _ (fun hh => hj hh.symm)]
    rw [b2]
  · intro j hj hE
    rw [statusAt_withLatest]
    simp only [statusAt_setBuffer]
    rw [recentlyUsed_statusAt]
    simp only [statusAt_setDirty]
    rw [statusAt_setStatus_other _ _ _ _ (fun hh => hj hh.symm)]
    simp only [statusAt_setPageNumber]
    exact b8 j hE
  · refine ⟨?_, ?_, ?_, ?_, ?_⟩
    · unfold numSlots
      simp only [statusList_withLatest]
      rw [hnum]
      unfold numSlots at hpos
      omega
    · unfold numSlots
      simp only [statusList_withLatest, dirtyList_withLatest, dirtyList_setBuffer]
      rw [hnum, recentlyUsed_dirty_list]
      simp only [dirtyList_setStatus, dirtyList_setPageNumber, dirtyList_setDirty,
        List.length_set]
      rw [b5, hld]
    · unfold numSlots
      simp only [statusList_withLatest, pageList_withLatest, pageList_setBuffer]
      rw [hnum, recentlyUsed_page_list]
      simp only [pageList_setDirty, pageList_setStatus, pageList_setPageNumber,
        List.length_set]
      rw [b2, hln]
    · unfold numSlots
      simp only [statusList_withLatest, lruList_withLatest, lruList_setBuffer]
      rw [hnum, recentlyUsed_lru_length]
      simp only [lruList_setDirty, lruList_setStatus, lruList_setPageNumber]
      rw [b6, hll]
    · unfold numSlots
      simp only [statusList_withLatest, bufferList_withLatest]
      rw [hnum, bufferList_setBuffer]
      simp only [List.length_set]
      rw [recentlyUsed_buffer_list]
      simp only [bufferList_setDirty, bufferList_setStatus, bufferList_setPageNumber]
      rw [b7, hlb]

/-! ### Well-formedness preservation -/

theorem wf_waitIo (s : SlruShared) (i : Nat) (hwf : wf s) : wf (SimpleLruWaitIo s i) := by
  obtain ⟨hpos, hld, hln, hll, hlb⟩ := hwf
  have h1 := waitIo_numSlots s i
  have h2 := waitIo_dirty_length s i
  have h3 := waitIo_page_number s i
  have h4 := waitIo_lru s i
  have h5 := waitIo_buffers s i
  refine ⟨by omega, by rw [h2, hld, h1], by rw [h3, hln, h1], by rw [h4, hll, h1],
    by rw [h5, hlb, h1]⟩

theorem wf_select (ctl : SlruCtl) (wenv : WriteEnv) (fuel : Nat) (s : SlruShared)
    (fs : SlruFs) (pageno : Int) (r : Nat) (s1 : SlruShared) (fs1 : SlruFs)
    (hwf : wf s)
    (h : SlruSelectLRUPage ctl wenv fuel s fs pageno = .ok r s1 fs1) : wf s1 := by
  obtain ⟨hpos, hld, hln, hll, hlb⟩ := hwf
  obtain ⟨_, b2, _, b4, b5, b6, b7, _, _⟩ :=
    select_ok_spec ctl wenv 0 fuel s fs pageno r s1 fs1 hpos h
  have b2' : s1.page_number.length = s.page_number.length := by rw [b2]
  have b7' : s1.page_buffer.length = s.page_buffer.length := by rw [b7]
  unfold wf numSlots at *
  omega

/-! ### SimpleLruPageExists lemmas (claim C10) -/

/-- When every write-path syscall succeeds, SimpleLruPageExists never
reports an I/O error: a failed read is swallowed, and the only raise in the
function is the eviction write inside the victim selection. -/
theorem pexists_wenvOk_ne_ioError (ctl : SlruCtl) (blcksz : Nat) (renv : ReadEnv)
    (wenv : WriteEnv) (inRecovery : Bool) (hok : wenvOk wenv) :
    ∀ (fuel : Nat) (s : SlruShared) (fs : SlruFs) (pageno : Int) (c : SlruErrorCause)
      (p : Int) (sl : Nat) (s' : SlruShared) (fs' : SlruFs),
      SimpleLruPageExists ctl blcksz renv wenv inRecovery fuel s fs pageno ≠
        .ioError c p sl s' fs' := by
  intro fuel
  induction fuel with
  | zero =>
    intro s fs pageno c p sl s' fs' h
    cases h
  | succ fuel ih =>
    intro s fs pageno c p sl s' fs' h
    unfold SimpleLruPageExists at h
    rcases hsel : SlruSelectLRUPage ctl wenv (fuel + 1) s fs pageno with
        ⟨slotno, s1, fs1⟩ | ⟨c0, p0, sl0, sE, fsE⟩ | _ <;> rw [hsel] at h
    · dsimp only at h
      split at h
      · split at h
        · exact ih _ _ _ _ _ _ _ _ h
        · cases h
      · rcases hpr : SlruPhysicalReadPage blcksz renv inRecovery fs1
            (setCtrl (SlruRecentlyUsed (setDirty (setStatus (setPageNumber s1 slotno pageno)
              slotno .READ_IN_PROGRESS) slotno false) slotno) none) pageno slotno with
            ⟨okb, s5, stash⟩
        rw [hpr] at h
        dsimp only at h
        cases h
    · dsimp only at h
      cases h
      exact select_wenvOk_ne_ioError ctl wenv hok (fuel + 1) s fs pageno _ _ _ _ _ hsel
    · dsimp only at h
      cases h

/--
When SimpleLruPageExists returns false, it performed the physical read
itself, the read failed, and the slot it used was reset to EMPTY (still
labelled with the probed page) instead of any error being reported.
-/
theorem pexists_false_spec (ctl : SlruCtl) (blcksz : Nat) (renv : ReadEnv)
    (wenv : WriteEnv) (inRecovery : Bool) :
    ∀ (fuel : Nat) (s : SlruShared) (fs : SlruFs) (pageno : Int) (s' : SlruShared) (fs' : SlruFs),
      wf s →
      SimpleLruPageExists ctl blcksz renv wenv inRecovery fuel s fs pageno = .ok false s' fs' →
      ∃ sl, sl < numSlots s' ∧ statusAt s' sl = .EMPTY ∧ pageAt s' sl = pageno := by
  intro fuel
  induction fuel with
  | zero =>
    intro s fs pageno s' fs' _ h
    cases h
  | succ fuel ih =>
    intro s fs pageno s' fs' hwf h
    unfold SimpleLruPageExists at h
    rcases hsel : SlruSelectLRUPage ctl wenv (fuel + 1) s fs pageno with
        ⟨slotno, s1, fs1⟩ | ⟨c0, p0, sl0, sE, fsE⟩ | _ <;> rw [hsel] at h
    · dsimp only at h
      have hwf1 : wf s1 := wf_select ctl wenv (fuel + 1) s fs pageno slotno s1 fs1 hwf hsel
      obtain ⟨b1, b2, b3, b4, b5, b6, b7, b8, _⟩ :=
        select_ok_spec ctl wenv 0 (fuel + 1) s fs pageno slotno s1 fs1 hwf.1 hsel
      split at h
      · split at h
        · exact ih _ _ _ _ _ (wf_waitIo s1 slotno hwf1) h
        · injection h with h1 h2 h3
          cases h1
      · -- miss: a failed read was reset to EMPTY and reported as false
        rcases hpr : SlruPhysicalReadPage blcksz renv inRecovery fs1
            (setCtrl (SlruRecentlyUsed (setDirty (setStatus (setPageNumber s1 slotno pageno)
              slotno .READ_IN_PROGRESS) slotno false) slotno) none) pageno slotno with
            ⟨okb, s5, stash⟩
        rw [hpr] at h
        dsimp only at h
        obtain ⟨f1, f2, f3, f4, f5, f6, f7, f8⟩ := physRead_frame _ _ _ _ _ _ _ _ _ _ hpr
        cases h
        refine ⟨slotno, ?_, ?_, ?_⟩
        · show slotno < (setStatus (setCtrl s5 (some .exclusive)) slotno _).page_status.length
          rw [statusList_setStatus]
          simp only [List.length_set, statusList_setCtrl]
          rw [f1]
          simp only [statusList_setCtrl]
          rw [recentlyUsed_status_list]
          simp only [statusList_setDirty, statusList_setStatus, List.length_set,
            statusList_setPageNumber]
          unfold numSlots at b1
          omega
        · have hb : slotno < (setCtrl s5 (some LockMode.exclusive)).page_status.length := by
            simp only [statusList_setCtrl]
            rw [f1]
            simp only [statusList_setCtrl]
            rw [recentlyUsed_status_list]
            simp only [statusList_setDirty, statusList_setStatus, List.length_set,
              statusList_setPageNumber]
            unfold numSlots at b1
            omega
          rw [statusAt_setStatus_self _ _ _ hb]
          simp
        · simp only [pageAt_setStatus, pageAt_setCtrl]
          unfold pageAt
          rw [f3]
          simp only [pageList_setCtrl]
          rw [recentlyUsed_page_list]
          simp only [pageList_setDirty, pageList_setStatus]
          rw [pageList_setPageNumber]
          refine getD_set_self _ _ _ _ ?_
          rw [b2]
          obtain ⟨hpos, hld, hln, hll, hlb⟩ := hwf
          unfold numSlots at b1 hln
          omega
    · dsimp only at h
      cases h
    · dsimp only at h
      cases h

/--
SimpleLruPageExists reports true without I/O when some slot holds the page
with a usable (non-EMPTY, not read-busy) status; the first scan's hit is
returned as-is.
-/
theorem pexists_hit_true (ctl : SlruCtl) (blcksz : Nat) (renv : ReadEnv)
    (wenv : WriteEnv) (inRecovery : Bool) (fuel : Nat) (s : SlruShared) (fs : SlruFs)
    (pageno : Int)
    (hex : ∃ i, i < numSlots s ∧ pageAt s i = pageno ∧ statusAt s i ≠ .EMPTY)
    (hnr : ∀ i, i < numSlots s → pageAt s i = pageno → statusAt s i ≠ .READ_IN_PROGRESS) :
    SimpleLruPageExists ctl blcksz renv wenv inRecovery (fuel + 1) s fs pageno =
      .ok true s fs := by
  obtain ⟨i, hi, hpi, hsi⟩ := hex
  have hfind : (findSlot s pageno).isSome := by
    unfold findSlot
    rw [List.find?_isSome]
    exact ⟨i, List.mem_range.mpr hi, by simp [hpi, hsi]⟩
  rcases hf : findSlot s pageno with _ | j
  · rw [hf] at hfind
    cases hfind
  · obtain ⟨hj, hpj, hsj⟩ := findSlot_some_spec s pageno j hf
    have hsel : SlruSelectLRUPage ctl wenv (fuel + 1) s fs pageno = .ok j s fs := by
      unfold SlruSelectLRUPage
      rw [hf]
    unfold SimpleLruPageExists
    rw [hsel]
    dsimp only
    rw [if_pos ⟨hpj, hsj⟩, if_neg (hnr j hj hpj)]

/-- SimpleLruWaitIo leaves the dirty array alone unless the slot was
write-busy (only the WRITE_IN_PROGRESS rollback re-raises a dirty bit). -/
theorem waitIo_dirty_of_not_write (s : SlruShared) (i : Nat)
    (h : statusAt s i ≠ .WRITE_IN_PROGRESS) :
    (SimpleLruWaitIo s i).page_dirty = s.page_dirty := by
  unfold SimpleLruWaitIo
  by_cases h1 : statusAt s i = .READ_IN_PROGRESS
  · rw [if_pos h1]
    rfl
  · rw [if_neg h1, if_neg h]
    rfl

/-- On a pool with no dirty and no write-busy slot, SlruSelectLRUPage never
reaches its eviction write: the filesystem comes back unchanged. -/
theorem select_clean_fs (ctl : SlruCtl) (wenv : WriteEnv) :
    ∀ (fuel : Nat) (s : SlruShared) (fs : SlruFs) (pageno : Int) (r : Nat)
      (s1 : SlruShared) (fs1 : SlruFs),
      (∀ j, dirtyAt s j = false) →
      (∀ j, statusAt s j ≠ .WRITE_IN_PROGRESS) →
      SlruSelectLRUPage ctl wenv fuel s fs pageno = .ok r s1 fs1 →
      fs1 = fs := by
  intro fuel
  induction fuel with
  | zero => intro s fs pageno r s1 fs1 _ _ h; cases h
  | succ fuel ih =>
    intro s fs pageno r s1 fs1 hd hw h
    unfold SlruSelectLRUPage at h
    rcases hf : findSlot s pageno with _ | j <;> rw [hf] at h
    · dsimp only at h
      rw [show numSlots { s with cur_lru_count := int32add s.cur_lru_count 1 } = numSlots s
        from rfl] at h
      rcases hsel : selectLoop ctl.PagePrecedes
          { s with cur_lru_count := int32add s.cur_lru_count 1 }
          s.cur_lru_count (List.range (numSlots s)) s.page_lru_count (-1) 0 0 with
          ⟨i, lru⟩ | ⟨bs, lru⟩ <;> rw [hsel] at h
      · dsimp only at h
        cases h
        rfl
      · dsimp only at h
        split at h
        · cases h
          rfl
        case isFalse hnc =>
          split at h
          case isTrue hv =>
            exfalso
            apply hnc
            refine ⟨hv, ?_⟩
            show dirtyAt s bs = false
            exact hd bs
          case isFalse hnv =>
            set s2 := { s with cur_lru_count := int32add s.cur_lru_count 1, page_lru_count := lru } with hs2
            refine ih (SimpleLruWaitIo s2 bs) fs pageno r s1 fs1 ?_ ?_ h
            · intro j
              have hbsW : statusAt s2 bs ≠ .WRITE_IN_PROGRESS := hw bs
              have hpd := waitIo_dirty_of_not_write s2 bs hbsW
              show (SimpleLruWaitIo s2 bs).page_dirty.getD j false = false
              rw [hpd]
              exact hd j
            · intro j
              rcases waitIo_statusAt s2 bs j with hc | ⟨_, hc1, _⟩ | ⟨_, hc1, _⟩
              · rw [hc]
                exact hw j
              · rw [hc1]
                intro hx
                cases hx
              · rw [hc1]
                intro hx
                cases hx
    · dsimp only at h
      cases h
      rfl

/--
When the probed page is unbuffered, its segment file exists holding an
image of the right size, and the read-path syscalls succeed, a normal
return of SimpleLruPageExists reports true: the probe's own physical read
succeeds.
-/
theorem pexists_read_ok_true (ctl : SlruCtl) (blcksz : Nat) (renv : ReadEnv)
    (wenv : WriteEnv) (inRecovery : Bool) (fuel : Nat) (s : SlruShared) (fs : SlruFs)
    (pageno : Int) (bytes : List Nat) (b : Bool) (s' : SlruShared) (fs' : SlruFs)
    (hwf : wf s)
    (hnb : ∀ j, statusAt s j ≠ .EMPTY → pageAt s j ≠ pageno)
    (ho : renv.openErr = none) (hsk : renv.seekOk = true) (hrd : renv.readOk = true)
    (hcl : renv.closeOk = true)
    (hseg : segExists fs (pageno.tdiv SLRU_PAGES_PER_SEGMENT) = true)
    (him : fsReadByPage fs pageno = some bytes) (hlen : bytes.length = blcksz)
    (h : SimpleLruPageExists ctl blcksz renv wenv inRecovery fuel s fs pageno = .ok b s' fs') :
    b = true := by
  cases fuel with
  | zero => cases h
  | succ fuel =>
    unfold SimpleLruPageExists at h
    rcases hsel : SlruSelectLRUPage ctl wenv (fuel + 1) s fs pageno with
        ⟨slotno, s1, fs1⟩ | ⟨c0, p0, sl0, sE, fsE⟩ | _ <;> rw [hsel] at h
    · dsimp only at h
      obtain ⟨b1, b2, b3, b4, b5, b6, b7, b8, b9⟩ :=
        select_ok_spec ctl wenv pageno (fuel + 1) s fs pageno slotno s1 fs1 hwf.1 hsel
      obtain ⟨f1, f2, f3⟩ := b9 hnb
      split at h
      case isTrue hcond => exact absurd hcond.1 (f3 slotno hcond.2)
      case isFalse hcond =>
        rcases hpr : SlruPhysicalReadPage blcksz renv inRecovery fs1
            (setCtrl (SlruRecentlyUsed (setDirty (setStatus (setPageNumber s1 slotno pageno)
              slotno .READ_IN_PROGRESS) slotno false) slotno) none) pageno slotno with
            ⟨okb, s5, stash⟩
        rw [hpr] at h
        dsimp only at h
        have hokb : okb = true := by
          unfold SlruPhysicalReadPage at hpr
          rw [ho] at hpr
          dsimp only at hpr
          rw [if_pos (f2 hseg)] at hpr
          dsimp only at hpr
          rw [hsk] at hpr
          rw [if_neg (by simp)] at hpr
          rw [hrd] at hpr
          rw [if_pos rfl] at hpr
          have him1 : fsReadPage fs1 (pageno.tdiv SLRU_PAGES_PER_SEGMENT)
              (pageno.tmod SLRU_PAGES_PER_SEGMENT) = some bytes := f1.trans him
          rw [him1] at hpr
          dsimp only at hpr
          rw [if_pos hlen] at hpr
          rw [hcl] at hpr
          rw [if_neg (by simp)] at hpr
          cases hpr
          rfl
        cases h
        exact hokb
    · dsimp only at h
      cases h
    · dsimp only at h
      cases h

/--
The recovery-mode zero-fill case of SimpleLruPageExists: probing an
unbuffered page whose segment file does not exist, in recovery, on a pool
with nothing dirty or write-busy (so the victim selection cannot create the
segment file first), a normal return reports the page as existing — the
open's ENOENT becomes a zero-filled buffer, not a failure.
-/
theorem pexists_zero_fill_true (ctl : SlruCtl) (blcksz : Nat) (renv : ReadEnv)
    (wenv : WriteEnv) (fuel : Nat) (s : SlruShared) (fs : SlruFs)
    (pageno : Int) (b : Bool) (s' : SlruShared) (fs' : SlruFs)
    (hwf : wf s)
    (hnb : ∀ j, statusAt s j ≠ .EMPTY → pageAt s j ≠ pageno)
    (hcd : ∀ j, dirtyAt s j = false)
    (hcw : ∀ j, statusAt s j ≠ .WRITE_IN_PROGRESS)
    (ho : renv.openErr = none)
    (hseg : segExists fs (pageno.tdiv SLRU_PAGES_PER_SEGMENT) = false)
    (h : SimpleLruPageExists ctl blcksz renv wenv true fuel s fs pageno = .ok b s' fs') :
    b = true := by
  cases fuel with
  | zero => cases h
  | succ fuel =>
    unfold SimpleLruPageExists at h
    rcases hsel : SlruSelectLRUPage ctl wenv (fuel + 1) s fs pageno with
        ⟨slotno, s1, fs1⟩ | ⟨c0, p0, sl0, sE, fsE⟩ | _ <;> rw [hsel] at h
    · dsimp only at h
      obtain ⟨b1, b2, b3, b4, b5, b6, b7, b8, b9⟩ :=
        select_ok_spec ctl wenv pageno (fuel + 1) s fs pageno slotno s1 fs1 hwf.1 hsel
      obtain ⟨f1, f2, f3⟩ := b9 hnb
      have hfs1 : fs1 = fs :=
        select_clean_fs ctl wenv (fuel + 1) s fs pageno slotno s1 fs1 hcd hcw hsel
      split at h
      case isTrue hcond => exact absurd hcond.1 (f3 slotno hcond.2)
      case isFalse hcond =>
        rcases hpr : SlruPhysicalReadPage blcksz renv true fs1
            (setCtrl (SlruRecentlyUsed (setDirty (setStatus (setPageNumber s1 slotno pageno)
              slotno .READ_IN_PROGRESS) slotno false) slotno) none) pageno slotno with
            ⟨okb, s5, stash⟩
        rw [hpr] at h
        dsimp only at h
        have hokb : okb = true := by
          unfold SlruPhysicalReadPage at hpr
          rw [ho, hfs1] at hpr
          dsimp only at hpr
          rw [if_neg (by simp [hseg])] at hpr
          dsimp only at hpr
          rw [if_neg (by simp)] at hpr
          cases hpr
          rfl
        cases h
        exact hokb
    · dsimp only at h
      cases h
    · dsimp only at h
      cases h

/-- Writing a dirty VALID slot under an all-succeeding write environment:
the exact state and filesystem SimpleLruWritePage produces (the slot's
buffer lands on disk at the slot's page number). -/
theorem writePage_dirty_ok (ctl : SlruCtl) (wenv : WriteEnv) (s : SlruShared) (fs : SlruFs)
    (i : Nat) (hv : statusAt s i = .VALID) (hd : dirtyAt s i = true) (hok : wenvOk wenv) :
    SimpleLruWritePage ctl wenv s fs i =
      .ok () (setStatus (setCtrl (setCtrl (setDirty (setStatus s i .WRITE_IN_PROGRESS) i false) none) (some .exclusive)) i .VALID)
        (fsWritePage fs ((pageAt s i).tdiv SLRU_PAGES_PER_SEGMENT)
          ((pageAt s i).tmod SLRU_PAGES_PER_SEGMENT) (bufferAt s i)) := by
  obtain ⟨h1, h2, h3, h4⟩ := hok
  unfold SimpleLruWritePage
  dsimp only
  rw [if_neg (by rw [hv]; rintro ⟨hc, -⟩; cases hc)]
  unfold SimpleLruWritePage_core
  rw [if_neg (by simp [hd, hv])]
  dsimp only
  simp only [SlruPhysicalWritePage, h1, h2, h3, h4, Bool.true_eq_false, if_false,
    and_false, if_true]
  simp only [bufferAt_setCtrl, bufferAt_setDirty, bufferAt_setStatus]

/-! ### SimpleLruTruncate lemmas (claims C2 and C3) -/

theorem statusAt_setStatus_empty (s : SlruShared) (i j : Nat)
    (h : statusAt s j = .EMPTY) : statusAt (setStatus s i .EMPTY) j = .EMPTY := by
  by_cases hij : i = j
  · subst hij
    by_cases hb : i < numSlots s
    · exact statusAt_setStatus_self s i .EMPTY hb
    · refine statusAt_default _ i ?_
      show (s.page_status.set i SlruPageStatus.EMPTY).length ≤ i
      rw [List.length_set]
      unfold numSlots at hb
      omega
  · rw [statusAt_setStatus_other s i .EMPTY j hij]
    exact h

/-- One pass of the truncation slot scan never touches the page-number
array, the latest page, the control lock or the slot count, and it only ever
turns statuses into EMPTY (never out of it). -/
theorem truncScan_frame (pre : Int → Int → Bool) (cutoff : Int) :
    ∀ (L : List Nat) (s : SlruShared),
      (truncateSlotScan pre cutoff L s).stateOf.page_number = s.page_number ∧
      (truncateSlotScan pre cutoff L s).stateOf.latest_page_number = s.latest_page_number ∧
      (truncateSlotScan pre cutoff L s).stateOf.controlLock = s.controlLock ∧
      (truncateSlotScan pre cutoff L s).stateOf.page_status.length = s.page_status.length ∧
      (∀ i, statusAt s i = .EMPTY →
        statusAt (truncateSlotScan pre cutoff L s).stateOf i = .EMPTY) := by
  intro L
  induction L with
  | nil => intro s; exact ⟨rfl, rfl, rfl, rfl, fun i h => h⟩
  | cons a rest ih =>
    intro s
    by_cases h1 : statusAt s a = .EMPTY
    · simp only [truncateSlotScan, if_pos h1]
      exact ih s
    · by_cases h2 : pre (pageAt s a) cutoff = false
      · simp only [truncateSlotScan, if_neg h1, if_pos h2]
        exact ih s
      · by_cases h3 : statusAt s a = .VALID ∧ dirtyAt s a = false
        · simp only [truncateSlotScan, if_neg h1, if_neg h2, if_pos h3]
          obtain ⟨g1, g2, g3, g4, g5⟩ := ih (setStatus s a .EMPTY)
          refine ⟨by rw [g1]; rfl, by rw [g2]; rfl, by rw [g3]; rfl, ?_, ?_⟩
          · rw [g4]
            show (s.page_status.set a SlruPageStatus.EMPTY).length = s.page_status.length
            exact List.length_set _ _ _
          · intro i hi
            exact g5 i (statusAt_setStatus_empty s a i hi)
        · by_cases h4 : statusAt s a = .VALID
          · simp only [truncateSlotScan, if_neg h1, if_neg h2, if_neg h3, if_pos h4]
            exact ⟨rfl, rfl, rfl, rfl, fun i h => h⟩
          · simp only [truncateSlotScan, if_neg h1, if_neg h2, if_neg h3, if_neg h4]
            exact ⟨rfl, rfl, rfl, rfl, fun i h => h⟩

/-- When the truncation slot scan completes a full pass, every slot it
visited is EMPTY or holds a page that does not precede the cutoff. -/
theorem truncScan_done_spec (pre : Int → Int → Bool) (cutoff : Int) :
    ∀ (L : List Nat) (s s2 : SlruShared),
      truncateSlotScan pre cutoff L s = .done s2 →
      ∀ i ∈ L, statusAt s2 i = .EMPTY ∨ pre (pageAt s2 i) cutoff = false := by
  intro L
  induction L with
  | nil => intro s s2 _ i hi; cases hi
  | cons a rest ih =>
    intro s s2 h
    by_cases h1 : statusAt s a = .EMPTY
    · simp only [truncateSlotScan, if_pos h1] at h
      intro i hi
      rcases List.mem_cons.mp hi with rfl | hir
      · left
        have hf := (truncScan_frame pre cutoff rest s).2.2.2.2 i h1
        rw [h] at hf
        exact hf
      · exact ih s s2 h i hir
    · by_cases h2 : pre (pageAt s a) cutoff = false
      · simp only [truncateSlotScan, if_neg h1, if_pos h2] at h
        intro i hi
        rcases List.mem_cons.mp hi with rfl | hir
        · right
          have hf := (truncScan_frame pre cutoff rest s).1
          rw [h] at hf
          have hf' : s2.page_number = s.page_number := hf
          have hp : pageAt s2 i = pageAt s i := by unfold pageAt; rw [hf']
          rw [hp]
          exact h2
        · exact ih s s2 h i hir
      · by_cases h3 : statusAt s a = .VALID ∧ dirtyAt s a = false
        · simp only [truncateSlotScan, if_neg h1, if_neg h2, if_pos h3] at h
          intro i hi
          rcases List.mem_cons.mp hi with rfl | hir
          · left
            have hset : statusAt (setStatus s i .EMPTY) i = .EMPTY :=
              statusAt_setStatus_self s i .EMPTY (lt_of_statusAt_ne s i h1)
            have hf := (truncScan_frame pre cutoff rest (setStatus s i .EMPTY)).2.2.2.2 i hset
            rw [h] at hf
            exact hf
          · exact ih _ s2 h i hir
        · by_cases h4 : statusAt s a = .VALID
          · simp only [truncateSlotScan, if_neg h1, if_neg h2, if_neg h3, if_pos h4] at h
            cases h
          · simp only [truncateSlotScan, if_neg h1, if_neg h2, if_neg h3, if_neg h4] at h
            cases h

/-- Rounding a cutoff down to its segment boundary yields a multiple of the
segment size. -/
theorem roundDown_tmod_eq_zero (c : Int) :
    (c - c.tmod SLRU_PAGES_PER_SEGMENT).tmod SLRU_PAGES_PER_SEGMENT = 0 := by
  have h := Int.tmod_add_tdiv c SLRU_PAGES_PER_SEGMENT
  have h2 : c - c.tmod SLRU_PAGES_PER_SEGMENT
      = SLRU_PAGES_PER_SEGMENT * c.tdiv SLRU_PAGES_PER_SEGMENT := by omega
  rw [h2, Int.mul_tmod_right]

/--
The truncation restart loop, entered with a segment-aligned cutoff and a
latest page that does not precede it, leaves (on normal return) no non-EMPTY
slot whose page precedes the cutoff and no directory entry naming a segment
whose first page precedes the cutoff.
-/
theorem truncate_rec_ok_spec (ctl : SlruCtl) (wenv : WriteEnv) :
    ∀ (fuel : Nat) (s : SlruShared) (fs : SlruFs) (cutoff : Int) (lockHeld : Bool)
      (s' : SlruShared) (fs' : SlruFs),
      ctl.PagePrecedes s.latest_page_number cutoff = false →
      cutoff.tmod SLRU_PAGES_PER_SEGMENT = 0 →
      SimpleLruTruncate_rec ctl wenv fuel s fs cutoff lockHeld = .ok () s' fs' →
      (∀ i, statusAt s' i ≠ .EMPTY → ctl.PagePrecedes (pageAt s' i) cutoff = false) ∧
      (∀ nm, nm ∈ fs'.dir → isSlruFileName nm = true →
        ctl.PagePrecedes (parseHex nm * SLRU_PAGES_PER_SEGMENT) cutoff = false) := by
  intro fuel
  induction fuel with
  | zero => intro s fs cutoff lockHeld s' fs' _ _ h; cases h
  | succ fuel ih =>
    intro s fs cutoff lockHeld s' fs' hwrap hmod h
    unfold SimpleLruTruncate_rec at h
    rw [if_neg (by simp [hwrap])] at h
    rcases hsc : truncateSlotScan ctl.PagePrecedes cutoff (List.range (numSlots s)) s with
        ⟨s2⟩ | ⟨s2, i⟩ | ⟨s2, i⟩ <;> rw [hsc] at h
    · dsimp only at h
      cases h
      constructor
      · intro i hi
        have hsA : statusAt (if lockHeld then s2 else setCtrl s2 none) i = statusAt s2 i := by
          split <;> simp
        have hpA : pageAt (if lockHeld then s2 else setCtrl s2 none) i = pageAt s2 i := by
          split <;> simp
        rw [hsA] at hi
        rw [hpA]
        by_cases hb : i < numSlots s
        · rcases truncScan_done_spec ctl.PagePrecedes cutoff (List.range (numSlots s)) s s2 hsc
              i (List.mem_range.mpr hb) with hE | hP
          · exact absurd hE hi
          · exact hP
        · exfalso
          have hlen := (truncScan_frame ctl.PagePrecedes cutoff (List.range (numSlots s)) s).2.2.2.1
          rw [hsc] at hlen
          have hlen' : s2.page_status.length = s.page_status.length := hlen
          refine hi (statusAt_default s2 i ?_)
          unfold numSlots
          rw [hlen']
          unfold numSlots at hb
          omega
      · intro nm hnm hname
        unfold SlruScanDirectory at hnm
        rw [hmod, sub_zero] at hnm
        simp only [if_true] at hnm
        rw [List.mem_filter] at hnm
        have hdel : scanDeletes ctl.PagePrecedes cutoff nm = false := by
          have := hnm.2
          simp only [Bool.not_eq_true'] at this
          exact this
        unfold scanDeletes at hdel
        rw [hname] at hdel
        simpa using hdel
    · dsimp only at h
      rcases hw : SimpleLruWritePage ctl wenv s2 fs i with ⟨u, s3, fs3⟩ | ⟨c0, p0, sl0, sE, fsE⟩ | _ <;>
          rw [hw] at h <;> dsimp only at h
      · cases u
        have hlat : s2.latest_page_number = s.latest_page_number := by
          have hg := (truncScan_frame ctl.PagePrecedes cutoff (List.range (numSlots s)) s).2.1
          rw [hsc] at hg
          exact hg
        have hlat3 := (writePage_ok_spec ctl wenv s2 fs i s3 fs3 hw).2.1
        exact ih s3 fs3 cutoff lockHeld s' fs' (by rw [hlat3, hlat]; exact hwrap) hmod h
      · cases h
      · cases h
    · dsimp only at h
      have hlat : s2.latest_page_number = s.latest_page_number := by
        have hg := (truncScan_frame ctl.PagePrecedes cutoff (List.range (numSlots s)) s).2.1
        rw [hsc] at hg
        exact hg
      exact ih (SimpleLruWaitIo s2 i) fs cutoff lockHeld s' fs'
        (by rw [waitIo_latest, hlat]; exact hwrap) hmod h

/-! ### SimpleLruFlush error aggregation (claim C7) -/

theorem fsyncPhase_foldl (fails : Int → Bool) :
    ∀ (l : List Int) (acc : Bool × Int),
      List.foldl
        (fun a segno =>
          if (true : Bool) = true ∧ fails segno = true then
            (false, segno * SLRU_PAGES_PER_SEGMENT)
          else a) acc l =
        match lastSatisfying fails l with
        | some sg => (false, sg * SLRU_PAGES_PER_SEGMENT)
        | none => acc := by
  intro l
  induction l with
  | nil => intro acc; rfl
  | cons x xs ih =>
    intro acc
    rw [List.foldl_cons, ih]
    rcases hls : lastSatisfying fails xs with _ | y
    · by_cases hx : fails x = true
      · simp [lastSatisfying, hls, hx]
      · simp [lastSatisfying, hls, hx]
    · simp [lastSatisfying, hls]

/--
Claim C7 (amended): when fsyncs fail during SimpleLruFlush, the single
aggregated I/O error raised after the loop carries the first page number of
the LAST failing segment in flush order, not the first — the code
overwrites the remembered pageno on every failing fsync; when no fsync
fails, no error is raised.  Stated for any fsync outcome sequence.
-/
theorem slruC7_flush_error_last_failing (fails : Int → Bool) (segnos : List Int) :
    SimpleLruFlush_raised true fails segnos =
      Option.map (fun sg => sg * SLRU_PAGES_PER_SEGMENT) (lastSatisfying fails segnos) := by
  unfold SimpleLruFlush_raised SimpleLruFlush_fsyncPhase
  dsimp only
  rw [fsyncPhase_foldl fails segnos ((true, 0) : Bool × Int)]
  rcases lastSatisfying fails segnos with _ | y
  · rfl
  · rfl

/-! ### Optimality of the victim scan (claim C6) -/

/-- The repaired delta only depends on the slot's own lru entry. -/
theorem slotDelta_congr (cur : Int) (l1 l2 : List Int) (a : Nat)
    (h : lruAt l1 a = lruAt l2 a) : slotDelta cur l1 a = slotDelta cur l2 a := by
  unfold slotDelta
  rw [h]

/-- A repaired delta is never negative. -/
theorem slotDelta_nonneg (cur : Int) (lru : List Int) (i : Nat) :
    0 ≤ slotDelta cur lru i := by
  unfold slotDelta
  dsimp only
  split <;> omega

/-- Reading an lru entry other than the one just repaired. -/
theorem lruAt_set_other (l : List Int) (a t : Nat) (v : Int) (h : a ≠ t) :
    lruAt (l.set a v) t = lruAt l t :=
  getD_set_other _ _ _ _ _ h

/-- After the in-place repair of a negative delta, the slot's repaired delta
is 0 (as the scan then treats it). -/
theorem slotDelta_after_repair (cur : Int) (lru : List Int) (a : Nat)
    (h : int32sub cur (lruAt lru a) < 0) :
    slotDelta cur (lru.set a cur) a = 0 := by
  unfold slotDelta
  dsimp only
  by_cases hlen : a < lru.length
  · rw [show lruAt (lru.set a cur) a = cur from getD_set_self _ _ _ _ hlen]
    have hz : int32sub cur cur = 0 := by
      unfold int32sub wrap32
      omega
    rw [hz]
    simp
  · rw [show lru.set a cur = lru from List.set_eq_of_length_le (by omega)]
    rw [if_pos h]

/-- When a candidate beats the running best and does not beat the final
victim, the running best does not beat the victim either ("beats" composes
down the scan). -/
theorem beats_step_new (pre : Int → Int → Bool) (P : Int → Prop)
    (htrans : ∀ a b c, P a → P b → P c → pre a b = true → pre b c = true → pre a c = true)
    (pg bp pgr d bd dr : Int) (hpg : P pg) (hbp : P bp) (hpgr : P pgr)
    (hstep : beatsB pre d pg bd bp)
    (hnb : ¬ beatsB pre d pg dr pgr) :
    ¬ beatsB pre bd bp dr pgr := by
  unfold beatsB at *
  push_neg at hnb
  obtain ⟨hled, himp⟩ := hnb
  rintro (hlt | ⟨heq, hpre⟩)
  · rcases hstep with hs | ⟨hs, _⟩ <;> omega
  · rcases hstep with hs | ⟨hseq, hspre⟩
    · omega
    · exact himp (by omega) (htrans pg bp pgr hpg hbp hpgr hspre hpre)

/-- When a candidate does not beat the running best and the running best
does not beat the final victim, the candidate does not beat the victim
either (requires the client order to be total on the pool's pages). -/
theorem beats_step_skip (pre : Int → Int → Bool) (P : Int → Prop)
    (htrans : ∀ a b c, P a → P b → P c → pre a b = true → pre b c = true → pre a c = true)
    (htotal : ∀ a b, P a → P b → a ≠ b → pre a b = true ∨ pre b a = true)
    (pg bp pgr d bd dr : Int) (hpg : P pg) (hbp : P bp) (hpgr : P pgr)
    (h1 : ¬ beatsB pre d pg bd bp)
    (h2 : ¬ beatsB pre bd bp dr pgr) :
    ¬ beatsB pre d pg dr pgr := by
  unfold beatsB at *
  push_neg at h1 h2
  obtain ⟨hle1, hi1⟩ := h1
  obtain ⟨hle2, hi2⟩ := h2
  rintro (hlt | ⟨heq, hpre⟩)
  · omega
  · have hp1 := hi1 (by omega)
    have hp2 := hi2 (by omega)
    by_cases he1 : pg = bp
    · rw [he1] at hpre
      exact hp2 hpre
    · by_cases he2 : bp = pgr
      · rw [← he2] at hpre
        exact hp1 hpre
      · rcases htotal bp pgr hbp hpgr he2 with hx | hx
        · exact hp2 hx
        · exact hp1 (htrans pg pgr bp hpg hpgr hbp hpre hx)

/--
Optimality of the victim scan, by induction down the scanned list: entries
outside the scanned list are untouched; the final lru array is the in-place
repair of the input (negative signed deltas reset to the current count); no
scanned slot whose page is not the latest beats the returned victim (larger
repaired delta, or equal delta with an earlier page); and the victim is
never beaten by the incoming best.  The last hypothesis is the accumulator
invariant: a virgin best (best_delta = -1) or a real best slot.
-/
theorem selectLoop_victim_best (pre : Int → Int → Bool) (s : SlruShared) (cur : Int)
    (htrans : ∀ a b c, a ∈ s.page_number → b ∈ s.page_number → c ∈ s.page_number →
      pre a b = true → pre b c = true → pre a c = true)
    (htotal : ∀ a b, a ∈ s.page_number → b ∈ s.page_number → a ≠ b →
      pre a b = true ∨ pre b a = true)
    (hirr : ∀ a, a ∈ s.page_number → pre a a = false)
    (hwf : s.page_number.length = numSlots s) :
    ∀ (L : List Nat) (lru : List Int) (bd : Int) (bs : Nat) (bp : Int) (r : Nat) (lru' : List Int),
      L.Nodup →
      (∀ i, i ∈ L → i < numSlots s) →
      (∀ i, i ∈ L → i < lru.length) →
      (bd = -1 ∨ (bp = pageAt s bs ∧ bp ≠ s.latest_page_number ∧
        bd = slotDelta cur lru bs ∧ 0 ≤ bd ∧ bs ∉ L ∧ bs < numSlots s)) →
      selectLoop pre s cur L lru bd bs bp = .victim r lru' →
      (∀ t, t ∉ L → lruAt lru' t = lruAt lru t) ∧
      (∀ t, t ∈ L →
        lruAt lru' t = if int32sub cur (lruAt lru t) < 0 then cur else lruAt lru t) ∧
      (∀ t, t ∈ L → pageAt s t ≠ s.latest_page_number →
        ¬ beatsB pre (slotDelta cur lru' t) (pageAt s t)
          (slotDelta cur lru' r) (pageAt s r)) ∧
      (bd = -1 ∨ ¬ beatsB pre bd bp (slotDelta cur lru' r) (pageAt s r)) := by
  intro L
  induction L with
  | nil =>
    intro lru bd bs bp r lru' _ _ _ hacc h
    cases h
    refine ⟨fun t _ => rfl, fun t ht => absurd ht (List.not_mem_nil t),
      fun t ht => absurd ht (List.not_mem_nil t), ?_⟩
    rcases hacc with hacc | ⟨hbp, hbne, hbd, hbd0, _, hbslt⟩
    · exact Or.inl hacc
    · right
      rw [hbd, hbp]
      rintro (hlt | ⟨-, hpp⟩)
      · omega
      · have hmem : pageAt s bs ∈ s.page_number :=
          getD_mem _ _ _ (by rw [hwf]; exact hbslt)
        rw [hirr _ hmem] at hpp
        cases hpp
  | cons a rest ih =>
    intro lru bd bs bp r lru' hnd hbound hlb hacc h
    obtain ⟨hanr, hndr⟩ := List.nodup_cons.mp hnd
    have hbr : ∀ i, i ∈ rest → i < numSlots s := fun i hi => hbound i (List.mem_cons_of_mem a hi)
    have han : a < numSlots s := hbound a (List.mem_cons_self a rest)
    have hal : a < lru.length := hlb a (List.mem_cons_self a rest)
    have hamem : pageAt s a ∈ s.page_number := getD_mem _ _ _ (by rw [hwf]; exact han)
    unfold selectLoop at h
    split at h
    · cases h
    case isFalse hE =>
      dsimp only at h
      split at h
      case isTrue hneg =>
        have hlb1 : ∀ i, i ∈ rest → i < (lru.set a cur).length := by
          intro i hi
          rw [List.length_set]
          exact hlb i (List.mem_cons_of_mem a hi)
        have hDslot : slotDelta cur (lru.set a cur) a = 0 := slotDelta_after_repair cur lru a hneg
        split at h
        case isTrue htest =>
          obtain ⟨g1, g2, g3, g4⟩ := ih (lru.set a cur) 0 a (pageAt s a) r lru' hndr hbr hlb1
            (Or.inr ⟨rfl, htest.2, hDslot.symm, le_refl 0, hanr, han⟩) h
          have hg4 : ¬ beatsB pre 0 (pageAt s a) (slotDelta cur lru' r) (pageAt s r) := by
            rcases g4 with g4 | g4
            · exact absurd g4 (by norm_num)
            · exact g4
          have hrmem : pageAt s r ∈ s.page_number := by
            rcases selectLoop_victim_mem pre s cur rest _ _ _ _ _ _ h with hr | hr
            · rw [hr]
              exact hamem
            · exact getD_mem _ _ _ (by rw [hwf]; exact hbr r hr)
          have hlra : lruAt lru' a = lruAt (lru.set a cur) a := g1 a hanr
          refine ⟨?_, ?_, ?_, ?_⟩
          · intro t htn
            have hta : t ≠ a := fun hh => htn (hh ▸ List.mem_cons_self a rest)
            rw [g1 t (fun hh => htn (List.mem_cons_of_mem a hh))]
            exact lruAt_set_other lru a t cur (fun hh => hta hh.symm)
          · intro t ht
            rcases List.mem_cons.mp ht with rfl | htr
            · rw [if_pos hneg, hlra]
              exact getD_set_self _ _ _ _ hal
            · rw [g2 t htr, lruAt_set_other lru a t cur (fun hh => hanr (hh ▸ htr))]
          · intro t ht htne
            rcases List.mem_cons.mp ht with rfl | htr
            · have hfix : slotDelta cur lru' t = 0 := by
                rw [slotDelta_congr cur lru' (lru.set t cur) t hlra]
                exact hDslot
              rw [hfix]
              exact hg4
            · exact g3 t htr htne
          · rcases hacc with hacc | ⟨hbp, hbne, hbd, hbd0, hbnl, hbslt⟩
            · exact Or.inl hacc
            · right
              have hbmem : bp ∈ s.page_number := by
                rw [hbp]
                exact getD_mem _ _ _ (by rw [hwf]; exact hbslt)
              exact beats_step_new pre (fun x => x ∈ s.page_number) htrans (pageAt s a) bp
                (pageAt s r) 0 bd (slotDelta cur lru' r) hamem hbmem hrmem htest.1 hg4
        case isFalse htest =>
          have hacc1 : bd = -1 ∨ (bp = pageAt s bs ∧ bp ≠ s.latest_page_number ∧
              bd = slotDelta cur (lru.set a cur) bs ∧ 0 ≤ bd ∧ bs ∉ rest ∧ bs < numSlots s) := by
            rcases hacc with hacc | ⟨hbp, hbne, hbd, hbd0, hbnl, hbslt⟩
            · exact Or.inl hacc
            · right
              have hbsa : a ≠ bs := fun hh => hbnl (hh ▸ List.mem_cons_self a rest)
              refine ⟨hbp, hbne, ?_, hbd0, fun hh => hbnl (List.mem_cons_of_mem a hh), hbslt⟩
              rw [hbd]
              exact (slotDelta_congr cur (lru.set a cur) lru bs (lruAt_set_other lru a bs cur hbsa)).symm
          obtain ⟨g1, g2, g3, g4⟩ := ih (lru.set a cur) bd bs bp r lru' hndr hbr hlb1 hacc1 h
          have hlra : lruAt lru' a = lruAt (lru.set a cur) a := g1 a hanr
          refine ⟨?_, ?_, ?_, ?_⟩
          · intro t htn
            have hta : t ≠ a := fun hh => htn (hh ▸ List.mem_cons_self a rest)
            rw [g1 t (fun hh => htn (List.mem_cons_of_mem a hh))]
            exact lruAt_set_other lru a t cur (fun hh => hta hh.symm)
          · intro t ht
            rcases List.mem_cons.mp ht with rfl | htr
            · rw [if_pos hneg, hlra]
              exact getD_set_self _ _ _ _ hal
            · rw [g2 t htr, lruAt_set_other lru a t cur (fun hh => hanr (hh ▸ htr))]
          · intro t ht htne
            rcases List.mem_cons.mp ht with rfl | htr
            · have hnb1 : ¬ beatsB pre 0 (pageAt s t) bd bp := fun hb => htest ⟨hb, htne⟩
              have hfix : slotDelta cur lru' t = 0 := by
                rw [slotDelta_congr cur lru' (lru.set t cur) t hlra]
                exact hDslot
              rw [hfix]
              rcases hacc with hacc | ⟨hbp, hbne, hbd, hbd0, hbnl, hbslt⟩
              · rw [hacc] at hnb1
                exact absurd (Or.inl (by omega)) hnb1
              · have hg4 : ¬ beatsB pre bd bp (slotDelta cur lru' r) (pageAt s r) := by
                  rcases g4 with g4 | g4
                  · exact absurd g4 (by omega)
                  · exact g4
                have hbmem : bp ∈ s.page_number := by
                  rw [hbp]
                  exact getD_mem _ _ _ (by rw [hwf]; exact hbslt)
                have hrmem : pageAt s r ∈ s.page_number := by
                  rcases selectLoop_victim_mem pre s cur rest _ _ _ _ _ _ h with hr | hr
                  · rw [hr]
                    exact getD_mem _ _ _ (by rw [hwf]; exact hbslt)
                  · exact getD_mem _ _ _ (by rw [hwf]; exact hbr r hr)
                exact beats_step_skip pre (fun x => x ∈ s.page_number) htrans htotal
                  (pageAt s t) bp (pageAt s r) 0 bd (slotDelta cur lru' r)
                  hamem hbmem hrmem hnb1 hg4
            · exact g3 t htr htne
          · rcases hacc with hacc | ⟨hbp, hbne, hbd, hbd0, hbnl, hbslt⟩
            · exact Or.inl hacc
            · right
              rcases g4 with g4 | g4
              · exact absurd g4 (by omega)
              · exact g4
      case isFalse hneg =>
        have hD0 : 0 ≤ int32sub cur (lruAt lru a) := by omega
        have hDslot : slotDelta cur lru a = int32sub cur (lruAt lru a) := by
          unfold slotDelta
          dsimp only
          rw [if_neg hneg]
        have hlb1 : ∀ i, i ∈ rest → i < lru.length :=
          fun i hi => hlb i (List.mem_cons_of_mem a hi)
        split at h
        case isTrue htest =>
          obtain ⟨g1, g2, g3, g4⟩ := ih lru (int32sub cur (lruAt lru a)) a (pageAt s a) r lru'
            hndr hbr hlb1 (Or.inr ⟨rfl, htest.2, hDslot.symm, hD0, hanr, han⟩) h
          have hg4 : ¬ beatsB pre (int32sub cur (lruAt lru a)) (pageAt s a)
              (slotDelta cur lru' r) (pageAt s r) := by
            rcases g4 with g4 | g4
            · exact absurd g4 (by omega)
            · exact g4
          have hrmem : pageAt s r ∈ s.page_number := by
            rcases selectLoop_victim_mem pre s cur rest _ _ _ _ _ _ h with hr | hr
            · rw [hr]
              exact hamem
            · exact getD_mem _ _ _ (by rw [hwf]; exact hbr r hr)
          have hlra : lruAt lru' a = lruAt lru a := g1 a hanr
          refine ⟨?_, ?_, ?_, ?_⟩
          · intro t htn
            exact g1 t (fun hh => htn (List.mem_cons_of_mem a hh))
          · intro t ht
            rcases List.mem_cons.mp ht with rfl | htr
            · rw [if_neg hneg]
              exact hlra
            · exact g2 t htr
          · intro t ht htne
            rcases List.mem_cons.mp ht with rfl | htr
            · have hfix : slotDelta cur lru' t = int32sub cur (lruAt lru t) := by
                rw [slotDelta_congr cur lru' lru t hlra]
                exact hDslot
              rw [hfix]
              exact hg4
            · exact g3 t htr htne
          · rcases hacc with hacc | ⟨hbp, hbne, hbd, hbd0, hbnl, hbslt⟩
            · exact Or.inl hacc
            · right
              have hbmem : bp ∈ s.page_number := by
                rw [hbp]
                exact getD_mem _ _ _ (by rw [hwf]; exact hbslt)
              exact beats_step_new pre (fun x => x ∈ s.page_number) htrans (pageAt s a) bp
                (pageAt s r) (int32sub cur (lruAt lru a)) bd (slotDelta cur lru' r)
                hamem hbmem hrmem htest.1 hg4
        case isFalse htest =>
          have hacc1 : bd = -1 ∨ (bp = pageAt s bs ∧ bp ≠ s.latest_page_number ∧
              bd = slotDelta cur lru bs ∧ 0 ≤ bd ∧ bs ∉ rest ∧ bs < numSlots s) := by
            rcases hacc with hacc | ⟨hbp, hbne, hbd, hbd0, hbnl, hbslt⟩
            · exact Or.inl hacc
            · exact Or.inr ⟨hbp, hbne, hbd, hbd0,
                fun hh => hbnl (List.mem_cons_of_mem a hh), hbslt⟩
          obtain ⟨g1, g2, g3, g4⟩ := ih lru bd bs bp r lru' hndr hbr hlb1 hacc1 h
          have hlra : lruAt lru' a = lruAt lru a := g1 a hanr
          refine ⟨?_, ?_, ?_, ?_⟩
          · intro t htn
            exact g1 t (fun hh => htn (List.mem_cons_of_mem a hh))
          · intro t ht
            rcases List.mem_cons.mp ht with rfl | htr
            · rw [if_neg hneg]
              exact hlra
            · exact g2 t htr
          · intro t ht htne
            rcases List.mem_cons.mp ht with rfl | htr
            · have hnb1 : ¬ beatsB pre (int32sub cur (lruAt lru t)) (pageAt s t) bd bp :=
                fun hb => htest ⟨hb, htne⟩
              have hfix : slotDelta cur lru' t = int32sub cur (lruAt lru t) := by
                rw [slotDelta_congr cur lru' lru t hlra]
                exact hDslot
              rw [hfix]
              rcases hacc with hacc | ⟨hbp, hbne, hbd, hbd0, hbnl, hbslt⟩
              · rw [hacc] at hnb1
                exact absurd (Or.inl (by omega)) hnb1
              · have hg4 : ¬ beatsB pre bd bp (slotDelta cur lru' r) (pageAt s r) := by
                  rcases g4 with g4 | g4
                  · exact absurd g4 (by omega)
                  · exact g4
                have hbmem : bp ∈ s.page_number := by
                  rw [hbp]
                  exact getD_mem _ _ _ (by rw [hwf]; exact hbslt)
                have hrmem : pageAt s r ∈ s.page_number := by
                  rcases selectLoop_victim_mem pre s cur rest _ _ _ _ _ _ h with hr | hr
                  · rw [hr]
                    exact getD_mem _ _ _ (by rw [hwf]; exact hbslt)
                  · exact getD_mem _ _ _ (by rw [hwf]; exact hbr r hr)
                exact beats_step_skip pre (fun x => x ∈ s.page_number) htrans htotal
                  (pageAt s t) bp (pageAt s r) (int32sub cur (lruAt lru t)) bd
                  (slotDelta cur lru' r) hamem hbmem hrmem hnb1 hg4
            · exact g3 t htr htne
          · rcases hacc with hacc | ⟨hbp, hbne, hbd, hbd0, hbnl, hbslt⟩
            · exact Or.inl hacc
            · right
              rcases g4 with g4 | g4
              · exact absurd g4 (by omega)
              · exact g4

/-! ### Claim theorems -/

/--
Claim C1 (amended): when SlruSelectLRUPage finds no buffer holding the page
(no hit), no slot is EMPTY, and — the amendment — at least one slot's page
differs from latest_page_number, the slot it returns for replacement never
holds latest_page_number, regardless of lru counts.  Without the amendment
the claim fails: when every slot holds latest_page_number (e.g. a one-slot
pool), best_delta stays -1 and the bestslot = 0 initialisation is returned,
which is the latest page's slot (see the counterexample).
-/
theorem slruC1_select_avoids_latest (ctl : SlruCtl) (wenv : WriteEnv) (pageno : Int)
    (fuel : Nat) (s : SlruShared) (fs : SlruFs) (r : Nat) (s' : SlruShared) (fs' : SlruFs)
    (hnohit : ∀ i, i < numSlots s → pageAt s i = pageno → statusAt s i = .EMPTY)
    (hnoempty : ∀ i, i < numSlots s → statusAt s i ≠ .EMPTY)
    (hcand : ∃ j, j < numSlots s ∧ pageAt s j ≠ s.latest_page_number)
    (h : SlruSelectLRUPage ctl wenv fuel s fs pageno = .ok r s' fs') :
    pageAt s' r ≠ s'.latest_page_number := by
  refine select_ne_latest_aux ctl wenv pageno fuel s fs r s' fs' hnohit ?_ hcand h
  intro i hi hE
  exact absurd hE (hnoempty i hi)

/-- Witness for C1: a two-slot pool where slot 0 holds the latest page and
slot 1 does not; the scan returns slot 1. -/
theorem slruC1_select_avoids_latest_witness :
    pageAt ⟨[.VALID, .VALID], [false, false], [7, 3], [0, 0], [[], []], 6, 7, some .exclusive⟩ 1 ≠
      (⟨[.VALID, .VALID], [false, false], [7, 3], [0, 0], [[], []], 6, 7,
        some .exclusive⟩ : SlruShared).latest_page_number :=
  slruC1_select_avoids_latest ⟨fun a b => decide (a < b), false⟩ ⟨true, true, true, true⟩ 9 1
    ⟨[.VALID, .VALID], [false, false], [7, 3], [0, 0], [[], []], 5, 7, some .exclusive⟩ ⟨[], []⟩ 1
    ⟨[.VALID, .VALID], [false, false], [7, 3], [0, 0], [[], []], 6, 7, some .exclusive⟩ ⟨[], []⟩
    (by decide) (by decide) ⟨1, by decide⟩ (by decide)

/--
Counterexample to C1 as stated: a one-slot pool whose only (non-EMPTY) slot
holds latest_page_number, probed for a different page.  There is no hit and
no EMPTY slot, yet SlruSelectLRUPage returns that slot: its page equals
latest_page_number.  In the code, best_delta = -1 never changes because the
latest page's slot is excluded, and the bestslot = 0 initialisation wins.
-/
theorem slruC1_select_latest_counterexample :
    (∀ i, i < numSlots (⟨[.VALID], [false], [7], [0], [[]], 5, 7,
        some .exclusive⟩ : SlruShared) →
      pageAt ⟨[.VALID], [false], [7], [0], [[]], 5, 7, some .exclusive⟩ i = 3 →
      statusAt ⟨[.VALID], [false], [7], [0], [[]], 5, 7, some .exclusive⟩ i = .EMPTY) ∧
    (∀ i, i < numSlots (⟨[.VALID], [false], [7], [0], [[]], 5, 7,
        some .exclusive⟩ : SlruShared) →
      statusAt ⟨[.VALID], [false], [7], [0], [[]], 5, 7, some .exclusive⟩ i ≠ .EMPTY) ∧
    SlruSelectLRUPage ⟨fun a b => decide (a < b), false⟩ ⟨true, true, true, true⟩ 1
      ⟨[.VALID], [false], [7], [0], [[]], 5, 7, some .exclusive⟩ ⟨[], []⟩ 3 =
      .ok 0 ⟨[.VALID], [false], [7], [0], [[]], 6, 7, some .exclusive⟩ ⟨[], []⟩ ∧
    pageAt ⟨[.VALID], [false], [7], [0], [[]], 6, 7, some .exclusive⟩ 0 =
      (⟨[.VALID], [false], [7], [0], [[]], 6, 7,
        some .exclusive⟩ : SlruShared).latest_page_number := by
  decide

/--
Claim C2: when SimpleLruTruncate returns normally and the initial
latest_page_number does not precede the (segment-rounded) cutoff, the
implementation applies a cutoff rounded down to a segment boundary, no slot
of the final state is non-EMPTY with a page preceding that cutoff, and no
directory entry naming a segment file whose first page precedes that cutoff
remains.
-/
theorem slruC2_truncate_safety (ctl : SlruCtl) (wenv : WriteEnv) (fuel : Nat)
    (s : SlruShared) (fs : SlruFs) (cutoffPage : Int) (s' : SlruShared) (fs' : SlruFs)
    (hwrap : ctl.PagePrecedes s.latest_page_number
      (cutoffPage - cutoffPage.tmod SLRU_PAGES_PER_SEGMENT) = false)
    (h : SimpleLruTruncate ctl wenv fuel s fs cutoffPage = .ok () s' fs') :
    (cutoffPage - cutoffPage.tmod SLRU_PAGES_PER_SEGMENT).tmod SLRU_PAGES_PER_SEGMENT = 0 ∧
    (∀ i, statusAt s' i ≠ .EMPTY →
      ctl.PagePrecedes (pageAt s' i)
        (cutoffPage - cutoffPage.tmod SLRU_PAGES_PER_SEGMENT) = false) ∧
    (∀ nm, nm ∈ fs'.dir → isSlruFileName nm = true →
      ctl.PagePrecedes (parseHex nm * SLRU_PAGES_PER_SEGMENT)
        (cutoffPage - cutoffPage.tmod SLRU_PAGES_PER_SEGMENT) = false) := by
  refine ⟨roundDown_tmod_eq_zero cutoffPage, ?_⟩
  unfold SimpleLruTruncate SimpleLruTruncate_internal at h
  dsimp only at h
  exact truncate_rec_ok_spec ctl wenv fuel (setCtrl s (some .exclusive)) fs
    (cutoffPage - cutoffPage.tmod SLRU_PAGES_PER_SEGMENT) false s' fs' hwrap
    (roundDown_tmod_eq_zero cutoffPage) h

/-- Witness for C2: truncating a pool with one clean VALID slot at page 0 and
segments 0000 and 0001 on disk at cutoff 33 (rounded to 32) empties the slot
and deletes segment 0000, keeping 0001. -/
theorem slruC2_truncate_safety_witness :
    (∀ i, statusAt (⟨[.EMPTY], [false], [0], [0], [[]], 0, 40, none⟩ : SlruShared) i ≠ .EMPTY →
      (⟨fun a b => decide (a < b), false⟩ : SlruCtl).PagePrecedes
        (pageAt ⟨[.EMPTY], [false], [0], [0], [[]], 0, 40, none⟩ i)
        ((33 : Int) - (33 : Int).tmod SLRU_PAGES_PER_SEGMENT) = false) ∧
    (∀ nm, nm ∈ (⟨["0001"], []⟩ : SlruFs).dir → isSlruFileName nm = true →
      (⟨fun a b => decide (a < b), false⟩ : SlruCtl).PagePrecedes
        (parseHex nm * SLRU_PAGES_PER_SEGMENT)
        ((33 : Int) - (33 : Int).tmod SLRU_PAGES_PER_SEGMENT) = false) :=
  (slruC2_truncate_safety ⟨fun a b => decide (a < b), false⟩ ⟨true, true, true, true⟩ 1
    ⟨[.VALID], [false], [0], [0], [[]], 0, 40, some .exclusive⟩ ⟨["0000", "0001"], []⟩ 33
    ⟨[.EMPTY], [false], [0], [0], [[]], 0, 40, none⟩ ⟨["0001"], []⟩
    (by decide) (by decide)).2

/--
Claim C3: when precedes(latest_page_number, cutoff) holds for the
segment-rounded cutoff, SimpleLruTruncate is a no-op: it returns normally
with the filesystem untouched (no segment removed) and every slot field of
the shared state unchanged (only the control lock taken at entry is
released).
-/
theorem slruC3_truncate_wraparound_refusal (ctl : SlruCtl) (wenv : WriteEnv) (fuel : Nat)
    (s : SlruShared) (fs : SlruFs) (cutoffPage : Int)
    (hfuel : 1 ≤ fuel)
    (hwrap : ctl.PagePrecedes s.latest_page_number
      (cutoffPage - cutoffPage.tmod SLRU_PAGES_PER_SEGMENT) = true) :
    ∃ s', SimpleLruTruncate ctl wenv fuel s fs cutoffPage = .ok () s' fs ∧
      s'.page_status = s.page_status ∧ s'.page_dirty = s.page_dirty ∧
      s'.page_number = s.page_number ∧ s'.page_lru_count = s.page_lru_count ∧
      s'.page_buffer = s.page_buffer ∧ s'.latest_page_number = s.latest_page_number := by
  obtain ⟨fuel, rfl⟩ : ∃ k, fuel = k + 1 := ⟨fuel - 1, by omega⟩
  refine ⟨setCtrl s none, ?_, rfl, rfl, rfl, rfl, rfl, rfl⟩
  unfold SimpleLruTruncate SimpleLruTruncate_internal SimpleLruTruncate_rec
  dsimp only
  simp only [Bool.false_eq_true, if_false]
  simp only [latest_setCtrl]
  rw [if_pos hwrap]
  rfl

/-- Witness for C3: a wrapped pool (latest page 40, cutoff 100 rounding to
96) refuses to truncate; the segment listing and every slot field survive. -/
theorem slruC3_truncate_wraparound_refusal_witness :
    ∃ s', SimpleLruTruncate ⟨fun a b => decide (a < b), false⟩ ⟨true, true, true, true⟩ 1
        ⟨[.VALID], [false], [0], [0], [[]], 0, 40, some .exclusive⟩ ⟨["0000"], []⟩ 100 =
        .ok () s' ⟨["0000"], []⟩ ∧
      s'.page_status = (⟨[.VALID], [false], [0], [0], [[]], 0, 40,
        some .exclusive⟩ : SlruShared).page_status ∧
      s'.page_dirty = (⟨[.VALID], [false], [0], [0], [[]], 0, 40,
        some .exclusive⟩ : SlruShared).page_dirty ∧
      s'.page_number = (⟨[.VALID], [false], [0], [0], [[]], 0, 40,
        some .exclusive⟩ : SlruShared).page_number ∧
      s'.page_lru_count = (⟨[.VALID], [false], [0], [0], [[]], 0, 40,
        some .exclusive⟩ : SlruShared).page_lru_count ∧
      s'.page_buffer = (⟨[.VALID], [false], [0], [0], [[]], 0, 40,
        some .exclusive⟩ : SlruShared).page_buffer ∧
      s'.latest_page_number = (⟨[.VALID], [false], [0], [0], [[]], 0, 40,
        some .exclusive⟩ : SlruShared).latest_page_number :=
  slruC3_truncate_wraparound_refusal ⟨fun a b => decide (a < b), false⟩
    ⟨true, true, true, true⟩ 1
    ⟨[.VALID], [false], [0], [0], [[]], 0, 40, some .exclusive⟩ ⟨["0000"], []⟩ 100
    (by decide) (by decide)

/--
Claim C4: the orchestrators restore slot state before surfacing an I/O
failure.  Read half (the write environment succeeds, so the only failing
I/O is the read itself): any failure surfaced by SimpleLruReadPage_Internal
— the ereport path or the valid-pointer path — carries a state whose
failing slot is EMPTY.  Write half (any write environment): an I/O error
surfaced by SimpleLruWritePage carries a state where the slot is VALID and
dirty again, so the page can be retried.
-/
theorem slruC4_failure_restores_slot (ctl : SlruCtl) (blcksz : Nat) (renv : ReadEnv)
    (wenvR wenv2 : WriteEnv) (inRecovery : Bool) (hok : wenvOk wenvR) :
    (∀ (fuel : Nat) (s : SlruShared) (fs : SlruFs) (pageno : Int) (write_ok hasValid : Bool)
       (c : SlruErrorCause) (p : Int) (sl : Nat) (s' : SlruShared) (fs' : SlruFs),
      0 < numSlots s →
      SimpleLruReadPage_Internal ctl blcksz renv wenvR inRecovery fuel s fs pageno
        write_ok hasValid = .ioError c p sl s' fs' →
      statusAt s' sl = .EMPTY) ∧
    (∀ (fuel : Nat) (s : SlruShared) (fs : SlruFs) (pageno : Int) (write_ok hasValid : Bool)
       (sl : Nat) (s' : SlruShared) (fs' : SlruFs),
      0 < numSlots s →
      SimpleLruReadPage_Internal ctl blcksz renv wenvR inRecovery fuel s fs pageno
        write_ok hasValid = .failed sl s' fs' →
      statusAt s' sl = .EMPTY) ∧
    (∀ (s : SlruShared) (fs : SlruFs) (i : Nat) (c : SlruErrorCause) (p : Int) (sl : Nat)
       (s' : SlruShared) (fs' : SlruFs),
      SimpleLruWritePage ctl wenv2 s fs i = .ioError c p sl s' fs' →
      sl = i ∧ statusAt s' i = .VALID ∧ dirtyAt s' i = true) := by
  refine ⟨?_, ?_, ?_⟩
  · intro fuel s fs pageno write_ok hasValid c p sl s' fs' hpos h
    exact (readPage_fail_spec ctl blcksz renv wenvR inRecovery hok fuel s fs pageno
      write_ok hasValid hpos).1 c p sl s' fs' h
  · intro fuel s fs pageno write_ok hasValid sl s' fs' hpos h
    exact ((readPage_fail_spec ctl blcksz renv wenvR inRecovery hok fuel s fs pageno
      write_ok hasValid hpos).2 sl s' fs' h).1
  · intro s fs i c p sl s' fs' h
    exact writePage_ioError_spec ctl wenv2 s fs i c p sl s' fs' h

/-- Witness for C4: a failed read (open errno 5, not in recovery) leaves the
slot EMPTY, and a failed write (write syscall failing) leaves the slot VALID
and dirty again. -/
theorem slruC4_failure_restores_slot_witness :
    statusAt ⟨[.EMPTY], [false], [5], [4], [[]], 4, 0, none⟩ 0 = .EMPTY ∧
    ((0 : Nat) = 0 ∧
      statusAt ⟨[.VALID], [true], [5], [0], [[1, 2, 3, 4]], 4, 5, some .exclusive⟩ 0 = .VALID ∧
      dirtyAt ⟨[.VALID], [true], [5], [0], [[1, 2, 3, 4]], 4, 5, some .exclusive⟩ 0 = true) :=
  ⟨(slruC4_failure_restores_slot ⟨fun a b => decide (a < b), false⟩ 4 ⟨some 5, true, true, true⟩
      ⟨true, true, true, true⟩ ⟨true, true, false, true⟩ false (by decide)).2.1 2
      ⟨[.EMPTY], [false], [0], [0], [[]], 2, 0, some .exclusive⟩ ⟨[], []⟩ 5 true true 0
      ⟨[.EMPTY], [false], [5], [4], [[]], 4, 0, none⟩ ⟨[], []⟩ (by decide) (by decide),
   (slruC4_failure_restores_slot ⟨fun a b => decide (a < b), false⟩ 4 ⟨some 5, true, true, true⟩
      ⟨true, true, true, true⟩ ⟨true, true, false, true⟩ false (by decide)).2.2
      ⟨[.VALID], [true], [5], [0], [[1, 2, 3, 4]], 4, 5, some .exclusive⟩ ⟨[], []⟩ 0
      .WRITE_FAILED 5 0
      ⟨[.VALID], [true], [5], [0], [[1, 2, 3, 4]], 4, 5, some .exclusive⟩ ⟨[], []⟩ (by decide)⟩

/--
Claim C5: after SimpleLruZeroPage returns a slot for page p, that slot holds
page_number = p with status VALID, dirty set, an all-zero buffer, and
latest_page_number = p; consequently the round trip — write the slot out,
evict it, read p back — returns a slot whose buffer is all zero bytes (the
write environment succeeding, and the page not being buffered beforehand,
as SimpleLruZeroPage's Assert demands).
-/
theorem slruC5_zero_page_roundtrip (ctl : SlruCtl) (blcksz : Nat) (renv : ReadEnv)
    (wenv : WriteEnv) (fuel fuel2 : Nat) (s : SlruShared) (fs : SlruFs) (p : Int)
    (slot : Nat) (s1 : SlruShared) (fs1 : SlruFs)
    (hwf : wf s)
    (hnb : ∀ j, statusAt s j ≠ .EMPTY → pageAt s j ≠ p)
    (hok : wenvOk wenv)
    (hz : SimpleLruZeroPage ctl blcksz wenv fuel s fs p = .ok slot s1 fs1) :
    pageAt s1 slot = p ∧ statusAt s1 slot = .VALID ∧ dirtyAt s1 slot = true ∧
    bufferAt s1 slot = List.replicate blcksz 0 ∧ s1.latest_page_number = p ∧
    (∀ (s2 : SlruShared) (fs2 : SlruFs) (slot2 : Nat) (s3 : SlruShared) (fs3 : SlruFs)
       (write_ok hasValid : Bool),
      SimpleLruWritePage ctl wenv s1 fs1 slot = .ok () s2 fs2 →
      SimpleLruReadPage_Internal ctl blcksz renv wenv false fuel2 (evictSlot s2 slot) fs2 p
        write_ok hasValid = .ok slot2 s3 fs3 →
      bufferAt s3 slot2 = List.replicate blcksz 0) := by
  obtain ⟨z1, z2, z3, z4, z5, z6, z7, z8, z9, z10⟩ :=
    zeroPage_spec ctl blcksz wenv fuel s fs p slot s1 fs1 hwf hz
  refine ⟨z1, z2, z3, z4, z5, ?_⟩
  intro s2 fs2 slot2 s3 fs3 write_ok hasValid hw hr
  obtain ⟨w1, w2, w3, w4, w5, w6, w7, w8, w9, _⟩ :=
    writePage_ok_spec ctl wenv s1 fs1 slot s2 fs2 hw
  have hwd := writePage_dirty_ok ctl wenv s1 fs1 slot z2 z3 hok
  rw [hw] at hwd
  injection hwd with he1 he2 he3
  rw [he3] at hr
  have hseg : segExists (fsWritePage fs1 ((pageAt s1 slot).tdiv SLRU_PAGES_PER_SEGMENT)
      ((pageAt s1 slot).tmod SLRU_PAGES_PER_SEGMENT) (bufferAt s1 slot))
      (p.tdiv SLRU_PAGES_PER_SEGMENT) = true := by
    rw [z1]
    exact segExists_fsWritePage_self fs1 p (bufferAt s1 slot)
  have hfsr : fsReadByPage (fsWritePage fs1 ((pageAt s1 slot).tdiv SLRU_PAGES_PER_SEGMENT)
      ((pageAt s1 slot).tmod SLRU_PAGES_PER_SEGMENT) (bufferAt s1 slot)) p =
      some (List.replicate blcksz 0) := by
    rw [z1, z4]
    exact fsWritePage_read_self fs1 p (List.replicate blcksz 0)
  have hwfE : wf (evictSlot s2 slot) := by
    obtain ⟨p1, p2, p3, p4, p5⟩ := z10
    have e1 : s2.page_number.length = s1.page_number.length := by rw [w1]
    have e2 : s2.page_lru_count.length = s1.page_lru_count.length := by rw [w5]
    have e3 : s2.page_buffer.length = s1.page_buffer.length := by rw [w7]
    unfold numSlots at p1 p2 p3 p4 p5
    unfold wf numSlots evictSlot setStatus
    dsimp only
    refine ⟨?_, ?_, ?_, ?_, ?_⟩ <;> simp only [List.length_set] <;> omega
  have hnb2 : ∀ j, statusAt (evictSlot s2 slot) j ≠ .EMPTY →
      pageAt (evictSlot s2 slot) j ≠ p := by
    intro j hj
    by_cases hjs : j = slot
    · subst hjs
      exfalso
      apply hj
      unfold evictSlot
      refine statusAt_setStatus_self s2 j .EMPTY ?_
      have : numSlots s2 = numSlots s1 := w3
      unfold numSlots at this z6 z7 ⊢
      omega
    · unfold evictSlot at hj ⊢
      rw [statusAt_setStatus_other s2 slot .EMPTY j (fun hh => hjs hh.symm)] at hj
      rw [pageAt_setStatus]
      have hpj : pageAt s2 j = pageAt s1 j := by unfold pageAt; rw [w1]
      rw [hpj, z8 j hjs]
      rw [w8 j hjs] at hj
      have hsj : statusAt s j ≠ .EMPTY := fun hE => hj (z9 j hjs hE)
      exact hnb j hsj
  exact readPage_zero_spec ctl blcksz renv wenv false p fuel2 (evictSlot s2 slot) _
    write_ok hasValid slot2 s3 fs3 hwfE hnb2 hseg hfsr hr

/-- Witness for C5: a one-slot pool, block size 4: zeroing page 9, writing
it, evicting and reading it back yields the all-zero buffer. -/
theorem slruC5_zero_page_roundtrip_witness :
    bufferAt ⟨[.VALID], [false], [9], [6], [[0, 0, 0, 0]], 6, 9, some .exclusive⟩ 0 =
      List.replicate 4 0 :=
  (slruC5_zero_page_roundtrip ⟨fun a b => decide (a < b), false⟩ 4 ⟨none, true, true, true⟩
      ⟨true, true, true, true⟩ 1 2
      ⟨[.EMPTY], [false], [0], [0], [[]], 2, 0, some .exclusive⟩ ⟨[], []⟩ 9 0
      ⟨[.VALID], [true], [9], [4], [[0, 0, 0, 0]], 4, 9, some .exclusive⟩ ⟨[], []⟩
      (by decide) (by intro j hj; exfalso; apply hj; rcases j with _ | n <;> rfl)
      (by decide) (by decide)).2.2.2.2.2
    ⟨[.VALID], [false], [9], [4], [[0, 0, 0, 0]], 4, 9, some .exclusive⟩
    ⟨["0000"], [((0, 9), [0, 0, 0, 0])]⟩ 0
    ⟨[.VALID], [false], [9], [6], [[0, 0, 0, 0]], 6, 9, some .exclusive⟩
    ⟨["0000"], [((0, 9), [0, 0, 0, 0])]⟩ true true (by decide) (by decide)

/--
Claim C6: the victim pass of SlruSelectLRUPage on a miss: a slot with
status EMPTY is returned as the result immediately; otherwise every slot's
delta is the signed 32-bit difference cur − lru_tick[i], a negative delta
is repaired in place (lru_tick[i] := cur, treated as 0), and the victim
maximises the repaired delta over all slots not holding latest_page_number,
ties broken by the client's precedes predicate — provided that predicate is
transitive, total and irreflexive on the pool's pages.
-/
theorem slruC6_victim_selection_policy (pre : Int → Int → Bool) (s : SlruShared) (cur : Int)
    (htrans : ∀ a b c, a ∈ s.page_number → b ∈ s.page_number → c ∈ s.page_number →
      pre a b = true → pre b c = true → pre a c = true)
    (htotal : ∀ a b, a ∈ s.page_number → b ∈ s.page_number → a ≠ b →
      pre a b = true ∨ pre b a = true)
    (hirr : ∀ a, a ∈ s.page_number → pre a a = false)
    (hwf : wf s) :
    (∀ i lru', selectLoop pre s cur (List.range (numSlots s)) s.page_lru_count (-1) 0 0 =
        .emptySlot i lru' → i < numSlots s ∧ statusAt s i = .EMPTY) ∧
    (∀ r lru', selectLoop pre s cur (List.range (numSlots s)) s.page_lru_count (-1) 0 0 =
        .victim r lru' →
      (∀ t, t < numSlots s →
        lruAt lru' t = if int32sub cur (lruAt s.page_lru_count t) < 0 then cur
          else lruAt s.page_lru_count t) ∧
      (∀ t, t < numSlots s → pageAt s t ≠ s.latest_page_number →
        ¬ beatsB pre (slotDelta cur lru' t) (pageAt s t)
          (slotDelta cur lru' r) (pageAt s r))) := by
  constructor
  · intro i lru' h
    obtain ⟨hm, hE⟩ := selectLoop_emptySlot_spec pre s cur _ _ _ _ _ _ _ h
    exact ⟨List.mem_range.mp hm, hE⟩
  · intro r lru' h
    obtain ⟨hpos, hld, hln, hll, hlb⟩ := hwf
    obtain ⟨g1, g2, g3, g4⟩ := selectLoop_victim_best pre s cur htrans htotal hirr hln
      (List.range (numSlots s)) s.page_lru_count (-1) 0 0 r lru'
      (List.nodup_range _) (fun i hi => List.mem_range.mp hi)
      (fun i hi => by rw [hll]; exact List.mem_range.mp hi)
      (Or.inl rfl) h
    exact ⟨fun t ht => g2 t (List.mem_range.mpr ht),
           fun t ht hne => g3 t (List.mem_range.mpr ht) hne⟩

/-- Witness for C6: the order is the usual one on Int; slot 0 holds the
latest page (excluded), slot 1's delta 5 − 9 is negative, repaired in place
to tick 5 and treated as 0; slot 1 is the victim and no eligible slot beats
it. -/
theorem slruC6_victim_selection_policy_witness :
    (∀ t, t < numSlots (⟨[.VALID, .VALID], [false, false], [7, 3], [0, 9], [[], []], 6, 7,
        some .exclusive⟩ : SlruShared) →
      lruAt [0, 5] t = if int32sub 5 (lruAt [0, 9] t) < 0 then 5 else lruAt [0, 9] t) ∧
    (∀ t, t < numSlots (⟨[.VALID, .VALID], [false, false], [7, 3], [0, 9], [[], []], 6, 7,
        some .exclusive⟩ : SlruShared) →
      pageAt ⟨[.VALID, .VALID], [false, false], [7, 3], [0, 9], [[], []], 6, 7,
        some .exclusive⟩ t ≠
        (⟨[.VALID, .VALID], [false, false], [7, 3], [0, 9], [[], []], 6, 7,
          some .exclusive⟩ : SlruShared).latest_page_number →
      ¬ beatsB (fun a b => decide (a < b)) (slotDelta 5 [0, 5] t)
        (pageAt ⟨[.VALID, .VALID], [false, false], [7, 3], [0, 9], [[], []], 6, 7,
          some .exclusive⟩ t)
        (slotDelta 5 [0, 5] 1)
        (pageAt ⟨[.VALID, .VALID], [false, false], [7, 3], [0, 9], [[], []], 6, 7,
          some .exclusive⟩ 1)) :=
  (slruC6_victim_selection_policy (fun a b => decide (a < b))
    ⟨[.VALID, .VALID], [false, false], [7, 3], [0, 9], [[], []], 6, 7, some .exclusive⟩ 5
    (by intro a b c hma hmb hmc h1 h2; simp only [decide_eq_true_eq] at h1 h2 ⊢; omega)
    (by intro a b hma hmb hne; simp only [decide_eq_true_eq]; omega)
    (by intro a hma; simp only [decide_eq_false_iff_not]; omega)
    (by decide)).2 1 [0, 5] (by decide)

/--
Counterexample to C7 as stated: flushing segments 1 then 2 with every fsync
failing raises the aggregated error carrying page 64 — segment 2's first
page — although the first failing segment in flush order is 1, whose first
page is 32.  The code overwrites the remembered page number on each failing
fsync, so the last failure wins.
-/
theorem slruC7_flush_first_failing_counterexample :
    SimpleLruFlush_raised true (fun _ => true) [1, 2] =
      some (2 * SLRU_PAGES_PER_SEGMENT) ∧
    2 * SLRU_PAGES_PER_SEGMENT ≠ (1 : Int) * SLRU_PAGES_PER_SEGMENT := by
  decide

/--
Claim C8: the open step of SlruPhysicalReadPage: an absent segment file
reports ENOENT, which in recovery mode zero-fills the slot's buffer and
reports success; any other open failure — a non-ENOENT errno, or ENOENT
outside recovery — fails with cause OPEN_FAILED and the errno stashed for
SlruReportIOError.
-/
theorem slruC8_phys_read_open_failure (blcksz : Nat) (renv : ReadEnv) (inRecovery : Bool)
    (fs : SlruFs) (s : SlruShared) (pageno : Int) (slotno : Nat) :
    (renv.openErr = none → segExists fs (pageno.tdiv SLRU_PAGES_PER_SEGMENT) = false →
      inRecovery = true →
      SlruPhysicalReadPage blcksz renv inRecovery fs s pageno slotno =
        (true, setBuffer s slotno (List.replicate blcksz 0), none)) ∧
    (renv.openErr = none → segExists fs (pageno.tdiv SLRU_PAGES_PER_SEGMENT) = false →
      inRecovery = false →
      SlruPhysicalReadPage blcksz renv inRecovery fs s pageno slotno =
        (false, s, some (.OPEN_FAILED, ENOENT))) ∧
    (∀ e, renv.openErr = some e → e ≠ ENOENT →
      SlruPhysicalReadPage blcksz renv inRecovery fs s pageno slotno =
        (false, s, some (.OPEN_FAILED, e))) ∧
    (∀ e, renv.openErr = some e → inRecovery = false →
      SlruPhysicalReadPage blcksz renv inRecovery fs s pageno slotno =
        (false, s, some (.OPEN_FAILED, e))) ∧
    (renv.openErr = some ENOENT → inRecovery = true →
      SlruPhysicalReadPage blcksz renv inRecovery fs s pageno slotno =
        (true, setBuffer s slotno (List.replicate blcksz 0), none)) := by
  refine ⟨?_, ?_, ?_, ?_, ?_⟩
  · intro h1 h2 h3
    subst h3
    simp [SlruPhysicalReadPage, h1, h2]
  · intro h1 h2 h3
    subst h3
    simp [SlruPhysicalReadPage, h1, h2]
  · intro e h1 he
    simp [SlruPhysicalReadPage, h1, he]
  · intro e h1 h3
    subst h3
    simp [SlruPhysicalReadPage, h1]
  · intro h1 h3
    subst h3
    simp [SlruPhysicalReadPage, h1]

/-- Witness for C8: a non-ENOENT open failure outside recovery fails with
OPEN_FAILED and errno 5; an absent segment in recovery zero-fills a 4-byte
buffer and succeeds. -/
theorem slruC8_phys_read_open_failure_witness :
    SlruPhysicalReadPage 4 ⟨some 5, true, true, true⟩ false ⟨[], []⟩
        ⟨[.EMPTY], [false], [0], [0], [[]], 0, 0, none⟩ 9 0 =
      (false, ⟨[.EMPTY], [false], [0], [0], [[]], 0, 0, none⟩, some (.OPEN_FAILED, 5)) ∧
    SlruPhysicalReadPage 4 ⟨none, true, true, true⟩ true ⟨[], []⟩
        ⟨[.EMPTY], [false], [0], [0], [[]], 0, 0, none⟩ 9 0 =
      (true, setBuffer ⟨[.EMPTY], [false], [0], [0], [[]], 0, 0, none⟩ 0
        (List.replicate 4 0), none) :=
  ⟨(slruC8_phys_read_open_failure 4 ⟨some 5, true, true, true⟩ false ⟨[], []⟩
      ⟨[.EMPTY], [false], [0], [0], [[]], 0, 0, none⟩ 9 0).2.2.1 5 rfl (by decide),
   (slruC8_phys_read_open_failure 4 ⟨none, true, true, true⟩ true ⟨[], []⟩
      ⟨[.EMPTY], [false], [0], [0], [[]], 0, 0, none⟩ 9 0).1 rfl (by decide) rfl⟩

/--
Claim C9 (code bug): SimpleLruReadPage_ReadOnly is entered with the control
lock not held and its contract says some mode of the control lock is held
on every return path; but on the fall-through path, when the physical read
fails and the caller passed a valid pointer, SimpleLruReadPage_Internal
releases the control lock before returning -1, so the caller gets the
failure with no control lock held.  Concrete run: a one-slot pool missing
page 5, open failing with errno 5 (non-ENOENT, not in recovery).
-/
theorem slruC9_readonly_failed_path_drops_lock :
    (⟨[.EMPTY], [false], [0], [0], [[]], 2, 0, none⟩ : SlruShared).controlLock = none ∧
    SimpleLruReadPage_ReadOnly ⟨fun a b => decide (a < b), false⟩ 4 ⟨some 5, true, true, true⟩
      ⟨true, true, true, true⟩ false 2 ⟨[.EMPTY], [false], [0], [0], [[]], 2, 0, none⟩
      ⟨[], []⟩ 5 =
      .failed 0 ⟨[.EMPTY], [false], [5], [4], [[]], 4, 0, none⟩ ⟨[], []⟩ ∧
    (⟨[.EMPTY], [false], [5], [4], [[]], 4, 0, none⟩ : SlruShared).controlLock = none := by
  decide

/--
Counterexample to C10 as stated: SimpleLruPageExists CAN raise an I/O
error — probing for an unbuffered page in a pool whose LRU victim is dirty
makes SlruSelectLRUPage write the victim out, and when that write fails
the error is reported before the probe's own read is reached.
-/
theorem slruC10_page_exists_raises_counterexample :
    SimpleLruPageExists ⟨fun a b => decide (a < b), false⟩ 4 ⟨none, true, true, true⟩
      ⟨true, true, false, true⟩ false 1
      ⟨[.VALID, .VALID], [true, false], [5, 1], [0, 0], [[9, 9, 9, 9], []], 5, 1,
        some .exclusive⟩
      ⟨[], []⟩ 7 =
      .ioError .WRITE_FAILED 5 0
        ⟨[.VALID, .VALID], [true, false], [5, 1], [0, 0], [[9, 9, 9, 9], []], 6, 1,
          some .exclusive⟩
        ⟨[], []⟩ := by
  decide

/--
Claim C10 (amended): provided the eviction writes succeed (the only writes
SimpleLruPageExists can trigger), it never reports an I/O error; when the
physical read it performs itself fails, the slot it used is reset to EMPTY
(still labelled with the probed page) and false is returned instead of an
error; a buffered page (not read-busy) is reported true with no I/O; an
unbuffered page whose segment file holds a full-size image is reported true
when the read-path syscalls succeed; and in recovery mode an unbuffered
page with no segment file is reported as existing (the zero-fill case),
stated on a pool with no dirty or write-busy slot so that victim selection
cannot create the segment file first.  Without the eviction-write proviso
the no-raise part fails: a failing eviction write inside the victim
selection raises (see the counterexample).
-/
theorem slruC10_page_exists_error_swallowing (ctl : SlruCtl) (blcksz : Nat) (renv : ReadEnv)
    (wenv : WriteEnv) (inRecovery : Bool) (hok : wenvOk wenv) :
    (∀ (fuel : Nat) (s : SlruShared) (fs : SlruFs) (pageno : Int) (c : SlruErrorCause)
       (p : Int) (sl : Nat) (s' : SlruShared) (fs' : SlruFs),
      SimpleLruPageExists ctl blcksz renv wenv inRecovery fuel s fs pageno ≠
        .ioError c p sl s' fs') ∧
    (∀ (fuel : Nat) (s : SlruShared) (fs : SlruFs) (pageno : Int) (s' : SlruShared)
       (fs' : SlruFs),
      wf s →
      SimpleLruPageExists ctl blcksz renv wenv inRecovery fuel s fs pageno = .ok false s' fs' →
      ∃ sl, sl < numSlots s' ∧ statusAt s' sl = .EMPTY ∧ pageAt s' sl = pageno) ∧
    (∀ (fuel : Nat) (s : SlruShared) (fs : SlruFs) (pageno : Int),
      (∃ i, i < numSlots s ∧ pageAt s i = pageno ∧ statusAt s i ≠ .EMPTY) →
      (∀ i, i < numSlots s → pageAt s i = pageno → statusAt s i ≠ .READ_IN_PROGRESS) →
      SimpleLruPageExists ctl blcksz renv wenv inRecovery (fuel + 1) s fs pageno =
        .ok true s fs) ∧
    (∀ (fuel : Nat) (s : SlruShared) (fs : SlruFs) (pageno : Int) (bytes : List Nat)
       (b : Bool) (s' : SlruShared) (fs' : SlruFs),
      wf s →
      (∀ j, statusAt s j ≠ .EMPTY → pageAt s j ≠ pageno) →
      renv.openErr = none → renv.seekOk = true → renv.readOk = true → renv.closeOk = true →
      segExists fs (pageno.tdiv SLRU_PAGES_PER_SEGMENT) = true →
      fsReadByPage fs pageno = some bytes → bytes.length = blcksz →
      SimpleLruPageExists ctl blcksz renv wenv inRecovery fuel s fs pageno = .ok b s' fs' →
      b = true) ∧
    (∀ (fuel : Nat) (s : SlruShared) (fs : SlruFs) (pageno : Int) (b : Bool)
       (s' : SlruShared) (fs' : SlruFs),
      wf s →
      (∀ j, statusAt s j ≠ .EMPTY → pageAt s j ≠ pageno) →
      (∀ j, dirtyAt s j = false) →
      (∀ j, statusAt s j ≠ .WRITE_IN_PROGRESS) →
      renv.openErr = none →
      segExists fs (pageno.tdiv SLRU_PAGES_PER_SEGMENT) = false →
      SimpleLruPageExists ctl blcksz renv wenv true fuel s fs pageno = .ok b s' fs' →
      b = true) :=
  ⟨fun fuel s fs pageno c p sl s' fs' =>
      pexists_wenvOk_ne_ioError ctl blcksz renv wenv inRecovery hok fuel s fs pageno
        c p sl s' fs',
   fun fuel s fs pageno s' fs' hwf h =>
      pexists_false_spec ctl blcksz renv wenv inRecovery fuel s fs pageno s' fs' hwf h,
   fun fuel s fs pageno hex hnr =>
      pexists_hit_true ctl blcksz renv wenv inRecovery fuel s fs pageno hex hnr,
   fun fuel s fs pageno bytes b s' fs' hwf hnb ho hsk hrd hcl hseg him hlen h =>
      pexists_read_ok_true ctl blcksz renv wenv inRecovery fuel s fs pageno bytes b s' fs'
        hwf hnb ho hsk hrd hcl hseg him hlen h,
   fun fuel s fs pageno b s' fs' hwf hnb hcd hcw ho hseg h =>
      pexists_zero_fill_true ctl blcksz renv wenv fuel s fs pageno b s' fs'
        hwf hnb hcd hcw ho hseg h⟩

/-- Witness for C10: a pool already buffering page 5 reports it as existing
with no I/O and no state change; probing unbuffered page 9 with a full
on-disk image reads it and reports true; and in recovery the same probe
with no segment file at all zero-fills and still reports true. -/
theorem slruC10_page_exists_error_swallowing_witness :
    SimpleLruPageExists ⟨fun a b => decide (a < b), false⟩ 4 ⟨none, true, true, true⟩
      ⟨true, true, true, true⟩ false 1
      ⟨[.VALID], [false], [5], [0], [[]], 2, 5, some .exclusive⟩ ⟨[], []⟩ 5 =
      .ok true ⟨[.VALID], [false], [5], [0], [[]], 2, 5, some .exclusive⟩ ⟨[], []⟩ ∧
    SimpleLruPageExists ⟨fun a b => decide (a < b), false⟩ 4 ⟨none, true, true, true⟩
      ⟨true, true, true, true⟩ false 1
      ⟨[.EMPTY], [false], [0], [0], [[]], 2, 0, some .exclusive⟩
      ⟨["0000"], [((0, 9), [7, 7, 7, 7])]⟩ 9 =
      .ok true ⟨[.VALID], [false], [9], [4], [[7, 7, 7, 7]], 4, 0, some .exclusive⟩
        ⟨["0000"], [((0, 9), [7, 7, 7, 7])]⟩ ∧
    SimpleLruPageExists ⟨fun a b => decide (a < b), false⟩ 4 ⟨none, true, true, true⟩
      ⟨true, true, true, true⟩ true 1
      ⟨[.EMPTY], [false], [0], [0], [[]], 2, 0, some .exclusive⟩ ⟨[], []⟩ 9 =
      .ok true ⟨[.VALID], [false], [9], [4], [[0, 0, 0, 0]], 4, 0, some .exclusive⟩ ⟨[], []⟩ :=
  ⟨(slruC10_page_exists_error_swallowing ⟨fun a b => decide (a < b), false⟩ 4
      ⟨none, true, true, true⟩ ⟨true, true, true, true⟩ false (by decide)).2.2.1 0
      ⟨[.VALID], [false], [5], [0], [[]], 2, 5, some .exclusive⟩ ⟨[], []⟩ 5
      ⟨0, by decide⟩ (by decide),
   by decide, by decide⟩

end Slru
